import Mathlib

/-
  Verification development for the NEB (nuclear breakup) visualization repository.

  Shallow embedding of the animation core:
    * `BreakupAnimator` (src/unnamed/part_000): the per-kind state machines
      (elastic / nonelastic / inelastic breakup), the per-tick orchestrator
      `update`, and the lifecycle operations `play` / `stop` / `reset`.
    * `ParticleSystem` (src/unnamed/part_001, second half): entity / effect
      construction and the per-effect update operations.

  Modelling conventions:
    * JS numbers are modelled as real numbers (`ℝ`); `Math.sqrt`, `Math.sin`,
      `Math.cos`, `Math.acos` become `Real.sqrt` / `Real.sin` / `Real.cos` /
      `Real.arccos`.
    * Heap objects (three.js `Object3D`s with their `userData`) live in a
      store `ℕ → Obj` indexed by ids; aliasing in the JS (the same object
      reachable from the scene and from an animation's collections) is the
      sharing of ids.  `scene.add` / `scene.remove` are membership operations
      on a list of ids (`remove` filters, hence idempotent, as in three.js).
    * `Math.random()` is modelled by an explicit stream `rng : ℕ → ℝ` with a
      cursor; each call consumes one draw, in source order.
    * A JS field that can be `undefined` where the animator may read it
      unguardedly is an `Option`; reading an absent `velocity` (a `TypeError`
      in JS) is modelled as an `Except.error` threaded out of the per-kind
      update functions, with all mutations performed before the throw kept
      (matching JS exception semantics).  Fields the code only reads behind
      a presence test (`life`, `decay`, `ring`) are `Option`s tested by the
      embedded code.
    * Child meshes whose scale/opacity the effect updaters mutate
      (`ring`, `flash`, `beam`, `core`, `hot`, `shell`, wave rings, …) are
      inlined as scalar fields / small record lists on the owning handle.
    * Purely visual byproducts with no influence on any claim (materials,
      geometries, colors, rotation quaternions, `dispose()` calls, console
      logging) are not modelled.
-/

noncomputable section

/-! ### 3D vectors (the THREE.Vector3 collaborator) -/

structure Vec3 where
  x : ℝ
  y : ℝ
  z : ℝ

def Vec3.zero : Vec3 := ⟨0, 0, 0⟩

def Vec3.add (a b : Vec3) : Vec3 := ⟨a.x + b.x, a.y + b.y, a.z + b.z⟩

/-- `new THREE.Vector3().subVectors(a, b)`. -/
def Vec3.sub (a b : Vec3) : Vec3 := ⟨a.x - b.x, a.y - b.y, a.z - b.z⟩

/-- `v.multiplyScalar c`. -/
def Vec3.smul (c : ℝ) (a : Vec3) : Vec3 := ⟨c * a.x, c * a.y, c * a.z⟩

def Vec3.lengthSq (a : Vec3) : ℝ := a.x ^ 2 + a.y ^ 2 + a.z ^ 2

def Vec3.length (a : Vec3) : ℝ := Real.sqrt a.lengthSq

def Vec3.distSq (a b : Vec3) : ℝ := (a.x - b.x) ^ 2 + (a.y - b.y) ^ 2 + (a.z - b.z) ^ 2

/-- `a.distanceTo b`. -/
def Vec3.distanceTo (a b : Vec3) : ℝ := Real.sqrt (a.distSq b)

/-- `v.normalize()`; three.js divides by `length || 1`, so the zero vector is
left unchanged. -/
def Vec3.normalize (a : Vec3) : Vec3 :=
  if a.length = 0 then a else Vec3.smul (1 / a.length) a

/-! ### Tags: particle species, animation kinds, phases -/

/-- The `userData.type` strings of the source. -/
inductive PType where
  | proton | neutron | alpha | deuteron | li6 | li7 | be11 | li11
  | target | gamma | energyWave | compoundNucleus | excitedTarget
deriving DecidableEq, Repr

/-- The `animation.type` strings. -/
inductive AnimKind where
  | elastic | nonelastic | inelastic
deriving DecidableEq, Repr

/-- The `animation.phase` strings, across all three kinds. -/
inductive Phase where
  | approach | breakup | compound | decay | absorption | escape | complete
deriving DecidableEq, Repr

/-! ### Renderable handles -/

/-- A rotating excitation ring of the compound-nucleus effect. -/
structure SpinRing where
  rotZ : ℝ := 0
  rotationSpeed : ℝ := 0
  opacity : ℝ := 0.5

/-- One ring of an energy wave (three per stagger group). -/
structure WaveRing where
  delay : ℝ := 0
  scale : ℝ := 1
  opacity : ℝ := 0.8

/-- An oscillating shell of the excited-target effect. -/
structure OscShell where
  oscillatePhase : ℝ := 0
  oscillateSpeed : ℝ := 0
  scale : ℝ := 1
  opacity : ℝ := 0.25

/-- A renderable handle together with its `userData` simulation metadata.
One record type covers all variants; variant-specific fields keep their
defaults on the other variants (mirroring absent JS fields that are never
read there).  `life`, `decay`, `velocity` are `Option`s because the source
branches on their presence / can fault on their absence. -/
structure Obj where
  pos : Vec3 := Vec3.zero
  visible : Bool := true
  ptype : Option PType := none
  charge : ℝ := 0
  mass : ℝ := 0
  velocity : Option Vec3 := none
  life : Option ℝ := none
  decay : Option ℝ := none
  opacity : ℝ := 1
  /-- marker: `userData.ring !== undefined` (absorption flash). -/
  hasRing : Bool := false
  ringScale : ℝ := 1
  ringOpacity : ℝ := 1
  flashScale : ℝ := 1
  flashOpacity : ℝ := 0.8
  beamOpacity : ℝ := 1
  glowOpacity : ℝ := 0.4
  maxRadius : ℝ := 0
  currentRadius : ℝ := 0
  pulsePhase : ℝ := 0
  coreScale : ℝ := 1
  coreEmissive : ℝ := 1.2
  hotScale : ℝ := 1
  hotOpacity : ℝ := 0.95
  shellScale : ℝ := 1
  spinRings : List SpinRing := []
  waveRings : List WaveRing := []
  oscShells : List OscShell := []
  excitationLevel : ℝ := 1
  exPhase : ℝ := 0
  /-- trail: the FIFO of past positions. -/
  points : List Vec3 := []
  /-- trail: the id of the tracked particle. -/
  particleRef : ℕ := 0

/-! ### The animation record -/

structure Animation where
  atype : AnimKind
  projectile : ℕ
  target : ℕ
  phase : Phase
  time : ℝ := 0
  impactParam : ℝ
  fragments : List ℕ := []
  trails : List ℕ := []
  effects : List ℕ := []
  absorbedFragment : Option ℕ := none
  escapingFragment : Option ℕ := none
  compoundNucleus : Option ℕ := none
  excitedTarget : Option ℕ := none
  gammaRays : List ℕ := []
  energyWaves : List ℕ := []
  resonanceTime : ℝ := 0
  maxResonanceTime : ℝ := 80

/-! ### Animator + world state -/

/-- The mutable world as seen by one `BreakupAnimator`: the scene membership
list, the object heap, fresh-id allocation, the animator's own fields
(`isPlaying`, `speed`, `currentAnimation`), the particle system's global
trail toggle, and the random stream with its cursor. -/
structure AState where
  scene : List ℕ := []
  store : ℕ → Obj := fun _ => {}
  nextId : ℕ := 0
  isPlaying : Bool := false
  speed : ℝ := 1
  currentAnimation : Option Animation := none
  trailsEnabled : Bool := true
  rng : ℕ → ℝ := fun _ => 0
  rcur : ℕ := 0

/-- `scene.add(o)`. -/
def AState.sceneAdd (s : AState) (i : ℕ) : AState :=
  { s with scene := s.scene ++ [i] }

/-- `scene.remove(o)`: drops every occurrence; removing an absent object is
a no-op (idempotent, as in three.js). -/
def AState.sceneRemove (s : AState) (i : ℕ) : AState :=
  { s with scene := s.scene.filter (fun j => j ≠ i) }

def AState.setObj (s : AState) (i : ℕ) (o : Obj) : AState :=
  { s with store := fun j => if j = i then o else s.store j }

def AState.modifyObj (s : AState) (i : ℕ) (f : Obj → Obj) : AState :=
  s.setObj i (f (s.store i))

/-- Heap allocation of a fresh object (a `new THREE....` expression). -/
def AState.alloc (s : AState) (o : Obj) : ℕ × AState :=
  (s.nextId, { s.setObj s.nextId o with nextId := s.nextId + 1 })

/-- One `Math.random()` call. -/
def AState.draw (s : AState) : ℝ × AState :=
  (s.rng s.rcur, { s with rcur := s.rcur + 1 })

/-! ### ParticleSystem: entity creation (src/unnamed/part_001) -/

def createProton (p : Vec3) : Obj :=
  { pos := p, ptype := some .proton, charge := 1, mass := 1, velocity := some Vec3.zero }

def createNeutron (p : Vec3) : Obj :=
  { pos := p, ptype := some .neutron, charge := 0, mass := 1, velocity := some Vec3.zero }

def createAlpha (p : Vec3) : Obj :=
  { pos := p, ptype := some .alpha, charge := 2, mass := 4, velocity := some Vec3.zero }

def createDeuteron (p : Vec3) : Obj :=
  { pos := p, ptype := some .deuteron, charge := 1, mass := 2, velocity := some Vec3.zero }

/-- `createTargetNucleus`: note the target's `userData` has no `velocity`. -/
def createTargetNucleus (p : Vec3) : Obj :=
  { pos := p, ptype := some .target, charge := 50, mass := 100 }

def trailLength : ℕ := 50

/-- `createTrail(particle, color)`: `trailLength` copies of the particle's
current position, plus the reference to the tracked particle. -/
def createTrail (particlePos : Vec3) (particleId : ℕ) : Obj :=
  { points := List.replicate trailLength particlePos, particleRef := particleId }

/-- One explosion particle; the four random draws are, in source order,
the direction angles `theta`, `phi`, the speed, and the decay rate. -/
def createExplosionParticle (p : Vec3) (rTheta rPhi rSpeed rDecay : ℝ) : Obj :=
  let theta := rTheta * (2 * Real.pi)
  let phi := Real.arccos (2 * rPhi - 1)
  let speed := 0.5 + rSpeed * 1
  { pos := p
    velocity := some ⟨speed * Real.sin phi * Real.cos theta,
                      speed * Real.sin phi * Real.sin theta,
                      speed * Real.cos phi⟩
    life := some 1.0
    decay := some (0.02 + rDecay * 0.02) }

/-- The loop body of `createExplosion` (50 iterations, 4 draws each). -/
def explosionLoop (p : Vec3) : ℕ → AState → List ℕ × AState
  | 0, s => ([], s)
  | n + 1, s =>
    let (rT, s) := s.draw
    let (rP, s) := s.draw
    let (rS, s) := s.draw
    let (rD, s) := s.draw
    let (i, s) := s.alloc (createExplosionParticle p rT rP rS rD)
    let (rest, s) := explosionLoop p n s
    (i :: rest, s)

/-- `createExplosion(position, color)`: 50 particles (not yet in the scene;
callers add them). -/
def AState.createExplosion (s : AState) (p : Vec3) : List ℕ × AState :=
  explosionLoop p 50 s

/-- `createAbsorptionFlash(position, targetSize)`. -/
def createAbsorptionFlash (p : Vec3) : Obj :=
  { pos := p, life := some 1.0, hasRing := true,
    ringScale := 1, ringOpacity := 1, flashScale := 1, flashOpacity := 0.8 }

/-- `createGammaRay` with a random (isotropic) direction: two draws. -/
def createGammaRayObj (origin : Vec3) (rTheta rPhi : ℝ) : Obj :=
  let theta := rTheta * (2 * Real.pi)
  let phi := Real.arccos (2 * rPhi - 1)
  let dir := Vec3.normalize ⟨Real.sin phi * Real.cos theta,
                             Real.sin phi * Real.sin theta,
                             Real.cos phi⟩
  { pos := origin, ptype := some .gamma,
    velocity := some (Vec3.smul 0.8 dir),
    life := some 1.0, decay := some 0.025,
    beamOpacity := 1.0, glowOpacity := 0.4 }

def AState.createGammaRay (s : AState) (origin : Vec3) : ℕ × AState :=
  let (rT, s) := s.draw
  let (rP, s) := s.draw
  s.alloc (createGammaRayObj origin rT rP)

/-- `createGammaRays(origin, count)`. -/
def gammaLoop (origin : Vec3) : ℕ → AState → List ℕ × AState
  | 0, s => ([], s)
  | n + 1, s =>
    let (i, s) := s.createGammaRay origin
    let (rest, s) := gammaLoop origin n s
    (i :: rest, s)

/-- The nine rings of an energy wave: three stagger groups of three. -/
def waveRingsInit : List WaveRing :=
  (List.range 3).flatMap fun i =>
    let d := (i : ℝ) * 0.1
    let op := 0.8 - (i : ℝ) * 0.2
    [⟨d, 1, op⟩, ⟨d, 1, op⟩, ⟨d, 1, op⟩]

/-- `createEnergyWave(origin, color, maxRadius)`. -/
def createEnergyWave (origin : Vec3) (maxRadius : ℝ) : Obj :=
  { pos := origin, ptype := some .energyWave,
    life := some 1.0, decay := some 0.02,
    maxRadius := maxRadius, currentRadius := 0.1,
    waveRings := waveRingsInit }

/-- `createCompoundNucleus(position, targetSize)`. -/
def createCompoundNucleus (p : Vec3) : Obj :=
  { pos := p, ptype := some .compoundNucleus,
    life := some 1.0, decay := some 0.008, pulsePhase := 0,
    coreScale := 1, coreEmissive := 1.2, hotScale := 1, hotOpacity := 0.95,
    shellScale := 1,
    spinRings := (List.range 3).map fun i =>
      ⟨(i : ℝ) * Real.pi / 4, 0.05 + (i : ℝ) * 0.02, 0.5 - (i : ℝ) * 0.1⟩ }

/-- `createExcitedTarget(position, targetSize, excitationLevel)`. -/
def createExcitedTarget (p : Vec3) (excitationLevel : ℝ) : Obj :=
  { pos := p, ptype := some .excitedTarget,
    life := some 1.0, decay := some 0.015, exPhase := 0,
    excitationLevel := excitationLevel,
    oscShells := (List.range 2).map fun i =>
      ⟨(i : ℝ) * Real.pi / 2, 0.1 + (i : ℝ) * 0.05, 1, 0.25 - (i : ℝ) * 0.08⟩ }

/-! ### ParticleSystem: per-effect update operations (src/unnamed/part_001) -/

/-- `updateAbsorptionFlash(flash)`.  The guard returns dead when `life` is
absent; otherwise `life` is decremented first and the ring / flash children
are rescaled and faded from the decremented value. -/
def updateAbsorptionFlash (o : Obj) : Obj × Bool :=
  match o.life with
  | none => (o, false)
  | some l =>
    let l' := l - 0.03
    let scale := 1 + (1 - l') * 2
    let fscale := 1 + (1 - l')
    ({ o with
        life := some l'
        ringScale := scale
        ringOpacity := l'
        flashScale := fscale
        flashOpacity := l' * 0.8 },
     decide (0 < l'))

/-- `updateGammaRay(gamma)`: moves the beam by its velocity, decrements
`life`, fades the beam and its glow, reports `life > 0`.  (With `life` or
`decay` absent the JS arithmetic is `NaN` and every comparison on it is
false; that corner is modelled as "report dead, leave the handle alone" —
no call site constructs such a gamma.) -/
def updateGammaRay (o : Obj) : Obj × Bool :=
  match o.life, o.decay with
  | some l, some d =>
    let l' := l - d
    ({ o with
        pos := o.pos.add (o.velocity.getD Vec3.zero)
        life := some l'
        beamOpacity := l'
        glowOpacity := l' * 0.4 },
     decide (0 < l'))
  | _, _ => (o, false)

/-- `updateEnergyWave(wave)`: decrements `life`, grows `currentRadius`,
rescales/fades each ring (staggered by its `delay`, opacity by ring index
mod 3), reports `life > 0 && currentRadius < maxRadius`. -/
def updateEnergyWave (o : Obj) : Obj × Bool :=
  match o.life, o.decay with
  | some l, some d =>
    let l' := l - d
    let r' := o.currentRadius + 0.15
    let rings := o.waveRings.mapIdx fun i ring =>
      { ring with scale := max 0.1 (r' - ring.delay * 5),
                  opacity := l' * (0.8 - ((i % 3 : ℕ) : ℝ) * 0.2) }
    ({ o with life := some l', currentRadius := r', waveRings := rings },
     decide (0 < l' ∧ r' < o.maxRadius))
  | _, _ => (o, false)

/-- `updateCompoundNucleus(compound)`: pulsates core / hot / shell from the
advanced `pulsePhase`, rotates the excitation rings, fades every child when
`life < 0.3`, reports `life > 0`. -/
def updateCompoundNucleus (o : Obj) : Obj × Bool :=
  match o.life, o.decay with
  | some l, some d =>
    let l' := l - d
    let pp := o.pulsePhase + 0.15
    let pulse := Real.sin pp
    let o' := { o with
      life := some l'
      pulsePhase := pp
      coreScale := 1 + pulse * 0.08
      coreEmissive := 1.0 + pulse * 0.4
      hotScale := 1 + pulse * 0.15
      hotOpacity := 0.8 + pulse * 0.2
      shellScale := 1 + Real.sin (pp * 1.5) * 0.1
      spinRings := o.spinRings.map fun r =>
        { r with rotZ := r.rotZ + r.rotationSpeed } }
    let o'' :=
      if l' < 0.3 then
        let fade := l' / 0.3
        { o' with
          hotOpacity := o'.hotOpacity * fade
          spinRings := o'.spinRings.map fun r =>
            { r with opacity := r.opacity * fade } }
      else o'
    (o'', decide (0 < l'))
  | _, _ => (o, false)

/-- `updateExcitedTarget(excited)`: vibrates the core from the advanced
`phase`, oscillates the shells, reports `life > 0`. -/
def updateExcitedTarget (o : Obj) : Obj × Bool :=
  match o.life, o.decay with
  | some l, some d =>
    let l' := l - d
    let ph := o.exPhase + 0.12
    ({ o with
        life := some l'
        exPhase := ph
        coreScale := 1 + Real.sin ph * 0.03 * o.excitationLevel
        oscShells := o.oscShells.map fun sh =>
          let p2 := sh.oscillatePhase + sh.oscillateSpeed
          { sh with oscillatePhase := p2, scale := 1 + Real.sin p2 * 0.05 } },
     decide (0 < l'))
  | _, _ => (o, false)

/-- The per-particle body of `updateExplosion`: drift + drag + life decay +
opacity; the particle is kept when `life > 0` after the decrement.  (Call
sites only pass particles carrying `velocity`/`life`/`decay`.) -/
def updateExplosionObj (o : Obj) : Obj × Bool :=
  let v := o.velocity.getD Vec3.zero
  match o.life, o.decay with
  | some l, some d =>
    let l' := l - d
    ({ o with
        pos := o.pos.add v
        velocity := some (Vec3.smul 0.95 v)
        life := some l'
        opacity := l' },
     decide (0 < l'))
  | _, _ =>
    ({ o with pos := o.pos.add v, velocity := some (Vec3.smul 0.95 v) }, true)

/-- `updateExplosion(particles)` over a list of ids: mutates each particle in
the store and returns the surviving ids.  Dead particles are spliced out of
the *passed array only* — the scene is never touched here. -/
def updateExplosionGo : List ℕ → AState → AState × List ℕ
  | [], s => (s, [])
  | i :: t, s =>
    let (o', alive) := updateExplosionObj (s.store i)
    let s := s.setObj i o'
    let (s, rest) := updateExplosionGo t s
    (s, if alive then i :: rest else rest)

/-- `updateTrail(trail)`: drop the oldest stored position, push the tracked
particle's current position at the front; a global flag can suppress the
update entirely. -/
def updateTrail (s : AState) (trailId : ℕ) : AState :=
  if s.trailsEnabled = false then s
  else
    let tr := s.store trailId
    let particle := s.store tr.particleRef
    s.setObj trailId { tr with points := particle.pos :: tr.points.dropLast }

/-! ### BreakupAnimator: creation, playback control (src/unnamed/part_000) -/

/-- `setSpeed(speed)`. -/
def setSpeed (s : AState) (v : ℝ) : AState := { s with speed := v }

/-- `play(animation)`. -/
def play (s : AState) (a : Animation) : AState :=
  { s with currentAnimation := some a, isPlaying := true }

/-- `stop()`. -/
def stop (s : AState) : AState := { s with isPlaying := false }

/-- `reset()`: removes every entity of the current animation from the scene,
restores the target's visibility, clears the current animation, stops. -/
def reset (s : AState) : AState :=
  match s.currentAnimation with
  | none => { s with currentAnimation := none, isPlaying := false }
  | some a =>
    let s := a.fragments.foldl AState.sceneRemove s
    let s := a.trails.foldl AState.sceneRemove s
    let s := a.effects.foldl AState.sceneRemove s
    let s := a.gammaRays.foldl AState.sceneRemove s
    let s := a.energyWaves.foldl AState.sceneRemove s
    let s := match a.compoundNucleus with
      | some c => s.sceneRemove c
      | none => s
    let s := match a.excitedTarget with
      | some e => s.sceneRemove e
      | none => s
    let s := s.modifyObj a.target fun o => { o with visible := true }
    let s := s.sceneRemove a.projectile
    { s with currentAnimation := none, isPlaying := false }

/-- `createElasticBreakup(projectile, target, impactParam)`: places the
projectile 12 units left of the target at height `impactParam`, gives it the
initial beam velocity, returns a fresh elastic animation in `approach`. -/
def createElasticBreakup (s : AState) (projectile target : ℕ) (impactParam : ℝ) :
    AState × Animation :=
  let startX := (s.store target).pos.x - 12
  let s := s.modifyObj projectile fun o =>
    { o with pos := ⟨startX, impactParam, 0⟩, velocity := some ⟨0.2, 0, 0⟩ }
  (s, { atype := .elastic, projectile := projectile, target := target,
        phase := .approach, impactParam := impactParam })

/-- `createNonelasticBreakup(projectile, target, impactParam)`. -/
def createNonelasticBreakup (s : AState) (projectile target : ℕ) (impactParam : ℝ) :
    AState × Animation :=
  let startX := (s.store target).pos.x - 12
  let s := s.modifyObj projectile fun o =>
    { o with pos := ⟨startX, impactParam, 0⟩, velocity := some ⟨0.2, 0, 0⟩ }
  (s, { atype := .nonelastic, projectile := projectile, target := target,
        phase := .approach, impactParam := impactParam,
        resonanceTime := 0, maxResonanceTime := 80 })

/-- `createInelasticBreakup(projectile, target, impactParam)`. -/
def createInelasticBreakup (s : AState) (projectile target : ℕ) (impactParam : ℝ) :
    AState × Animation :=
  let startX := (s.store target).pos.x - 12
  let s := s.modifyObj projectile fun o =>
    { o with pos := ⟨startX, impactParam, 0⟩, velocity := some ⟨0.2, 0, 0⟩ }
  (s, { atype := .inelastic, projectile := projectile, target := target,
        phase := .approach, impactParam := impactParam })

/-! ### BreakupAnimator: breakup initiators and effect helpers -/

/-- The elastic fragment dispatch table (`switch (projectile.userData.type)`
in `initiateElasticBreakup`): species pair and initial velocities. -/
def elasticFragSpec (t : Option PType) : (Vec3 → Obj) × (Vec3 → Obj) × Vec3 × Vec3 :=
  match t with
  | some .deuteron => (createProton, createNeutron, ⟨0.08, 0.06, 0.02⟩, ⟨0.08, -0.04, -0.02⟩)
  | some .li6 => (createAlpha, createDeuteron, ⟨0.06, 0.05, 0.01⟩, ⟨0.1, -0.03, -0.01⟩)
  | some .li7 => (createAlpha, createProton, ⟨0.06, 0.04, 0⟩, ⟨0.1, -0.05, 0⟩)
  | _ => (createProton, createNeutron, ⟨0.08, 0.05, 0⟩, ⟨0.08, -0.05, 0⟩)

/-- `initiateElasticBreakup(animation)`: remove the projectile, create the
two fragments per the dispatch table, offset them by `(0, ±0.3, 0)`, add
them and their trails to the scene, fire the shared breakup flash. -/
def initiateElasticBreakup (s : AState) (a : Animation) : AState × Animation :=
  let proj := s.store a.projectile
  let s := s.sceneRemove a.projectile
  let (mk1, mk2, v1, v2) := elasticFragSpec proj.ptype
  let f1 := { mk1 proj.pos with velocity := some v1 }
  let f2 := { mk2 proj.pos with velocity := some v2 }
  let f1 := { f1 with pos := f1.pos.add ⟨0, 0.3, 0⟩ }
  let f2 := { f2 with pos := f2.pos.add ⟨0, -0.3, 0⟩ }
  let (i1, s) := s.alloc f1
  let (i2, s) := s.alloc f2
  let s := (s.sceneAdd i1).sceneAdd i2
  let a := { a with fragments := a.fragments ++ [i1, i2] }
  let (t1, s) := s.alloc (createTrail (s.store i1).pos i1)
  let (t2, s) := s.alloc (createTrail (s.store i2).pos i2)
  let s := (s.sceneAdd t1).sceneAdd t2
  let a := { a with trails := a.trails ++ [t1, t2] }
  let (flash, s) := s.createExplosion proj.pos
  let s := flash.foldl AState.sceneAdd s
  let a := { a with effects := a.effects ++ flash }
  (s, a)

/-- The nonelastic fragment dispatch (`initiateNonelasticBreakup` switch):
escaping species, absorbed species, escaping velocity. -/
def nonelasticFragSpec (t : Option PType) : (Vec3 → Obj) × (Vec3 → Obj) × Vec3 :=
  match t with
  | some .deuteron => (createNeutron, createProton, ⟨0.1, 0.08, 0.02⟩)
  | some .li6 => (createAlpha, createDeuteron, ⟨0.08, 0.06, 0⟩)
  | some .li7 => (createAlpha, createProton, ⟨0.08, 0.05, 0⟩)
  | _ => (createNeutron, createProton, ⟨0.1, 0.06, 0⟩)

/-- `initiateNonelasticBreakup(animation)`: one escaping fragment (with an
outward velocity and a trail), one absorbed fragment steered later. -/
def initiateNonelasticBreakup (s : AState) (a : Animation) : AState × Animation :=
  let proj := s.store a.projectile
  let s := s.sceneRemove a.projectile
  let (mkE, mkA, vE) := nonelasticFragSpec proj.ptype
  let esc := { mkE proj.pos with velocity := some vE }
  let abs := mkA proj.pos
  let esc := { esc with pos := esc.pos.add ⟨0, 0.5, 0⟩ }
  let abs := { abs with pos := abs.pos.add ⟨0, -0.3, 0⟩ }
  let (iE, s) := s.alloc esc
  let (iA, s) := s.alloc abs
  let s := (s.sceneAdd iE).sceneAdd iA
  let a := { a with escapingFragment := some iE, absorbedFragment := some iA,
                    fragments := a.fragments ++ [iE, iA] }
  let (tr, s) := s.alloc (createTrail (s.store iE).pos iE)
  let s := s.sceneAdd tr
  let a := { a with trails := a.trails ++ [tr] }
  let (flash, s) := s.createExplosion proj.pos
  let s := flash.foldl AState.sceneAdd s
  let a := { a with effects := a.effects ++ flash }
  (s, a)

/-- The inelastic fragment dispatch (`initiateInelasticBreakup` switch). -/
def inelasticFragSpec (t : Option PType) : (Vec3 → Obj) × (Vec3 → Obj) × Vec3 × Vec3 :=
  match t with
  | some .deuteron => (createProton, createNeutron, ⟨0.1, 0.04, 0.01⟩, ⟨0.08, -0.03, -0.01⟩)
  | _ => (createProton, createNeutron, ⟨0.1, 0.04, 0⟩, ⟨0.08, -0.04, 0⟩)

/-- `initiateInelasticBreakup(animation)`: fragments + trails, swap the
target for an excited variant, energy wave, breakup flash. -/
def initiateInelasticBreakup (s : AState) (a : Animation) : AState × Animation :=
  let proj := s.store a.projectile
  let s := s.sceneRemove a.projectile
  let (mk1, mk2, v1, v2) := inelasticFragSpec proj.ptype
  let f1 := { mk1 proj.pos with velocity := some v1 }
  let f2 := { mk2 proj.pos with velocity := some v2 }
  let f1 := { f1 with pos := f1.pos.add ⟨0, 0.2, 0⟩ }
  let f2 := { f2 with pos := f2.pos.add ⟨0, -0.2, 0⟩ }
  let (i1, s) := s.alloc f1
  let (i2, s) := s.alloc f2
  let s := (s.sceneAdd i1).sceneAdd i2
  let a := { a with fragments := a.fragments ++ [i1, i2] }
  let (t1, s) := s.alloc (createTrail (s.store i1).pos i1)
  let (t2, s) := s.alloc (createTrail (s.store i2).pos i2)
  let s := (s.sceneAdd t1).sceneAdd t2
  let a := { a with trails := a.trails ++ [t1, t2] }
  let tpos := (s.store a.target).pos
  let s := s.modifyObj a.target fun o => { o with visible := false }
  let (ex, s) := s.alloc (createExcitedTarget tpos 1.5)
  let s := s.sceneAdd ex
  let a := { a with excitedTarget := some ex }
  let (w, s) := s.alloc (createEnergyWave tpos 5)
  let s := s.sceneAdd w
  let a := { a with energyWaves := a.energyWaves ++ [w] }
  let (flash, s) := s.createExplosion proj.pos
  let s := flash.foldl AState.sceneAdd s
  let a := { a with effects := a.effects ++ flash }
  (s, a)

/-- `createCompoundNucleusEffect(animation, absorbedFragment)`: remove the
absorbed fragment, hide the target, spawn compound nucleus + energy wave +
absorption flash. -/
def createCompoundNucleusEffect (s : AState) (a : Animation) (absorbedId : ℕ) :
    AState × Animation :=
  let s := s.sceneRemove absorbedId
  let s := s.modifyObj a.target fun o => { o with visible := false }
  let tpos := (s.store a.target).pos
  let (c, s) := s.alloc (createCompoundNucleus tpos)
  let s := s.sceneAdd c
  let a := { a with compoundNucleus := some c }
  let (w, s) := s.alloc (createEnergyWave tpos 6)
  let s := s.sceneAdd w
  let a := { a with energyWaves := a.energyWaves ++ [w] }
  let (fl, s) := s.alloc (createAbsorptionFlash tpos)
  let s := s.sceneAdd fl
  let a := { a with effects := a.effects ++ [fl] }
  (s, a)

/-- `emitGammaRays(animation)`: `3 + Math.floor(Math.random() * 3)` gammas
from the target position, each added to the scene and to `gammaRays`. -/
def emitGammaRays (s : AState) (a : Animation) : AState × Animation :=
  let origin := (s.store a.target).pos
  let (r, s) := s.draw
  let gammaCount := 3 + (Int.floor (r * 3)).toNat
  let (gs, s) := gammaLoop origin gammaCount s
  let s := gs.foldl AState.sceneAdd s
  let a := { a with gammaRays := a.gammaRays ++ gs }
  (s, a)

/-- `initiateDecayPhase(animation)`: drop the compound nucleus, restore the
target, final energy wave, two more gammas. -/
def initiateDecayPhase (s : AState) (a : Animation) : AState × Animation :=
  let (s, a) := match a.compoundNucleus with
    | some c => (s.sceneRemove c, { a with compoundNucleus := none })
    | none => (s, a)
  let s := s.modifyObj a.target fun o => { o with visible := true }
  let tpos := (s.store a.target).pos
  let (w, s) := s.alloc (createEnergyWave tpos 8)
  let s := s.sceneAdd w
  let a := { a with energyWaves := a.energyWaves ++ [w] }
  let (gs, s) := gammaLoop tpos 2 s
  let s := gs.foldl AState.sceneAdd s
  let a := { a with gammaRays := a.gammaRays ++ gs }
  (s, a)

/-- `emitTargetGammas(animation)`: restore target visibility, two gammas,
one final energy wave. -/
def emitTargetGammas (s : AState) (a : Animation) : AState × Animation :=
  let origin := (s.store a.target).pos
  let s := s.modifyObj a.target fun o => { o with visible := true }
  let (gs, s) := gammaLoop origin 2 s
  let s := gs.foldl AState.sceneAdd s
  let a := { a with gammaRays := a.gammaRays ++ gs }
  let (w, s) := s.alloc (createEnergyWave origin 6)
  let s := s.sceneAdd w
  let a := { a with energyWaves := a.energyWaves ++ [w] }
  (s, a)

/-- The filter body of `updateEffects`: absorption flashes (marked by a
`ring` child) via `updateAbsorptionFlash` with scene removal when dead;
explosion particles (`velocity` and `decay` present) updated inline with
scene removal when `life` hits 0; anything else dropped defensively (from
the collection only). -/
def updateEffectsGo : List ℕ → AState → AState × List ℕ
  | [], s => (s, [])
  | i :: t, s =>
    let o := s.store i
    if o.hasRing then
      let (o', alive) := updateAbsorptionFlash o
      let s := s.setObj i o'
      let s := if alive then s else s.sceneRemove i
      let (s, rest) := updateEffectsGo t s
      (s, if alive then i :: rest else rest)
    else if o.velocity.isSome && o.decay.isSome then
      let v := o.velocity.getD Vec3.zero
      match o.life with
      | some l =>
        let l' := l - o.decay.getD 0
        let o' := { o with
          pos := o.pos.add v
          velocity := some (Vec3.smul 0.95 v)
          life := some l'
          opacity := max 0 l' }
        let s := s.setObj i o'
        if l' ≤ 0 then
          let s := s.sceneRemove i
          let (s, rest) := updateEffectsGo t s
          (s, rest)
        else
          let (s, rest) := updateEffectsGo t s
          (s, i :: rest)
      | none =>
        -- life absent: the JS decrement gives NaN, `NaN <= 0` is false: kept
        let o' := { o with pos := o.pos.add v, velocity := some (Vec3.smul 0.95 v) }
        let s := s.setObj i o'
        let (s, rest) := updateEffectsGo t s
        (s, i :: rest)
    else
      let (s, rest) := updateEffectsGo t s
      (s, rest)

/-- `updateEffects(animation)`. -/
def updateEffects (s : AState) (a : Animation) : AState × Animation :=
  let (s, es) := updateEffectsGo a.effects s
  (s, { a with effects := es })

/-- The `gammaRays.filter(...)` pattern: update each gamma, remove dead ones
from the scene, keep the survivors. -/
def filterGammasGo : List ℕ → AState → AState × List ℕ
  | [], s => (s, [])
  | g :: t, s =>
    let (o', alive) := updateGammaRay (s.store g)
    let s := s.setObj g o'
    let s := if alive then s else s.sceneRemove g
    let (s, rest) := filterGammasGo t s
    (s, if alive then g :: rest else rest)

/-- The `energyWaves.filter(...)` pattern. -/
def filterWavesGo : List ℕ → AState → AState × List ℕ
  | [], s => (s, [])
  | w :: t, s =>
    let (o', alive) := updateEnergyWave (s.store w)
    let s := s.setObj w o'
    let s := if alive then s else s.sceneRemove w
    let (s, rest) := filterWavesGo t s
    (s, if alive then w :: rest else rest)

/-! ### BreakupAnimator: the per-kind per-tick state machines -/

/-- The `approach` case of `updateElasticBreakup`: drift, pseudo-Coulomb
repulsion inside radius 6, breakup trigger at distance 3.5.  Reading an
absent projectile velocity is the fault (`.clone()` on `undefined`). -/
def elasticApproach (s : AState) (a : Animation) : AState × Animation × Except Unit Bool :=
  match (s.store a.projectile).velocity with
  | none => (s, a, .error ())
  | some v =>
    let s := s.modifyObj a.projectile fun o => { o with pos := o.pos.add (Vec3.smul s.speed v) }
    let ppos := (s.store a.projectile).pos
    let tpos := (s.store a.target).pos
    let distToTarget := ppos.distanceTo tpos
    let s :=
      if distToTarget < 6 then
        s.modifyObj a.projectile fun o =>
          let force := Vec3.smul (0.003 / (distToTarget * distToTarget) * s.speed)
            ((ppos.sub tpos).normalize)
          { o with velocity := some (v.add force) }
      else s
    if distToTarget < 3.5 then
      let a := { a with phase := .breakup }
      let (s, a) := initiateElasticBreakup s a
      (s, a, .ok false)
    else (s, a, .ok false)

/-- The fragment `forEach` of the elastic `breakup` case: per-fragment
Coulomb kick (beyond distance 0.5), drift, trail refresh by index. -/
def elasticFragsGo : List (ℕ × ℕ) → AState → Animation → AState × Except Unit Unit
  | [], s, _ => (s, .ok ())
  | (idx, f) :: rest, s, a =>
    let frag := s.store f
    let tpos := (s.store a.target).pos
    let dist := frag.pos.distanceTo tpos
    match frag.velocity with
    | none => (s, .error ())
    | some v =>
      let v :=
        if 0.5 < dist then
          v.add (Vec3.smul (0.001 * frag.charge / (dist * dist) * s.speed)
            ((frag.pos.sub tpos).normalize))
        else v
      let s := s.setObj f { frag with velocity := some v, pos := frag.pos.add (Vec3.smul s.speed v) }
      let s :=
        match a.trails.get? idx with
        | some tr => updateTrail s tr
        | none => s
      elasticFragsGo rest s a

/-- The `breakup` case of `updateElasticBreakup`: move every fragment, then
transition to `complete` once all fragments are beyond distance 15. -/
def elasticBreakupPhase (s : AState) (a : Animation) : AState × Animation × Except Unit Bool :=
  match elasticFragsGo a.fragments.enum s a with
  | (s, .error e) => (s, a, .error e)
  | (s, .ok ()) =>
    let tpos := (s.store a.target).pos
    let allEscaped := a.fragments.all fun f => decide (15 < (s.store f).pos.distanceTo tpos)
    let a := if allEscaped then { a with phase := .complete } else a
    (s, a, .ok false)

/-- `updateElasticBreakup(animation, delta)`. -/
def updateElasticBreakup (s : AState) (a : Animation) (δ : ℝ) :
    AState × Animation × Except Unit Bool :=
  let a := { a with time := a.time + δ * s.speed }
  match a.phase with
  | .approach => elasticApproach s a
  | .breakup => elasticBreakupPhase s a
  | .complete => (s, a, .ok true)
  | _ => (s, a, .ok false)

/-- The `approach` case of `updateNonelasticBreakup` (weaker force constant,
closer breakup threshold). -/
def nonelasticApproach (s : AState) (a : Animation) : AState × Animation × Except Unit Bool :=
  match (s.store a.projectile).velocity with
  | none => (s, a, .error ())
  | some v =>
    let s := s.modifyObj a.projectile fun o => { o with pos := o.pos.add (Vec3.smul s.speed v) }
    let ppos := (s.store a.projectile).pos
    let tpos := (s.store a.target).pos
    let distToTarget := ppos.distanceTo tpos
    let s :=
      if distToTarget < 6 then
        s.modifyObj a.projectile fun o =>
          let force := Vec3.smul (0.002 / (distToTarget * distToTarget) * s.speed)
            ((ppos.sub tpos).normalize)
          { o with velocity := some (v.add force) }
      else s
    if distToTarget < 3 then
      let a := { a with phase := .breakup }
      let (s, a) := initiateNonelasticBreakup s a
      (s, a, .ok false)
    else (s, a, .ok false)

/-- The `breakup` case of `updateNonelasticBreakup`: move the escaping
fragment (with Coulomb kick and trail), steer the absorbed fragment toward
the target at constant speed, transition to `compound` inside radius 2.2. -/
def nonelasticBreakupPhase (s : AState) (a : Animation) : AState × Animation × Except Unit Bool :=
  let step1 : AState × Except Unit Unit :=
    match a.escapingFragment with
    | none => (s, .ok ())
    | some fId =>
      let frag := s.store fId
      let tpos := (s.store a.target).pos
      let dist := frag.pos.distanceTo tpos
      match frag.velocity with
      | none => (s, .error ())
      | some v =>
        let v :=
          if 0.5 < dist then
            v.add (Vec3.smul (0.001 * frag.charge / (dist * dist) * s.speed)
              ((frag.pos.sub tpos).normalize))
          else v
        let s := s.setObj fId { frag with velocity := some v, pos := frag.pos.add (Vec3.smul s.speed v) }
        let s :=
          match a.trails.head? with
          | some tr => updateTrail s tr
          | none => s
        (s, .ok ())
  match step1 with
  | (s, .error e) => (s, a, .error e)
  | (s, .ok ()) =>
    match a.absorbedFragment with
    | none => (s, a, .ok false)
    | some bId =>
      let absorbed := s.store bId
      let tpos := (s.store a.target).pos
      let distToCore := absorbed.pos.distanceTo tpos
      if 2.2 < distToCore then
        let toTarget := Vec3.smul (0.08 * s.speed) ((tpos.sub absorbed.pos).normalize)
        let s := s.setObj bId { absorbed with pos := absorbed.pos.add toTarget }
        (s, a, .ok false)
      else
        let a := { a with phase := .compound }
        let (s, a) := createCompoundNucleusEffect s a bId
        (s, a, .ok false)

/-- Tail of the `compound` case: one-shot gamma cascade past 60% of the
resonance window, gamma filtering, transition to `decay` when the window
expires. -/
def nonelasticCompoundTail (s : AState) (a : Animation) : AState × Animation × Except Unit Bool :=
  let (s, a) :=
    if a.maxResonanceTime * 0.6 < a.resonanceTime ∧ a.gammaRays.length = 0 then
      emitGammaRays s a
    else (s, a)
  let (s, gs) := filterGammasGo a.gammaRays s
  let a := { a with gammaRays := gs }
  if a.maxResonanceTime < a.resonanceTime then
    let a := { a with phase := .decay }
    let (s, a) := initiateDecayPhase s a
    (s, a, .ok false)
  else (s, a, .ok false)

/-- The `compound` case of `updateNonelasticBreakup`: advance the resonance
clock by the speed, pulsate (and possibly retire) the compound nucleus,
drift the escaping fragment, then the cascade/decay tail. -/
def nonelasticCompoundPhase (s : AState) (a : Animation) : AState × Animation × Except Unit Bool :=
  let a := { a with resonanceTime := a.resonanceTime + s.speed }
  let (s, a) :=
    match a.compoundNucleus with
    | some c =>
      let (o', alive) := updateCompoundNucleus (s.store c)
      let s := s.setObj c o'
      if alive then (s, a) else (s.sceneRemove c, { a with compoundNucleus := none })
    | none => (s, a)
  match a.escapingFragment with
  | some fId =>
    let frag := s.store fId
    match frag.velocity with
    | none => (s, a, .error ())
    | some v =>
      let s := s.setObj fId { frag with pos := frag.pos.add (Vec3.smul s.speed v) }
      let s :=
        match a.trails.head? with
        | some tr => updateTrail s tr
        | none => s
      nonelasticCompoundTail s a
  | none => nonelasticCompoundTail s a

/-- The `decay` case of `updateNonelasticBreakup`: filter energy waves and
gammas, run `updateEffects`, drift the escaping fragment, complete beyond
distance 15. -/
def nonelasticDecayPhase (s : AState) (a : Animation) : AState × Animation × Except Unit Bool :=
  let (s, ws) := filterWavesGo a.energyWaves s
  let a := { a with energyWaves := ws }
  let (s, gs) := filterGammasGo a.gammaRays s
  let a := { a with gammaRays := gs }
  let (s, a) := updateEffects s a
  match a.escapingFragment with
  | none => (s, a, .ok false)
  | some fId =>
    let frag := s.store fId
    match frag.velocity with
    | none => (s, a, .error ())
    | some v =>
      let s := s.setObj fId { frag with pos := frag.pos.add (Vec3.smul s.speed v) }
      let s :=
        match a.trails.head? with
        | some tr => updateTrail s tr
        | none => s
      let tpos := (s.store a.target).pos
      let a := if 15 < (s.store fId).pos.distanceTo tpos then { a with phase := .complete } else a
      (s, a, .ok false)

/-- The legacy `absorption` case of `updateNonelasticBreakup` — kept in the
source "for compatibility"; deliberately embedded as its own copy of the
block so that its agreement with `decay` is a theorem, not a definition. -/
def nonelasticAbsorptionPhase (s : AState) (a : Animation) : AState × Animation × Except Unit Bool :=
  let (s, a) := updateEffects s a
  match a.escapingFragment with
  | none => (s, a, .ok false)
  | some fId =>
    let frag := s.store fId
    match frag.velocity with
    | none => (s, a, .error ())
    | some v =>
      let s := s.setObj fId { frag with pos := frag.pos.add (Vec3.smul s.speed v) }
      let s :=
        match a.trails.head? with
        | some tr => updateTrail s tr
        | none => s
      let tpos := (s.store a.target).pos
      let a := if 15 < (s.store fId).pos.distanceTo tpos then { a with phase := .complete } else a
      (s, a, .ok false)

/-- `updateNonelasticBreakup(animation, delta)`.  After every case except a
`complete` early return (and except a fault), line 426 of the source runs
`particleSystem.updateExplosion` on a *freshly filtered copy* of
`animation.effects`: particle mutations land in the store, but the splice
of dead particles is lost with the copy and the scene is never touched.
`nonelasticPost` is that post-switch block. -/
def nonelasticPost (s : AState) (a : Animation) (r : Except Unit Bool) :
    AState × Animation × Except Unit Bool :=
  match r with
  | .ok false =>
    let (s, _) := updateExplosionGo (a.effects.filter fun e => (s.store e).velocity.isSome) s
    (s, a, .ok false)
  | _ => (s, a, r)

def updateNonelasticBreakup (s : AState) (a : Animation) (δ : ℝ) :
    AState × Animation × Except Unit Bool :=
  let a := { a with time := a.time + δ * s.speed }
  let (s, a, r) :=
    match a.phase with
    | .approach => nonelasticApproach s a
    | .breakup => nonelasticBreakupPhase s a
    | .compound => nonelasticCompoundPhase s a
    | .decay => nonelasticDecayPhase s a
    | .absorption => nonelasticAbsorptionPhase s a
    | .complete => (s, a, .ok true)
    | _ => (s, a, .ok false)
  nonelasticPost s a r

/-- The `approach` case of `updateInelasticBreakup`: drift + Coulomb, the
in-place excitation trigger at 3.5 (phase unchanged), the passed-beyond
check switching to `escape`. -/
def inelasticApproach (s : AState) (a : Animation) : AState × Animation × Except Unit Bool :=
  match (s.store a.projectile).velocity with
  | none => (s, a, .error ())
  | some v =>
    let s := s.modifyObj a.projectile fun o => { o with pos := o.pos.add (Vec3.smul s.speed v) }
    let ppos := (s.store a.projectile).pos
    let tpos := (s.store a.target).pos
    let distToTarget := ppos.distanceTo tpos
    let s :=
      if distToTarget < 6 then
        s.modifyObj a.projectile fun o =>
          let force := Vec3.smul (0.0025 / (distToTarget * distToTarget) * s.speed)
            ((ppos.sub tpos).normalize)
          { o with velocity := some (v.add force) }
      else s
    let (s, a) :=
      if distToTarget < 3.5 ∧ a.excitedTarget = none then initiateInelasticBreakup s a
      else (s, a)
    let a := if tpos.x + 5 < ppos.x then { a with phase := .escape } else a
    (s, a, .ok false)

/-- The fragment `forEach` of the inelastic `escape` case (no forces). -/
def inelasticFragsGo : List (ℕ × ℕ) → AState → Animation → AState × Except Unit Unit
  | [], s, _ => (s, .ok ())
  | (idx, f) :: rest, s, a =>
    let frag := s.store f
    match frag.velocity with
    | none => (s, .error ())
    | some v =>
      let s := s.setObj f { frag with pos := frag.pos.add (Vec3.smul s.speed v) }
      let s :=
        match a.trails.get? idx with
        | some tr => updateTrail s tr
        | none => s
      inelasticFragsGo rest s a

/-- The `escape` case of `updateInelasticBreakup`: fragments drift, the
excited target evolves (emitting gammas when it expires), gammas and waves
are filtered, completion needs all fragments far, no gammas, no excited
target. -/
def inelasticEscapePhase (s : AState) (a : Animation) : AState × Animation × Except Unit Bool :=
  match inelasticFragsGo a.fragments.enum s a with
  | (s, .error e) => (s, a, .error e)
  | (s, .ok ()) =>
    let (s, a) :=
      match a.excitedTarget with
      | some e =>
        let (o', alive) := updateExcitedTarget (s.store e)
        let s := s.setObj e o'
        if alive then (s, a)
        else
          let s := s.sceneRemove e
          let a := { a with excitedTarget := none }
          emitTargetGammas s a
      | none => (s, a)
    let (s, gs) := filterGammasGo a.gammaRays s
    let a := { a with gammaRays := gs }
    let (s, ws) := filterWavesGo a.energyWaves s
    let a := { a with energyWaves := ws }
    let tpos := (s.store a.target).pos
    let allFar := a.fragments.all fun f => decide (15 < (s.store f).pos.distanceTo tpos)
    let a :=
      if allFar ∧ a.gammaRays.length = 0 ∧ a.excitedTarget = none then
        { a with phase := .complete }
      else a
    (s, a, .ok false)

/-- `updateInelasticBreakup(animation, delta)`. -/
def updateInelasticBreakup (s : AState) (a : Animation) (δ : ℝ) :
    AState × Animation × Except Unit Bool :=
  let a := { a with time := a.time + δ * s.speed }
  match a.phase with
  | .approach => inelasticApproach s a
  | .escape => inelasticEscapePhase s a
  | .complete => (s, a, .ok true)
  | _ => (s, a, .ok false)

/-- `update(delta)`: the per-frame orchestrator.  No-op returning `false`
when nothing is playing; otherwise dispatch on the animation kind inside
the `try`; a completed tick or a caught fault stops playback and returns
`true`; a fault never escapes (the result type is a plain `Bool`).  The
`default` arm of the source's kind switch also calls the nonelastic update;
the kind type has exactly the three constructors, so it is unreachable
here. -/
def kindUpdate (s : AState) (a : Animation) (δ : ℝ) : AState × Animation × Except Unit Bool :=
  match a.atype with
  | .elastic => updateElasticBreakup s a δ
  | .nonelastic => updateNonelasticBreakup s a δ
  | .inelastic => updateInelasticBreakup s a δ

/-- See the doc comment above `kindUpdate`: `update` proper. -/
def update (s : AState) (δ : ℝ) : AState × Bool :=
  match s.currentAnimation with
  | none => (s, false)
  | some a =>
    if s.isPlaying = false then (s, false)
    else
      let (s', a', r) := kindUpdate s a δ
      let s' := { s' with currentAnimation := some a' }
      match r with
      | .ok true => ({ s' with isPlaying := false }, true)
      | .ok false => (s', false)
      | .error _ => ({ s' with isPlaying := false }, true)

/-- `n` render-loop frames: `update` iterated with a fixed `delta`. -/
def ticks (δ : ℝ) (s : AState) : ℕ → AState
  | 0 => s
  | n + 1 => (update (ticks δ s n) δ).1

/-- A concrete animator state for C2: an elastic animation in `breakup`
whose single fragment (id 1) is in the scene alongside the target (id 0). -/
def cxAnimC2 : Animation :=
  { atype := .elastic, projectile := 5, target := 0, phase := .breakup,
    impactParam := 3, fragments := [1] }

def cxStateC2 : AState :=
  { scene := [0, 1], isPlaying := true, currentAnimation := some cxAnimC2 }

/-- The forward ordering of phases used by the three state machines:
elastic `approach(0) → breakup(1) → complete(4)`; nonelastic
`approach(0) → breakup(1) → compound(2) → decay/absorption(3) →
complete(4)`; inelastic `approach(0) → escape(1) → complete(4)`. -/
def phaseRank : Phase → ℕ
  | .approach => 0
  | .breakup => 1
  | .escape => 1
  | .compound => 2
  | .decay => 3
  | .absorption => 3
  | .complete => 4

/-- The species pair of the elastic dispatch table, as data. -/
def elasticFragTypes (t : Option PType) : PType × PType :=
  match t with
  | some .deuteron => (.proton, .neutron)
  | some .li6 => (.alpha, .deuteron)
  | some .li7 => (.alpha, .proton)
  | _ => (.proton, .neutron)

def cxAnimC5 : Animation :=
  { atype := .elastic, projectile := 1, target := 0, phase := .breakup, impactParam := 3 }

def cxStateC5 : AState := { nextId := 2 }

/-- A gamma-ray handle that is already dead (`life = 0`). -/
def cxGammaC6 : Obj :=
  { pos := ⟨0, 0, 0⟩, velocity := some ⟨1, 0, 0⟩, life := some 0, decay := some 0.025 }

def setTime (a : Animation) (t : ℝ) : Animation := { a with time := t }

/-- Replace only the time of the animation component of an initiator result. -/
def liftP (t : ℝ) (p : AState × Animation) : AState × Animation :=
  (p.1, setTime p.2 t)

/-- Replace only the time of the animation component of a phase-step result. -/
def liftT (t : ℝ) (p : AState × Animation × Except Unit Bool) :
    AState × Animation × Except Unit Bool :=
  (p.1, setTime p.2.1 t, p.2.2)

/-- A small running animator state used to instantiate the delta-independence
contract at concrete deltas: one elastic animation at phase `complete`. -/
def c10Anim : Animation :=
  { atype := .elastic, projectile := 0, target := 1, phase := .complete, impactParam := 3 }

def c10State : AState :=
  { isPlaying := true, currentAnimation := some c10Anim }

/-- A nonelastic animation sitting in the legacy `absorption` phase with no
pending gammas or waves, for instantiating the absorption/decay agreement. -/
def c9Anim : Animation :=
  { atype := .nonelastic, projectile := 0, target := 1, phase := .absorption,
    impactParam := 0, effects := [2], escapingFragment := some 3 }

def c9State : AState := { scene := [1, 2, 3], nextId := 4 }

/-- An explosion-type effect particle one decay step from death
(`life = 0.01`, `decay = 0.02`). -/
def c7Obj : Obj :=
  { velocity := some Vec3.zero, life := some 0.01, decay := some 0.02 }

/-- A nonelastic animation in `breakup` phase owning that particle as its
only effect. -/
def c7Anim : Animation :=
  { atype := .nonelastic, projectile := 0, target := 1, phase := .breakup,
    impactParam := 0, effects := [2] }

def c7State : AState :=
  { scene := [1, 2], store := fun j => if j = 2 then c7Obj else {}, nextId := 3,
    isPlaying := true, currentAnimation := some c7Anim }

/-- A compound-phase nonelastic animation skeleton for the gamma-cascade
analysis: compound nucleus already gone (it expires mid-window), no escaping
fragment, parametrized by `time`, `resonanceTime` and the live gamma ids. -/
def c3A (tm res : ℝ) (gs : List ℕ) : Animation :=
  { atype := .nonelastic, projectile := 0, target := 1, phase := .compound,
    impactParam := 0, time := tm, resonanceTime := res, gammaRays := gs }

/-- A slow run (`speed = 0.2`) just past the 60% resonance trigger: the state
in which the first cascade is about to fire. -/
def c3State : AState :=
  { scene := [1], nextId := 2, isPlaying := true, speed := 0.2,
    currentAnimation := some (c3A 0 48.2 []) }

/-- The default-speed (`speed = 1`) compound entry state. -/
def c3FastState : AState :=
  { scene := [1], nextId := 2, isPlaying := true, speed := 1,
    currentAnimation := some (c3A 0 0 []) }

/-- A scene whose target sits far off the beam axis, at `(0, 100, 0)`. -/
def c8Base : AState :=
  { scene := [0, 1], nextId := 2,
    store := fun j => if j = 1 then createTargetNucleus ⟨0, 100, 0⟩
      else createDeuteron ⟨0, 0, 0⟩ }

/-- `createElasticBreakup(p, t, 3)` on that scene followed by `play()`. -/
def c8Start : AState :=
  play (createElasticBreakup c8Base 0 1 3).1 (createElasticBreakup c8Base 0 1 3).2

/-- The elastic approach-phase animation skeleton of that run. -/
def c8A (tm : ℝ) : Animation :=
  { atype := .elastic, projectile := 0, target := 1, phase := .approach,
    time := tm, impactParam := 3 }

/-- The canonical post-trigger elastic breakup animation: projectile 0,
target 1, deuteron fragments 2 (proton) and 3 (neutron), trails 4 and 5. -/
def c8B (tm : ℝ) (ef : List ℕ) : Animation :=
  { atype := .elastic, projectile := 0, target := 1, phase := .breakup,
    impactParam := 3, time := tm, fragments := [2, 3], trails := [4, 5], effects := ef }

/-- The same animation once every fragment has escaped. -/
def c8Bc (tm : ℝ) (ef : List ℕ) : Animation :=
  { atype := .elastic, projectile := 0, target := 1, phase := .complete,
    impactParam := 3, time := tm, fragments := [2, 3], trails := [4, 5], effects := ef }

/-- A concrete instance of that breakup state: fragment positions as right
after the trigger (proton at `y = 3.3`, neutron at `y = 2.7`). -/
def c8WState : AState :=
  { scene := [1, 2, 3, 4, 5], nextId := 56, isPlaying := true,
    currentAnimation := some (c8B 0 []),
    store := fun j =>
      if j = 1 then createTargetNucleus ⟨0, 0, 0⟩
      else if j = 2 then { createProton ⟨-1.7, 3.3, 0⟩ with velocity := some ⟨0.08, 0.06, 0.02⟩ }
      else if j = 3 then { createNeutron ⟨-1.7, 2.7, 0⟩ with velocity := some ⟨0.08, -0.04, -0.02⟩ }
      else {} }

/-- The same two-body world with the target on the beam axis (the geometry
`main.js` actually builds: target nucleus at the origin, deuteron beam). -/
def c8OnBase : AState :=
  { scene := [0, 1], nextId := 2,
    store := fun j => if j = 1 then createTargetNucleus ⟨0, 0, 0⟩
      else createDeuteron ⟨0, 0, 0⟩ }

/-- `createElasticBreakup(p, t, 3)` on the on-axis scene followed by `play()`. -/
def c8OnStart : AState :=
  play (createElasticBreakup c8OnBase 0 1 3).1 (createElasticBreakup c8OnBase 0 1 3).2

/-- The ids of the 50 breakup-flash particles that `initiateElasticBreakup`
appends to `animation.effects`. -/
def elasticFlashIds (s : AState) (a : Animation) : List ℕ :=
  (initiateElasticBreakup s a).2.effects

/-! ### Basic lemmas about the per-kind tick results -/

theorem elasticApproach_r (s : AState) (a : Animation) :
    (elasticApproach s a).2.2 = .error () ∨ (elasticApproach s a).2.2 = .ok false := by
  unfold elasticApproach
  rcases (s.store a.projectile).velocity with _ | v <;> simp
  split <;> simp

theorem elasticBreakupPhase_r (s : AState) (a : Animation) :
    (elasticBreakupPhase s a).2.2 = .error () ∨ (elasticBreakupPhase s a).2.2 = .ok false := by
  unfold elasticBreakupPhase
  split <;> simp

theorem nonelasticApproach_r (s : AState) (a : Animation) :
    (nonelasticApproach s a).2.2 = .error () ∨ (nonelasticApproach s a).2.2 = .ok false := by
  unfold nonelasticApproach
  rcases (s.store a.projectile).velocity with _ | v <;> simp
  split <;> simp

theorem nonelasticBreakupPhase_r (s : AState) (a : Animation) :
    (nonelasticBreakupPhase s a).2.2 = .error () ∨ (nonelasticBreakupPhase s a).2.2 = .ok false := by
  unfold nonelasticBreakupPhase
  rcases hesc : a.escapingFragment with _ | fId <;> simp only [hesc]
  · rcases habs : a.absorbedFragment with _ | bId <;> simp only [habs]
    · simp
    · split <;> simp
  · rcases hv : (s.store fId).velocity with _ | v <;> simp only [hv]
    · simp
    · rcases habs : a.absorbedFragment with _ | bId <;> simp only [habs]
      · simp
      · repeat' split
        all_goals simp

theorem nonelasticCompoundTail_r (s : AState) (a : Animation) :
    (nonelasticCompoundTail s a).2.2 = .error () ∨ (nonelasticCompoundTail s a).2.2 = .ok false := by
  unfold nonelasticCompoundTail
  rcases hemit : (if a.maxResonanceTime * 0.6 < a.resonanceTime ∧ a.gammaRays.length = 0 then
      emitGammaRays s a else (s, a)) with ⟨s1, a1⟩
  simp only [hemit]
  split <;> simp

theorem nonelasticPost_r (s : AState) (a : Animation) (r : Except Unit Bool) :
    (nonelasticPost s a r).2.2 = r := by
  rcases r with e | b
  · rfl
  · cases b <;> rfl

theorem nonelasticCompoundPhase_r (s : AState) (a : Animation) :
    (nonelasticCompoundPhase s a).2.2 = .error () ∨ (nonelasticCompoundPhase s a).2.2 = .ok false := by
  unfold nonelasticCompoundPhase
  rcases hcn : a.compoundNucleus with _ | c <;> simp only [hcn] <;> try dsimp only
  · rcases hesc : a.escapingFragment with _ | fId <;> simp only [hesc]
    · exact nonelasticCompoundTail_r _ _
    · rcases hv : (s.store fId).velocity with _ | v <;> simp only [hv]
      · simp
      · exact nonelasticCompoundTail_r _ _
  · by_cases halive : (updateCompoundNucleus (s.store c)).2 = true
    · rw [if_pos halive]
      dsimp only
      rcases hesc : a.escapingFragment with _ | fId <;> simp only [hesc]
      · exact nonelasticCompoundTail_r _ _
      · rcases hv : ((s.setObj c (updateCompoundNucleus (s.store c)).1).store fId).velocity
          with _ | v <;> simp only [hv]
        · simp
        · exact nonelasticCompoundTail_r _ _
    · rw [if_neg halive]
      dsimp only
      rcases hesc : a.escapingFragment with _ | fId <;> simp only [hesc]
      · exact nonelasticCompoundTail_r _ _
      · rcases hv :
            (((s.setObj c (updateCompoundNucleus (s.store c)).1).sceneRemove c).store fId).velocity
          with _ | v <;> simp only [hv]
        · simp
        · exact nonelasticCompoundTail_r _ _

theorem updateEffects_fst (s : AState) (a : Animation) :
    (updateEffects s a).1 = (updateEffectsGo a.effects s).1 := rfl

theorem updateEffects_snd (s : AState) (a : Animation) :
    (updateEffects s a).2 = { a with effects := (updateEffectsGo a.effects s).2 } := rfl

theorem nonelasticDecayPhase_r (s : AState) (a : Animation) :
    (nonelasticDecayPhase s a).2.2 = .error () ∨ (nonelasticDecayPhase s a).2.2 = .ok false := by
  unfold nonelasticDecayPhase
  simp only [updateEffects_snd]
  try dsimp only
  rcases hesc : a.escapingFragment with _ | fId <;> simp only [hesc]
  · simp
  · split <;> simp

theorem nonelasticAbsorptionPhase_r (s : AState) (a : Animation) :
    (nonelasticAbsorptionPhase s a).2.2 = .error () ∨ (nonelasticAbsorptionPhase s a).2.2 = .ok false := by
  unfold nonelasticAbsorptionPhase
  simp only [updateEffects_snd]
  try dsimp only
  rcases hesc : a.escapingFragment with _ | fId <;> simp only [hesc]
  · simp
  · split <;> simp

theorem inelasticApproach_r (s : AState) (a : Animation) :
    (inelasticApproach s a).2.2 = .error () ∨ (inelasticApproach s a).2.2 = .ok false := by
  unfold inelasticApproach
  repeat' split
  all_goals simp

theorem inelasticEscapePhase_r (s : AState) (a : Animation) :
    (inelasticEscapePhase s a).2.2 = .error () ∨ (inelasticEscapePhase s a).2.2 = .ok false := by
  unfold inelasticEscapePhase
  repeat' split
  all_goals simp

theorem updateElasticBreakup_ok_true_iff (s : AState) (a : Animation) (δ : ℝ) :
    (updateElasticBreakup s a δ).2.2 = Except.ok true ↔ a.phase = Phase.complete := by
  unfold updateElasticBreakup
  cases hp : a.phase <;> simp only [hp] <;> try dsimp only
  case approach =>
    rcases elasticApproach_r s { a with time := a.time + δ * s.speed } with h | h <;> try rw [hp] at h
    all_goals simp [h]
  case breakup =>
    rcases elasticBreakupPhase_r s { a with time := a.time + δ * s.speed } with h | h <;> try rw [hp] at h
    all_goals simp [h]
  all_goals simp

theorem updateNonelasticBreakup_ok_true_iff (s : AState) (a : Animation) (δ : ℝ) :
    (updateNonelasticBreakup s a δ).2.2 = Except.ok true ↔ a.phase = Phase.complete := by
  unfold updateNonelasticBreakup
  cases hp : a.phase <;> simp only [hp] <;> try dsimp only
  case approach =>
    rcases nonelasticApproach_r s { a with time := a.time + δ * s.speed } with h | h <;> rw [hp] at h <;>
      simp [nonelasticPost_r, h]
  case breakup =>
    rcases nonelasticBreakupPhase_r s { a with time := a.time + δ * s.speed } with h | h <;> rw [hp] at h <;>
      simp [nonelasticPost_r, h]
  case compound =>
    rcases nonelasticCompoundPhase_r s { a with time := a.time + δ * s.speed } with h | h <;> rw [hp] at h <;>
      simp [nonelasticPost_r, h]
  case decay =>
    rcases nonelasticDecayPhase_r s { a with time := a.time + δ * s.speed } with h | h <;> rw [hp] at h <;>
      simp [nonelasticPost_r, h]
  case absorption =>
    rcases nonelasticAbsorptionPhase_r s { a with time := a.time + δ * s.speed } with h | h <;> rw [hp] at h <;>
      simp [nonelasticPost_r, h]
  all_goals simp [nonelasticPost_r]

theorem updateInelasticBreakup_ok_true_iff (s : AState) (a : Animation) (δ : ℝ) :
    (updateInelasticBreakup s a δ).2.2 = Except.ok true ↔ a.phase = Phase.complete := by
  unfold updateInelasticBreakup
  cases hp : a.phase <;> simp only [hp] <;> try dsimp only
  case approach =>
    rcases inelasticApproach_r s { a with time := a.time + δ * s.speed } with h | h <;> try rw [hp] at h
    all_goals simp [h]
  case escape =>
    rcases inelasticEscapePhase_r s { a with time := a.time + δ * s.speed } with h | h <;> try rw [hp] at h
    all_goals simp [h]
  all_goals simp

theorem kindUpdate_ok_true_iff (s : AState) (a : Animation) (δ : ℝ) :
    (kindUpdate s a δ).2.2 = Except.ok true ↔ a.phase = Phase.complete := by
  unfold kindUpdate
  cases a.atype
  · exact updateElasticBreakup_ok_true_iff s a δ
  · exact updateNonelasticBreakup_ok_true_iff s a δ
  · exact updateInelasticBreakup_ok_true_iff s a δ

/-- C1.  `update(delta)` is a no-op returning `false` when no animation is
current or playback is stopped; otherwise it returns `true` exactly when the
current animation has (already) reached phase `complete` (the per-kind
updates return `true` precisely on entering the tick in phase `complete`)
or when an exception was raised while advancing it (the `Except.error`
result of the embedded `try` body), and in both of those cases `isPlaying`
is set to `false` before returning.  No exception propagates out of
`update`: its result type is a plain `AState × Bool`, the `.error` outcome
of `kindUpdate` being consumed by the `catch` arm. -/
theorem C1_update_contract (s : AState) (δ : ℝ) :
    ((s.currentAnimation = none ∨ s.isPlaying = false) → update s δ = (s, false)) ∧
    (∀ a, s.currentAnimation = some a → s.isPlaying = true →
      (((update s δ).2 = true) ↔
        (a.phase = Phase.complete ∨ (kindUpdate s a δ).2.2 = Except.error ())) ∧
      ((update s δ).2 = true → (update s δ).1.isPlaying = false)) := by
  constructor
  · intro h
    unfold update
    rcases hca : s.currentAnimation with _ | a
    · simp
    · rcases h with h | h
      · rw [hca] at h; exact absurd h (by simp)
      · simp [h]
  · intro a hca hp
    unfold update
    simp only [hca]
    rw [if_neg (by simp [hp])]
    rcases hk : kindUpdate s a δ with ⟨s1, a1, r⟩
    have hiff := kindUpdate_ok_true_iff s a δ
    rw [hk] at hiff
    simp only at hiff
    rcases r with e | b
    · refine ⟨?_, ?_⟩
      · simp
      · intro _; simp
    · cases b
      · simp only [iff_false, Except.ok.injEq, Bool.false_eq_true] at hiff
        refine ⟨?_, ?_⟩
        · simp [hiff]
        · intro hcontra; simp at hcontra
      · simp only [true_iff] at hiff
        refine ⟨?_, ?_⟩
        · simp [hiff]
        · intro _; simp

/-- Witness for C1 at a concrete state: the default animator state has no
current animation, so `update` is a no-op returning `false`. -/
theorem C1_update_contract_witness :
    update {} 0.016 = ({}, false) :=
  (C1_update_contract {} 0.016).1 (Or.inl rfl)

/-! ### Scene membership lemmas -/

theorem sceneRemove_store (s : AState) (i : ℕ) : (s.sceneRemove i).store = s.store := rfl

theorem sceneRemove_mem (s : AState) (i j : ℕ) :
    j ∈ (s.sceneRemove i).scene ↔ j ∈ s.scene ∧ j ≠ i := by
  simp [AState.sceneRemove]

theorem mem_foldl_sceneRemove (l : List ℕ) (s : AState) (i : ℕ) :
    i ∈ (l.foldl AState.sceneRemove s).scene ↔ i ∈ s.scene ∧ i ∉ l := by
  induction l generalizing s with
  | nil => simp
  | cons x t ih =>
    rw [List.foldl_cons, ih]
    simp [sceneRemove_mem]
    tauto

theorem foldl_sceneRemove_store (l : List ℕ) (s : AState) :
    (l.foldl AState.sceneRemove s).store = s.store := by
  induction l generalizing s with
  | nil => rfl
  | cons x t ih => rw [List.foldl_cons, ih, sceneRemove_store]

theorem foldl_sceneRemove_isPlaying (l : List ℕ) (s : AState) :
    (l.foldl AState.sceneRemove s).isPlaying = s.isPlaying := by
  induction l generalizing s with
  | nil => rfl
  | cons x t ih => rw [List.foldl_cons, ih]; rfl

/-! ### C2: `stop` / `reset` -/

/-- Counterexample for C2 as stated: `stop()` only clears the playing flag —
it removes nothing from the scene.  Here the current animation added
fragment 1 to the scene, and after `stop` the fragment is still there. -/
theorem C2_counterexample :
    cxStateC2.currentAnimation = some cxAnimC2 ∧ cxAnimC2.fragments = [1] ∧
    (stop cxStateC2).isPlaying = false ∧ (1 : ℕ) ∈ (stop cxStateC2).scene := by
  refine ⟨rfl, rfl, rfl, ?_⟩
  simp [stop, cxStateC2]

/-- C2 (amended).  `reset()` stops playback, removes from the scene every
entity/effect the current animation tracks (fragments, trails, effects,
gamma rays, energy waves, compound nucleus, excited target, projectile),
clears the current-animation reference and restores `target.visible`;
`stop()`, by contrast, only sets `isPlaying := false` and removes nothing. -/
theorem C2_reset_stop (s : AState) (a : Animation) (h : s.currentAnimation = some a) :
    stop s = { s with isPlaying := false } ∧
    (reset s).isPlaying = false ∧
    (reset s).currentAnimation = none ∧
    ((reset s).store a.target).visible = true ∧
    (∀ i, (i ∈ a.fragments ∨ i ∈ a.trails ∨ i ∈ a.effects ∨ i ∈ a.gammaRays ∨
           i ∈ a.energyWaves ∨ a.compoundNucleus = some i ∨ a.excitedTarget = some i ∨
           i = a.projectile) → i ∉ (reset s).scene) := by
  refine ⟨rfl, ?_, ?_, ?_, ?_⟩
  · simp [reset, h]
  · simp [reset, h]
  · unfold reset
    rw [h]
    rcases a.compoundNucleus with _ | c <;> rcases a.excitedTarget with _ | e <;>
      simp [AState.modifyObj, AState.setObj, sceneRemove_store, foldl_sceneRemove_store]
  · intro i hi
    unfold reset
    rw [h]
    rcases hcn : a.compoundNucleus with _ | c <;> rcases hex : a.excitedTarget with _ | e <;>
      simp only [hcn, hex] <;>
      simp only [AState.modifyObj, AState.setObj] <;>
      simp [sceneRemove_mem, mem_foldl_sceneRemove] <;>
      rw [hcn] at hi <;> rw [hex] at hi <;> simp at hi <;>
      tauto

/-- Witness for C2 at the concrete state `cxStateC2`. -/
theorem C2_reset_stop_witness :
    cxStateC2.currentAnimation = some cxAnimC2 ∧
    (reset cxStateC2).isPlaying = false ∧ (reset cxStateC2).currentAnimation = none :=
  ⟨rfl, (C2_reset_stop cxStateC2 cxAnimC2 rfl).2.1,
    (C2_reset_stop cxStateC2 cxAnimC2 rfl).2.2.1⟩

/-! ### Phase behaviour of each tick case (for C4) -/

theorem initiateElasticBreakup_phase (s : AState) (a : Animation) :
    (initiateElasticBreakup s a).2.phase = a.phase := rfl

theorem initiateNonelasticBreakup_phase (s : AState) (a : Animation) :
    (initiateNonelasticBreakup s a).2.phase = a.phase := rfl

theorem initiateInelasticBreakup_phase (s : AState) (a : Animation) :
    (initiateInelasticBreakup s a).2.phase = a.phase := rfl

theorem createCompoundNucleusEffect_phase (s : AState) (a : Animation) (b : ℕ) :
    (createCompoundNucleusEffect s a b).2.phase = a.phase := rfl

theorem emitGammaRays_phase (s : AState) (a : Animation) :
    (emitGammaRays s a).2.phase = a.phase := rfl

theorem initiateDecayPhase_phase (s : AState) (a : Animation) :
    (initiateDecayPhase s a).2.phase = a.phase := by
  unfold initiateDecayPhase
  rcases a.compoundNucleus with _ | c <;> rfl

theorem emitTargetGammas_phase (s : AState) (a : Animation) :
    (emitTargetGammas s a).2.phase = a.phase := rfl

theorem elasticApproach_phase (s : AState) (a : Animation) :
    (elasticApproach s a).2.1.phase = a.phase ∨
      (elasticApproach s a).2.1.phase = Phase.breakup := by
  unfold elasticApproach
  rcases (s.store a.projectile).velocity with _ | v
  · simp
  · dsimp only
    split
    · right
      rw [initiateElasticBreakup_phase]
    · left; rfl

theorem elasticBreakupPhase_phase (s : AState) (a : Animation) :
    (elasticBreakupPhase s a).2.1.phase = a.phase ∨
      (elasticBreakupPhase s a).2.1.phase = Phase.complete := by
  unfold elasticBreakupPhase
  split
  · simp
  · dsimp only
    split
    · right; rfl
    · left; rfl

theorem nonelasticApproach_phase (s : AState) (a : Animation) :
    (nonelasticApproach s a).2.1.phase = a.phase ∨
      (nonelasticApproach s a).2.1.phase = Phase.breakup := by
  unfold nonelasticApproach
  rcases (s.store a.projectile).velocity with _ | v
  · simp
  · dsimp only
    split
    · right
      rw [initiateNonelasticBreakup_phase]
    · left; rfl

theorem nonelasticBreakupPhase_phase (s : AState) (a : Animation) :
    (nonelasticBreakupPhase s a).2.1.phase = a.phase ∨
      (nonelasticBreakupPhase s a).2.1.phase = Phase.compound := by
  unfold nonelasticBreakupPhase
  rcases hesc : a.escapingFragment with _ | fId <;> simp only [hesc]
  · rcases habs : a.absorbedFragment with _ | bId <;> simp only [habs]
    · simp
    · try dsimp only
      split
      · left; rfl
      · right; rw [createCompoundNucleusEffect_phase]
  · rcases hv : (s.store fId).velocity with _ | v <;> simp only [hv]
    · simp
    · rcases habs : a.absorbedFragment with _ | bId <;> simp only [habs]
      · simp
      · repeat' split
        all_goals first
          | (left; rfl)
          | (right; rw [createCompoundNucleusEffect_phase])

theorem nonelasticCompoundTail_phase (s : AState) (a : Animation) :
    (nonelasticCompoundTail s a).2.1.phase = a.phase ∨
      (nonelasticCompoundTail s a).2.1.phase = Phase.decay := by
  unfold nonelasticCompoundTail
  rcases hemit : (if a.maxResonanceTime * 0.6 < a.resonanceTime ∧ a.gammaRays.length = 0 then
      emitGammaRays s a else (s, a)) with ⟨s1, a1⟩
  have ha1 : a1.phase = a.phase := by
    by_cases hcc : a.maxResonanceTime * 0.6 < a.resonanceTime ∧ a.gammaRays.length = 0
    · rw [if_pos hcc] at hemit
      have h2 := congrArg Prod.snd hemit
      simp at h2
      rw [← h2, emitGammaRays_phase]
    · rw [if_neg hcc] at hemit
      have h2 := congrArg Prod.snd hemit
      simp at h2
      rw [← h2]
  simp only [hemit]
  try dsimp only
  split
  · right
    rw [initiateDecayPhase_phase]
  · left
    exact ha1

theorem nonelasticCompoundPhase_phase (s : AState) (a : Animation) :
    (nonelasticCompoundPhase s a).2.1.phase = a.phase ∨
      (nonelasticCompoundPhase s a).2.1.phase = Phase.decay := by
  unfold nonelasticCompoundPhase
  rcases hcn : a.compoundNucleus with _ | c <;> simp only [hcn] <;> try dsimp only
  · rcases hesc : a.escapingFragment with _ | fId <;> simp only [hesc]
    · exact nonelasticCompoundTail_phase _ _
    · rcases hv : (s.store fId).velocity with _ | v <;> simp only [hv]
      · simp
      · exact nonelasticCompoundTail_phase _ _
  · by_cases halive : (updateCompoundNucleus (s.store c)).2 = true
    · rw [if_pos halive]
      dsimp only
      rcases hesc : a.escapingFragment with _ | fId <;> simp only [hesc]
      · exact nonelasticCompoundTail_phase _ _
      · rcases hv : ((s.setObj c (updateCompoundNucleus (s.store c)).1).store fId).velocity
          with _ | v <;> simp only [hv]
        · simp
        · exact nonelasticCompoundTail_phase _ _
    · rw [if_neg halive]
      dsimp only
      rcases hesc : a.escapingFragment with _ | fId <;> simp only [hesc]
      · exact nonelasticCompoundTail_phase _ _
      · rcases hv :
            (((s.setObj c (updateCompoundNucleus (s.store c)).1).sceneRemove c).store fId).velocity
          with _ | v <;> simp only [hv]
        · simp
        · exact nonelasticCompoundTail_phase _ _

theorem nonelasticDecayPhase_phase (s : AState) (a : Animation) :
    (nonelasticDecayPhase s a).2.1.phase = a.phase ∨
      (nonelasticDecayPhase s a).2.1.phase = Phase.complete := by
  unfold nonelasticDecayPhase
  simp only [updateEffects_snd]
  try dsimp only
  rcases hesc : a.escapingFragment with _ | fId <;> simp only [hesc]
  · simp
  · split
    · simp
    · try dsimp only
      split
      · right; rfl
      · left; rfl

theorem nonelasticAbsorptionPhase_phase (s : AState) (a : Animation) :
    (nonelasticAbsorptionPhase s a).2.1.phase = a.phase ∨
      (nonelasticAbsorptionPhase s a).2.1.phase = Phase.complete := by
  unfold nonelasticAbsorptionPhase
  simp only [updateEffects_snd]
  try dsimp only
  rcases hesc : a.escapingFragment with _ | fId <;> simp only [hesc]
  · simp
  · split
    · simp
    · try dsimp only
      split
      · right; rfl
      · left; rfl

theorem inelasticApproach_phase (s : AState) (a : Animation) :
    (inelasticApproach s a).2.1.phase = a.phase ∨
      (inelasticApproach s a).2.1.phase = Phase.escape := by
  unfold inelasticApproach
  rcases (s.store a.projectile).velocity with _ | v
  · simp
  · dsimp only
    repeat' split
    all_goals first
      | simp
      | (left; rfl)
      | (right; rfl)
      | (left; exact initiateInelasticBreakup_phase _ _)

theorem inelasticEscapePhase_phase (s : AState) (a : Animation) :
    (inelasticEscapePhase s a).2.1.phase = a.phase ∨
      (inelasticEscapePhase s a).2.1.phase = Phase.complete := by
  unfold inelasticEscapePhase
  split
  · simp
  · dsimp only
    rcases hex : a.excitedTarget with _ | e <;> simp only [hex] <;> try dsimp only
    · repeat' split
      all_goals first
        | (left; rfl)
        | (right; rfl)
        | simp
    · repeat' split
      all_goals first
        | (left; rfl)
        | (right; rfl)
        | simp

theorem nonelasticPost_anim (s : AState) (a : Animation) (r : Except Unit Bool) :
    (nonelasticPost s a r).2.1 = a := by
  rcases r with e | b
  · rfl
  · cases b <;> rfl

/-- Transition summary of one elastic tick: the phase is unchanged, or moves
`approach → breakup`, or `breakup → complete`. -/
theorem updateElasticBreakup_phase (s : AState) (a : Animation) (δ : ℝ) :
    (updateElasticBreakup s a δ).2.1.phase = a.phase ∨
    (a.phase = .approach ∧ (updateElasticBreakup s a δ).2.1.phase = .breakup) ∨
    (a.phase = .breakup ∧ (updateElasticBreakup s a δ).2.1.phase = .complete) := by
  unfold updateElasticBreakup
  generalize hA : ({ a with time := a.time + δ * s.speed } : Animation) = A
  have hph : a.phase = A.phase := by rw [← hA]
  rw [hph]
  cases hp : A.phase <;> simp only [hp]
  case approach =>
    rcases elasticApproach_phase s A with h | h <;> try rw [hp] at h
    all_goals simp [h]
  case breakup =>
    rcases elasticBreakupPhase_phase s A with h | h <;> try rw [hp] at h
    all_goals simp [h]
  all_goals simp [hp]

/-- Transition summary of one nonelastic tick. -/
theorem updateNonelasticBreakup_phase (s : AState) (a : Animation) (δ : ℝ) :
    (updateNonelasticBreakup s a δ).2.1.phase = a.phase ∨
    (a.phase = .approach ∧ (updateNonelasticBreakup s a δ).2.1.phase = .breakup) ∨
    (a.phase = .breakup ∧ (updateNonelasticBreakup s a δ).2.1.phase = .compound) ∨
    (a.phase = .compound ∧ (updateNonelasticBreakup s a δ).2.1.phase = .decay) ∨
    (a.phase = .decay ∧ (updateNonelasticBreakup s a δ).2.1.phase = .complete) ∨
    (a.phase = .absorption ∧ (updateNonelasticBreakup s a δ).2.1.phase = .complete) := by
  unfold updateNonelasticBreakup
  generalize hA : ({ a with time := a.time + δ * s.speed } : Animation) = A
  have hph : a.phase = A.phase := by rw [← hA]
  rw [hph]
  cases hp : A.phase <;> simp only [hp] <;> try dsimp only
  case approach =>
    rcases nonelasticApproach_phase s A with h | h <;> try rw [hp] at h
    all_goals simp [nonelasticPost_anim, h]
  case breakup =>
    rcases nonelasticBreakupPhase_phase s A with h | h <;> try rw [hp] at h
    all_goals simp [nonelasticPost_anim, h]
  case compound =>
    rcases nonelasticCompoundPhase_phase s A with h | h <;> try rw [hp] at h
    all_goals simp [nonelasticPost_anim, h]
  case decay =>
    rcases nonelasticDecayPhase_phase s A with h | h <;> try rw [hp] at h
    all_goals simp [nonelasticPost_anim, h]
  case absorption =>
    rcases nonelasticAbsorptionPhase_phase s A with h | h <;> try rw [hp] at h
    all_goals simp [nonelasticPost_anim, h]
  all_goals simp [nonelasticPost_anim, hp]

/-- Transition summary of one inelastic tick. -/
theorem updateInelasticBreakup_phase (s : AState) (a : Animation) (δ : ℝ) :
    (updateInelasticBreakup s a δ).2.1.phase = a.phase ∨
    (a.phase = .approach ∧ (updateInelasticBreakup s a δ).2.1.phase = .escape) ∨
    (a.phase = .escape ∧ (updateInelasticBreakup s a δ).2.1.phase = .complete) := by
  unfold updateInelasticBreakup
  generalize hA : ({ a with time := a.time + δ * s.speed } : Animation) = A
  have hph : a.phase = A.phase := by rw [← hA]
  rw [hph]
  cases hp : A.phase <;> simp only [hp]
  case approach =>
    rcases inelasticApproach_phase s A with h | h <;> try rw [hp] at h
    all_goals simp [h]
  case escape =>
    rcases inelasticEscapePhase_phase s A with h | h <;> try rw [hp] at h
    all_goals simp [h]
  all_goals simp [hp]

/-- C4.  Each per-kind update function is monotone in the phase ordering:
over any tick, either the phase is unchanged or its rank strictly
increases — so no run of ticks ever revisits an earlier phase, for all
three animation kinds. -/
theorem C4_phase_monotone (s : AState) (a : Animation) (δ : ℝ) :
    (phaseRank a.phase ≤ phaseRank (updateElasticBreakup s a δ).2.1.phase ∧
      ((updateElasticBreakup s a δ).2.1.phase = a.phase ∨
        phaseRank a.phase < phaseRank (updateElasticBreakup s a δ).2.1.phase)) ∧
    (phaseRank a.phase ≤ phaseRank (updateNonelasticBreakup s a δ).2.1.phase ∧
      ((updateNonelasticBreakup s a δ).2.1.phase = a.phase ∨
        phaseRank a.phase < phaseRank (updateNonelasticBreakup s a δ).2.1.phase)) ∧
    (phaseRank a.phase ≤ phaseRank (updateInelasticBreakup s a δ).2.1.phase ∧
      ((updateInelasticBreakup s a δ).2.1.phase = a.phase ∨
        phaseRank a.phase < phaseRank (updateInelasticBreakup s a δ).2.1.phase)) := by
  refine ⟨?_, ?_, ?_⟩
  · rcases updateElasticBreakup_phase s a δ with h | ⟨hp, h⟩ | ⟨hp, h⟩
    · simp [h]
    all_goals simp [phaseRank, h, hp]
  · rcases updateNonelasticBreakup_phase s a δ with
      h | ⟨hp, h⟩ | ⟨hp, h⟩ | ⟨hp, h⟩ | ⟨hp, h⟩ | ⟨hp, h⟩
    · simp [h]
    all_goals simp [phaseRank, h, hp]
  · rcases updateInelasticBreakup_phase s a δ with h | ⟨hp, h⟩ | ⟨hp, h⟩
    · simp [h]
    all_goals simp [phaseRank, h, hp]

/-! ### Allocation and scene-add lemmas -/

theorem alloc_fst (s : AState) (o : Obj) : (s.alloc o).1 = s.nextId := rfl

theorem alloc_nextId (s : AState) (o : Obj) : (s.alloc o).2.nextId = s.nextId + 1 := rfl

theorem alloc_scene (s : AState) (o : Obj) : (s.alloc o).2.scene = s.scene := rfl

theorem alloc_store_self (s : AState) (o : Obj) : (s.alloc o).2.store s.nextId = o := by
  simp [AState.alloc, AState.setObj]

theorem alloc_store_ne (s : AState) (o : Obj) (j : ℕ) (h : j ≠ s.nextId) :
    (s.alloc o).2.store j = s.store j := by
  simp [AState.alloc, AState.setObj, h]

theorem sceneAdd_store (s : AState) (i : ℕ) : (s.sceneAdd i).store = s.store := rfl

theorem sceneAdd_nextId (s : AState) (i : ℕ) : (s.sceneAdd i).nextId = s.nextId := rfl

theorem mem_sceneAdd (s : AState) (i j : ℕ) :
    j ∈ (s.sceneAdd i).scene ↔ j ∈ s.scene ∨ j = i := by
  simp [AState.sceneAdd]

theorem mem_foldl_sceneAdd (l : List ℕ) (s : AState) (j : ℕ) :
    j ∈ (l.foldl AState.sceneAdd s).scene ↔ j ∈ s.scene ∨ j ∈ l := by
  induction l generalizing s with
  | nil => simp
  | cons x t ih =>
    rw [List.foldl_cons, ih]
    simp [mem_sceneAdd]
    tauto

theorem foldl_sceneAdd_store (l : List ℕ) (s : AState) :
    (l.foldl AState.sceneAdd s).store = s.store := by
  induction l generalizing s with
  | nil => rfl
  | cons x t ih => rw [List.foldl_cons, ih]; rfl

theorem foldl_sceneAdd_nextId (l : List ℕ) (s : AState) :
    (l.foldl AState.sceneAdd s).nextId = s.nextId := by
  induction l generalizing s with
  | nil => rfl
  | cons x t ih => rw [List.foldl_cons, ih]; rfl

theorem draw_scene (s : AState) : s.draw.2.scene = s.scene := rfl

theorem draw_store (s : AState) : s.draw.2.store = s.store := rfl

theorem draw_nextId (s : AState) : s.draw.2.nextId = s.nextId := rfl

/-! ### explosionLoop bookkeeping -/

theorem explosionLoop_nextId (p : Vec3) (n : ℕ) (s : AState) :
    (explosionLoop p n s).2.nextId = s.nextId + n := by
  induction n generalizing s with
  | zero => rfl
  | succ k ih =>
    show (explosionLoop p (k + 1) s).2.nextId = s.nextId + (k + 1)
    unfold explosionLoop
    rw [ih]
    simp [AState.draw, alloc_nextId, AState.alloc]
    omega

theorem explosionLoop_scene (p : Vec3) (n : ℕ) (s : AState) :
    (explosionLoop p n s).2.scene = s.scene := by
  induction n generalizing s with
  | zero => rfl
  | succ k ih =>
    unfold explosionLoop
    rw [ih]
    rfl

theorem explosionLoop_store_lt (p : Vec3) (n : ℕ) (s : AState) (j : ℕ) (h : j < s.nextId) :
    (explosionLoop p n s).2.store j = s.store j := by
  induction n generalizing s with
  | zero => rfl
  | succ k ih =>
    unfold explosionLoop
    dsimp only
    have hne : j ≠ (s.draw.2.draw.2.draw.2.draw.2).nextId := by
      simp only [draw_nextId]
      omega
    have hlt : j < ((s.draw.2.draw.2.draw.2.draw.2).alloc
        (createExplosionParticle p s.draw.1 s.draw.2.draw.1 s.draw.2.draw.2.draw.1
          s.draw.2.draw.2.draw.2.draw.1)).2.nextId := by
      simp only [alloc_nextId, draw_nextId]
      omega
    rw [ih _ hlt, alloc_store_ne _ _ _ hne]
    rfl

theorem explosionLoop_ids (p : Vec3) (n : ℕ) (s : AState) (i : ℕ)
    (h : i ∈ (explosionLoop p n s).1) : s.nextId ≤ i ∧ i < s.nextId + n := by
  induction n generalizing s with
  | zero => simp [explosionLoop] at h
  | succ k ih =>
    unfold explosionLoop at h
    dsimp only at h
    rcases List.mem_cons.mp h with h1 | h1
    · have hi : i = s.nextId := by rw [h1]; rfl
      omega
    · have h2 := ih _ h1
      simp only [alloc_nextId, draw_nextId] at h2
      omega

/-! ### C5: elastic breakup initiation -/

theorem elasticFragSpec_ptype1 (t : Option PType) (p : Vec3) :
    ((elasticFragSpec t).1 p).ptype = some (elasticFragTypes t).1 := by
  rcases t with _ | pt
  · rfl
  · cases pt <;> rfl

theorem elasticFragSpec_ptype2 (t : Option PType) (p : Vec3) :
    ((elasticFragSpec t).2.1 p).ptype = some (elasticFragTypes t).2 := by
  rcases t with _ | pt
  · rfl
  · cases pt <;> rfl

theorem elasticFragSpec_pos1 (t : Option PType) (p : Vec3) :
    ((elasticFragSpec t).1 p).pos = p := by
  rcases t with _ | pt
  · rfl
  · cases pt <;> rfl

theorem elasticFragSpec_pos2 (t : Option PType) (p : Vec3) :
    ((elasticFragSpec t).2.1 p).pos = p := by
  rcases t with _ | pt
  · rfl
  · cases pt <;> rfl

theorem sceneRemove_nextId (s : AState) (i : ℕ) : (s.sceneRemove i).nextId = s.nextId := rfl

/-- C5.  On entering elastic `breakup`, the projectile is removed from the
scene and replaced by exactly two fragments (ids `nextId`, `nextId + 1`):
their species pair is `elasticFragTypes` of the projectile's species alone
(deuteron ↦ proton + neutron), and their initial positions are the former
projectile position offset by the constants `(0, 0.3, 0)` and
`(0, -0.3, 0)` — the impact parameter `a.impactParam` is arbitrary here and
appears nowhere in the conclusion. -/
theorem C5_elastic_breakup_dispatch (s : AState) (a : Animation)
    (hfr : a.fragments = []) (hid : a.projectile < s.nextId) :
    (initiateElasticBreakup s a).2.fragments = [s.nextId, s.nextId + 1] ∧
    ((initiateElasticBreakup s a).1.store s.nextId).ptype =
      some (elasticFragTypes (s.store a.projectile).ptype).1 ∧
    ((initiateElasticBreakup s a).1.store (s.nextId + 1)).ptype =
      some (elasticFragTypes (s.store a.projectile).ptype).2 ∧
    ((initiateElasticBreakup s a).1.store s.nextId).pos =
      (s.store a.projectile).pos.add ⟨0, 0.3, 0⟩ ∧
    ((initiateElasticBreakup s a).1.store (s.nextId + 1)).pos =
      (s.store a.projectile).pos.add ⟨0, -0.3, 0⟩ ∧
    elasticFragTypes (some .deuteron) = (.proton, .neutron) ∧
    a.projectile ∉ (initiateElasticBreakup s a).1.scene := by
  unfold initiateElasticBreakup
  dsimp only
  refine ⟨?_, ?_, ?_, ?_, ?_, rfl, ?_⟩
  · simp +arith [hfr, alloc_fst, alloc_nextId, sceneRemove_nextId]
  · simp only [AState.createExplosion, foldl_sceneAdd_store, alloc_fst]
    rw [explosionLoop_store_lt]
    · simp +arith [AState.alloc, AState.setObj, AState.sceneAdd, AState.sceneRemove,
        elasticFragSpec_ptype1]
    · simp +arith [AState.alloc, AState.setObj, AState.sceneAdd, AState.sceneRemove]
  · simp only [AState.createExplosion, foldl_sceneAdd_store, alloc_fst]
    rw [explosionLoop_store_lt]
    · simp +arith [AState.alloc, AState.setObj, AState.sceneAdd, AState.sceneRemove,
        elasticFragSpec_ptype2]
    · simp +arith [AState.alloc, AState.setObj, AState.sceneAdd, AState.sceneRemove]
  · simp only [AState.createExplosion, foldl_sceneAdd_store, alloc_fst]
    rw [explosionLoop_store_lt]
    · simp +arith [AState.alloc, AState.setObj, AState.sceneAdd, AState.sceneRemove,
        elasticFragSpec_pos1]
    · simp +arith [AState.alloc, AState.setObj, AState.sceneAdd, AState.sceneRemove]
  · simp only [AState.createExplosion, foldl_sceneAdd_store, alloc_fst]
    rw [explosionLoop_store_lt]
    · simp +arith [AState.alloc, AState.setObj, AState.sceneAdd, AState.sceneRemove,
        elasticFragSpec_pos2]
    · simp +arith [AState.alloc, AState.setObj, AState.sceneAdd, AState.sceneRemove]
  · simp only [AState.createExplosion]
    rw [mem_foldl_sceneAdd]
    push_neg
    constructor
    · rw [explosionLoop_scene]
      simp [mem_sceneAdd, sceneRemove_mem, alloc_scene, alloc_fst, sceneAdd_nextId,
        sceneRemove_nextId, alloc_nextId]
      omega
    · intro hmem
      have := explosionLoop_ids _ _ _ _ hmem
      simp only [alloc_nextId, sceneAdd_nextId, sceneRemove_nextId] at this
      omega

/-- Witness for C5 at a concrete two-object world. -/
theorem C5_elastic_breakup_dispatch_witness :
    cxAnimC5.fragments = [] ∧ cxAnimC5.projectile < cxStateC5.nextId ∧
    (initiateElasticBreakup cxStateC5 cxAnimC5).2.fragments =
      [cxStateC5.nextId, cxStateC5.nextId + 1] :=
  ⟨rfl, by decide, (C5_elastic_breakup_dispatch cxStateC5 cxAnimC5 rfl (by decide)).1⟩

/-! ### C6: effect updates on already-dead handles -/

/-- Counterexample for C6 as stated: `updateGammaRay` on a handle with
`life = 0` does report it dead, but still mutates its position (the beam
advances by its velocity before the `life` check). -/
theorem C6_counterexample :
    cxGammaC6.life = some 0 ∧
    (updateGammaRay cxGammaC6).2 = false ∧
    (updateGammaRay cxGammaC6).1.pos ≠ cxGammaC6.pos := by
  refine ⟨rfl, ?_, ?_⟩
  · simp only [updateGammaRay, cxGammaC6]
    norm_num
  · simp only [updateGammaRay, cxGammaC6, Vec3.add, Option.getD]
    intro h
    have hx := congrArg Vec3.x h
    norm_num at hx

/-- C6 (amended).  Every effect-update operation applied to a handle whose
`life` is already `≤ 0` (with a nonnegative decay rate, as all creators
set) reports the effect as dead — `updateExplosion` splices it out of the
passed array — but the operations are not read-only at that boundary: one
further frame of mutation is still applied (shown for `updateGammaRay`,
whose position advances by the velocity regardless of `life`). -/
theorem C6_dead_effects_report_dead (o : Obj) (l d : ℝ)
    (hl : o.life = some l) (hld : l ≤ 0) (hd : o.decay = some d) (hdd : 0 ≤ d) :
    (updateAbsorptionFlash o).2 = false ∧
    (updateGammaRay o).2 = false ∧
    (updateEnergyWave o).2 = false ∧
    (updateCompoundNucleus o).2 = false ∧
    (updateExcitedTarget o).2 = false ∧
    (updateExplosionObj o).2 = false ∧
    (∀ s i, s.store i = o → (updateExplosionGo [i] s).2 = []) ∧
    (updateGammaRay o).1.pos = o.pos.add (o.velocity.getD Vec3.zero) := by
  have hdead : ¬ (0 < l - d) := by linarith
  refine ⟨?_, ?_, ?_, ?_, ?_, ?_, ?_, ?_⟩
  · unfold updateAbsorptionFlash
    rw [hl]
    simp only [decide_eq_false_iff_not]
    norm_num
    linarith
  · unfold updateGammaRay
    rw [hl, hd]
    simpa using hdead
  · unfold updateEnergyWave
    rw [hl, hd]
    simp only [decide_eq_false_iff_not, not_and]
    intro hcon
    exact absurd hcon hdead
  · unfold updateCompoundNucleus
    rw [hl, hd]
    by_cases hfade : l - d < 0.3 <;> simp [hfade, hdead]
  · unfold updateExcitedTarget
    rw [hl, hd]
    simpa using hdead
  · unfold updateExplosionObj
    rw [hl, hd]
    simpa using hdead
  · intro s i hsi
    unfold updateExplosionGo
    rw [hsi]
    unfold updateExplosionObj
    rw [hl, hd]
    simp [updateExplosionGo, hdead]
  · unfold updateGammaRay
    rw [hl, hd]

/-- Witness for C6 (amended) at the concrete dead gamma handle. -/
theorem C6_dead_effects_report_dead_witness :
    cxGammaC6.life = some 0 ∧ (0 : ℝ) ≤ 0 ∧ cxGammaC6.decay = some 0.025 ∧
    (0 : ℝ) ≤ 0.025 ∧ (updateGammaRay cxGammaC6).2 = false :=
  ⟨rfl, le_refl 0, rfl, by norm_num,
    (C6_dead_effects_report_dead cxGammaC6 0 0.025 rfl (le_refl 0) rfl (by norm_num)).2.1⟩

/-! ### C10: the delta argument only reaches the `time` bookkeeping field -/

theorem elasticFragsGo_t (t₂ : ℝ) (l : List (ℕ × ℕ)) (s : AState)
    (k : AnimKind) (pj tg : ℕ) (ph : Phase) (t₁ ip : ℝ) (fr tr ef : List ℕ)
    (ab es cn ex : Option ℕ) (gr ew : List ℕ) (rt mr : ℝ) :
    elasticFragsGo l s (Animation.mk k pj tg ph t₁ ip fr tr ef ab es cn ex gr ew rt mr) =
      elasticFragsGo l s (Animation.mk k pj tg ph t₂ ip fr tr ef ab es cn ex gr ew rt mr) := by
  induction l generalizing s with
  | nil => rfl
  | cons x rest ih =>
    rcases x with ⟨idx, f⟩
    unfold elasticFragsGo
    dsimp only
    rcases hv : (s.store f).velocity with _ | v <;> simp only [hv]
    all_goals first
      | rfl
      | exact ih _

theorem inelasticFragsGo_t (t₂ : ℝ) (l : List (ℕ × ℕ)) (s : AState)
    (k : AnimKind) (pj tg : ℕ) (ph : Phase) (t₁ ip : ℝ) (fr tr ef : List ℕ)
    (ab es cn ex : Option ℕ) (gr ew : List ℕ) (rt mr : ℝ) :
    inelasticFragsGo l s (Animation.mk k pj tg ph t₁ ip fr tr ef ab es cn ex gr ew rt mr) =
      inelasticFragsGo l s (Animation.mk k pj tg ph t₂ ip fr tr ef ab es cn ex gr ew rt mr) := by
  induction l generalizing s with
  | nil => rfl
  | cons x rest ih =>
    rcases x with ⟨idx, f⟩
    unfold inelasticFragsGo
    dsimp only
    rcases hv : (s.store f).velocity with _ | v <;> simp only [hv]
    all_goals first
      | rfl
      | exact ih _

theorem initiateElasticBreakup_t (t₂ : ℝ) (s : AState)
    (k : AnimKind) (pj tg : ℕ) (ph : Phase) (t₁ ip : ℝ) (fr tr ef : List ℕ)
    (ab es cn ex : Option ℕ) (gr ew : List ℕ) (rt mr : ℝ) :
    initiateElasticBreakup s (Animation.mk k pj tg ph t₁ ip fr tr ef ab es cn ex gr ew rt mr) =
      liftP t₁ (initiateElasticBreakup s
        (Animation.mk k pj tg ph t₂ ip fr tr ef ab es cn ex gr ew rt mr)) := by
  unfold initiateElasticBreakup
  dsimp only [liftP, setTime]

theorem initiateNonelasticBreakup_t (t₂ : ℝ) (s : AState)
    (k : AnimKind) (pj tg : ℕ) (ph : Phase) (t₁ ip : ℝ) (fr tr ef : List ℕ)
    (ab es cn ex : Option ℕ) (gr ew : List ℕ) (rt mr : ℝ) :
    initiateNonelasticBreakup s (Animation.mk k pj tg ph t₁ ip fr tr ef ab es cn ex gr ew rt mr) =
      liftP t₁ (initiateNonelasticBreakup s
        (Animation.mk k pj tg ph t₂ ip fr tr ef ab es cn ex gr ew rt mr)) := by
  unfold initiateNonelasticBreakup
  dsimp only [liftP, setTime]

theorem initiateInelasticBreakup_t (t₂ : ℝ) (s : AState)
    (k : AnimKind) (pj tg : ℕ) (ph : Phase) (t₁ ip : ℝ) (fr tr ef : List ℕ)
    (ab es cn ex : Option ℕ) (gr ew : List ℕ) (rt mr : ℝ) :
    initiateInelasticBreakup s (Animation.mk k pj tg ph t₁ ip fr tr ef ab es cn ex gr ew rt mr) =
      liftP t₁ (initiateInelasticBreakup s
        (Animation.mk k pj tg ph t₂ ip fr tr ef ab es cn ex gr ew rt mr)) := by
  unfold initiateInelasticBreakup
  dsimp only [liftP, setTime]

theorem createCompoundNucleusEffect_t (t₂ : ℝ) (s : AState) (b : ℕ)
    (k : AnimKind) (pj tg : ℕ) (ph : Phase) (t₁ ip : ℝ) (fr tr ef : List ℕ)
    (ab es cn ex : Option ℕ) (gr ew : List ℕ) (rt mr : ℝ) :
    createCompoundNucleusEffect s
        (Animation.mk k pj tg ph t₁ ip fr tr ef ab es cn ex gr ew rt mr) b =
      liftP t₁ (createCompoundNucleusEffect s
        (Animation.mk k pj tg ph t₂ ip fr tr ef ab es cn ex gr ew rt mr) b) := by
  unfold createCompoundNucleusEffect
  dsimp only [liftP, setTime]

theorem emitGammaRays_t (t₂ : ℝ) (s : AState)
    (k : AnimKind) (pj tg : ℕ) (ph : Phase) (t₁ ip : ℝ) (fr tr ef : List ℕ)
    (ab es cn ex : Option ℕ) (gr ew : List ℕ) (rt mr : ℝ) :
    emitGammaRays s (Animation.mk k pj tg ph t₁ ip fr tr ef ab es cn ex gr ew rt mr) =
      liftP t₁ (emitGammaRays s
        (Animation.mk k pj tg ph t₂ ip fr tr ef ab es cn ex gr ew rt mr)) := by
  unfold emitGammaRays
  dsimp only [liftP, setTime]

theorem initiateDecayPhase_t (t₂ : ℝ) (s : AState)
    (k : AnimKind) (pj tg : ℕ) (ph : Phase) (t₁ ip : ℝ) (fr tr ef : List ℕ)
    (ab es cn ex : Option ℕ) (gr ew : List ℕ) (rt mr : ℝ) :
    initiateDecayPhase s (Animation.mk k pj tg ph t₁ ip fr tr ef ab es cn ex gr ew rt mr) =
      liftP t₁ (initiateDecayPhase s
        (Animation.mk k pj tg ph t₂ ip fr tr ef ab es cn ex gr ew rt mr)) := by
  unfold initiateDecayPhase
  dsimp only [liftP, setTime]
  rcases cn with _ | c <;> rfl

theorem emitTargetGammas_t (t₂ : ℝ) (s : AState)
    (k : AnimKind) (pj tg : ℕ) (ph : Phase) (t₁ ip : ℝ) (fr tr ef : List ℕ)
    (ab es cn ex : Option ℕ) (gr ew : List ℕ) (rt mr : ℝ) :
    emitTargetGammas s (Animation.mk k pj tg ph t₁ ip fr tr ef ab es cn ex gr ew rt mr) =
      liftP t₁ (emitTargetGammas s
        (Animation.mk k pj tg ph t₂ ip fr tr ef ab es cn ex gr ew rt mr)) := by
  unfold emitTargetGammas
  dsimp only [liftP, setTime]

theorem updateEffects_t (t₂ : ℝ) (s : AState)
    (k : AnimKind) (pj tg : ℕ) (ph : Phase) (t₁ ip : ℝ) (fr tr ef : List ℕ)
    (ab es cn ex : Option ℕ) (gr ew : List ℕ) (rt mr : ℝ) :
    updateEffects s (Animation.mk k pj tg ph t₁ ip fr tr ef ab es cn ex gr ew rt mr) =
      liftP t₁ (updateEffects s
        (Animation.mk k pj tg ph t₂ ip fr tr ef ab es cn ex gr ew rt mr)) := by
  unfold updateEffects
  dsimp only [liftP, setTime]

theorem nonelasticPost_t (t₂ : ℝ) (s : AState) (r : Except Unit Bool)
    (k : AnimKind) (pj tg : ℕ) (ph : Phase) (t₁ ip : ℝ) (fr tr ef : List ℕ)
    (ab es cn ex : Option ℕ) (gr ew : List ℕ) (rt mr : ℝ) :
    nonelasticPost s (Animation.mk k pj tg ph t₁ ip fr tr ef ab es cn ex gr ew rt mr) r =
      liftT t₁ (nonelasticPost s
        (Animation.mk k pj tg ph t₂ ip fr tr ef ab es cn ex gr ew rt mr) r) := by
  rcases r with e | b
  · rfl
  · cases b <;> rfl
theorem elasticApproach_t (t₂ : ℝ) (s : AState)
    (k : AnimKind) (pj tg : ℕ) (ph : Phase) (t₁ ip : ℝ) (fr tr ef : List ℕ)
    (ab es cn ex : Option ℕ) (gr ew : List ℕ) (rt mr : ℝ) :
    elasticApproach s (Animation.mk k pj tg ph t₁ ip fr tr ef ab es cn ex gr ew rt mr) =
      liftT t₁ (elasticApproach s
        (Animation.mk k pj tg ph t₂ ip fr tr ef ab es cn ex gr ew rt mr)) := by
  unfold elasticApproach
  dsimp only
  rcases hv : (s.store pj).velocity with _ | v <;> simp only [hv]
  · rfl
  · split
    · rw [initiateElasticBreakup_t t₂]
      rfl
    · rfl

theorem elasticBreakupPhase_t (t₂ : ℝ) (s : AState)
    (k : AnimKind) (pj tg : ℕ) (ph : Phase) (t₁ ip : ℝ) (fr tr ef : List ℕ)
    (ab es cn ex : Option ℕ) (gr ew : List ℕ) (rt mr : ℝ) :
    elasticBreakupPhase s (Animation.mk k pj tg ph t₁ ip fr tr ef ab es cn ex gr ew rt mr) =
      liftT t₁ (elasticBreakupPhase s
        (Animation.mk k pj tg ph t₂ ip fr tr ef ab es cn ex gr ew rt mr)) := by
  unfold elasticBreakupPhase
  dsimp only
  rw [elasticFragsGo_t t₂]
  split
  · rfl
  · split <;> rfl
theorem nonelasticApproach_t (t₂ : ℝ) (s : AState)
    (k : AnimKind) (pj tg : ℕ) (ph : Phase) (t₁ ip : ℝ) (fr tr ef : List ℕ)
    (ab es cn ex : Option ℕ) (gr ew : List ℕ) (rt mr : ℝ) :
    nonelasticApproach s (Animation.mk k pj tg ph t₁ ip fr tr ef ab es cn ex gr ew rt mr) =
      liftT t₁ (nonelasticApproach s
        (Animation.mk k pj tg ph t₂ ip fr tr ef ab es cn ex gr ew rt mr)) := by
  unfold nonelasticApproach
  dsimp only
  rcases hv : (s.store pj).velocity with _ | v <;> simp only [hv]
  · rfl
  · split
    · rw [initiateNonelasticBreakup_t t₂]
      rfl
    · rfl

theorem nonelasticBreakupPhase_t (t₂ : ℝ) (s : AState)
    (k : AnimKind) (pj tg : ℕ) (ph : Phase) (t₁ ip : ℝ) (fr tr ef : List ℕ)
    (ab es cn ex : Option ℕ) (gr ew : List ℕ) (rt mr : ℝ) :
    nonelasticBreakupPhase s (Animation.mk k pj tg ph t₁ ip fr tr ef ab es cn ex gr ew rt mr) =
      liftT t₁ (nonelasticBreakupPhase s
        (Animation.mk k pj tg ph t₂ ip fr tr ef ab es cn ex gr ew rt mr)) := by
  unfold nonelasticBreakupPhase
  dsimp only
  rcases es with _ | fId
  · rcases ab with _ | bId
    · rfl
    · dsimp only
      split
      · rfl
      · rw [createCompoundNucleusEffect_t t₂]
        rfl
  · rcases hv : (s.store fId).velocity with _ | v <;> simp only [hv]
    · rfl
    · rcases ab with _ | bId
      · rfl
      · dsimp only
        rcases hh : tr.head? with _ | trl <;> simp only [hh] <;> split <;> split
        all_goals first
          | rfl
          | (rw [createCompoundNucleusEffect_t t₂]; rfl)

theorem nonelasticCompoundTail_t (t₂ : ℝ) (s : AState)
    (k : AnimKind) (pj tg : ℕ) (ph : Phase) (t₁ ip : ℝ) (fr tr ef : List ℕ)
    (ab es cn ex : Option ℕ) (gr ew : List ℕ) (rt mr : ℝ) :
    nonelasticCompoundTail s (Animation.mk k pj tg ph t₁ ip fr tr ef ab es cn ex gr ew rt mr) =
      liftT t₁ (nonelasticCompoundTail s
        (Animation.mk k pj tg ph t₂ ip fr tr ef ab es cn ex gr ew rt mr)) := by
  unfold nonelasticCompoundTail
  dsimp only
  split
  · rw [emitGammaRays_t t₂]
    dsimp only [liftP, setTime]
    split
    · rw [initiateDecayPhase_t t₂]
      rfl
    · rfl
  · split
    · rw [initiateDecayPhase_t t₂]
      rfl
    · rfl
theorem nonelasticCompoundPhase_t (t₂ : ℝ) (s : AState)
    (k : AnimKind) (pj tg : ℕ) (ph : Phase) (t₁ ip : ℝ) (fr tr ef : List ℕ)
    (ab es cn ex : Option ℕ) (gr ew : List ℕ) (rt mr : ℝ) :
    nonelasticCompoundPhase s (Animation.mk k pj tg ph t₁ ip fr tr ef ab es cn ex gr ew rt mr) =
      liftT t₁ (nonelasticCompoundPhase s
        (Animation.mk k pj tg ph t₂ ip fr tr ef ab es cn ex gr ew rt mr)) := by
  unfold nonelasticCompoundPhase
  dsimp only
  rcases cn with _ | c <;> rcases es with _ | fId <;> dsimp only
  · rw [nonelasticCompoundTail_t t₂]
  · rcases hh : tr.head? with _ | trl <;> simp only [hh] <;> split <;>
      first
        | rfl
        | rw [nonelasticCompoundTail_t t₂]
  · by_cases halive : (updateCompoundNucleus (s.store c)).2 = true
    · simp only [if_pos halive]
      try dsimp only
      rw [nonelasticCompoundTail_t t₂]
    · simp only [if_neg halive]
      try dsimp only
      rw [nonelasticCompoundTail_t t₂]
  · by_cases halive : (updateCompoundNucleus (s.store c)).2 = true
    · simp only [if_pos halive]
      try dsimp only
      rcases hh : tr.head? with _ | trl <;> simp only [hh] <;> split <;>
        first
          | rfl
          | rw [nonelasticCompoundTail_t t₂]
    · simp only [if_neg halive]
      try dsimp only
      rcases hh : tr.head? with _ | trl <;> simp only [hh] <;> split <;>
        first
          | rfl
          | rw [nonelasticCompoundTail_t t₂]

theorem nonelasticDecayPhase_t (t₂ : ℝ) (s : AState)
    (k : AnimKind) (pj tg : ℕ) (ph : Phase) (t₁ ip : ℝ) (fr tr ef : List ℕ)
    (ab es cn ex : Option ℕ) (gr ew : List ℕ) (rt mr : ℝ) :
    nonelasticDecayPhase s (Animation.mk k pj tg ph t₁ ip fr tr ef ab es cn ex gr ew rt mr) =
      liftT t₁ (nonelasticDecayPhase s
        (Animation.mk k pj tg ph t₂ ip fr tr ef ab es cn ex gr ew rt mr)) := by
  unfold nonelasticDecayPhase
  dsimp only
  rw [updateEffects_t t₂]
  dsimp only [liftP]
  rw [updateEffects_snd]
  dsimp only [setTime]
  rcases es with _ | fId <;> dsimp only
  · rfl
  · rcases hh : tr.head? with _ | trl <;> simp only [hh] <;> split <;>
      first
        | rfl
        | (split <;> rfl)

theorem nonelasticAbsorptionPhase_t (t₂ : ℝ) (s : AState)
    (k : AnimKind) (pj tg : ℕ) (ph : Phase) (t₁ ip : ℝ) (fr tr ef : List ℕ)
    (ab es cn ex : Option ℕ) (gr ew : List ℕ) (rt mr : ℝ) :
    nonelasticAbsorptionPhase s (Animation.mk k pj tg ph t₁ ip fr tr ef ab es cn ex gr ew rt mr) =
      liftT t₁ (nonelasticAbsorptionPhase s
        (Animation.mk k pj tg ph t₂ ip fr tr ef ab es cn ex gr ew rt mr)) := by
  unfold nonelasticAbsorptionPhase
  dsimp only
  rw [updateEffects_t t₂]
  dsimp only [liftP]
  rw [updateEffects_snd]
  dsimp only [setTime]
  rcases es with _ | fId <;> dsimp only
  · rfl
  · rcases hh : tr.head? with _ | trl <;> simp only [hh] <;> split <;>
      first
        | rfl
        | (split <;> rfl)

theorem inelasticApproach_t (t₂ : ℝ) (s : AState)
    (k : AnimKind) (pj tg : ℕ) (ph : Phase) (t₁ ip : ℝ) (fr tr ef : List ℕ)
    (ab es cn ex : Option ℕ) (gr ew : List ℕ) (rt mr : ℝ) :
    inelasticApproach s (Animation.mk k pj tg ph t₁ ip fr tr ef ab es cn ex gr ew rt mr) =
      liftT t₁ (inelasticApproach s
        (Animation.mk k pj tg ph t₂ ip fr tr ef ab es cn ex gr ew rt mr)) := by
  unfold inelasticApproach
  dsimp only
  rcases hv : (s.store pj).velocity with _ | v <;> simp only [hv]
  · rfl
  · rw [initiateInelasticBreakup_t t₂]
    dsimp only [liftP, setTime]
    repeat' split
    all_goals rfl

theorem inelasticEscapePhase_t (t₂ : ℝ) (s : AState)
    (k : AnimKind) (pj tg : ℕ) (ph : Phase) (t₁ ip : ℝ) (fr tr ef : List ℕ)
    (ab es cn ex : Option ℕ) (gr ew : List ℕ) (rt mr : ℝ) :
    inelasticEscapePhase s (Animation.mk k pj tg ph t₁ ip fr tr ef ab es cn ex gr ew rt mr) =
      liftT t₁ (inelasticEscapePhase s
        (Animation.mk k pj tg ph t₂ ip fr tr ef ab es cn ex gr ew rt mr)) := by
  unfold inelasticEscapePhase
  dsimp only
  rw [inelasticFragsGo_t t₂]
  split
  · rfl
  · rcases ex with _ | e <;> dsimp only
    · split <;> rfl
    · split
      · split <;> rfl
      · rw [emitTargetGammas_t t₂]
        dsimp only [liftP, setTime]
        split <;> rfl
theorem nonelasticPost_st (s : AState) (a : Animation) (r : Except Unit Bool) (t : ℝ) :
    nonelasticPost s (setTime a t) r = liftT t (nonelasticPost s a r) := by
  rcases r with e | b
  · rfl
  · cases b <;> rfl

theorem updateElasticBreakup_t (s : AState) (a : Animation) (δ₁ δ₂ : ℝ) :
    updateElasticBreakup s a δ₁ =
      liftT (a.time + δ₁ * s.speed) (updateElasticBreakup s a δ₂) := by
  obtain ⟨k, pj, tg, ph, tm, ip, fr, tr, ef, ab, es, cn, ex, gr, ew, rt, mr⟩ := a
  unfold updateElasticBreakup
  dsimp only
  cases ph
  all_goals first
    | rfl
    | apply elasticApproach_t
    | apply elasticBreakupPhase_t

theorem updateNonelasticBreakup_t (s : AState) (a : Animation) (δ₁ δ₂ : ℝ) :
    updateNonelasticBreakup s a δ₁ =
      liftT (a.time + δ₁ * s.speed) (updateNonelasticBreakup s a δ₂) := by
  obtain ⟨k, pj, tg, ph, tm, ip, fr, tr, ef, ab, es, cn, ex, gr, ew, rt, mr⟩ := a
  unfold updateNonelasticBreakup
  dsimp only
  cases ph <;> dsimp only
  case approach =>
    rw [nonelasticApproach_t (tm + δ₂ * s.speed)]
    dsimp only [liftT]
    rw [nonelasticPost_st]
    rfl
  case breakup =>
    rw [nonelasticBreakupPhase_t (tm + δ₂ * s.speed)]
    dsimp only [liftT]
    rw [nonelasticPost_st]
    rfl
  case compound =>
    rw [nonelasticCompoundPhase_t (tm + δ₂ * s.speed)]
    dsimp only [liftT]
    rw [nonelasticPost_st]
    rfl
  case decay =>
    rw [nonelasticDecayPhase_t (tm + δ₂ * s.speed)]
    dsimp only [liftT]
    rw [nonelasticPost_st]
    rfl
  case absorption =>
    rw [nonelasticAbsorptionPhase_t (tm + δ₂ * s.speed)]
    dsimp only [liftT]
    rw [nonelasticPost_st]
    rfl
  all_goals rfl

theorem updateInelasticBreakup_t (s : AState) (a : Animation) (δ₁ δ₂ : ℝ) :
    updateInelasticBreakup s a δ₁ =
      liftT (a.time + δ₁ * s.speed) (updateInelasticBreakup s a δ₂) := by
  obtain ⟨k, pj, tg, ph, tm, ip, fr, tr, ef, ab, es, cn, ex, gr, ew, rt, mr⟩ := a
  unfold updateInelasticBreakup
  dsimp only
  cases ph
  all_goals first
    | rfl
    | apply inelasticApproach_t
    | apply inelasticEscapePhase_t

theorem kindUpdate_t (s : AState) (a : Animation) (δ₁ δ₂ : ℝ) :
    kindUpdate s a δ₁ = liftT (a.time + δ₁ * s.speed) (kindUpdate s a δ₂) := by
  unfold kindUpdate
  rcases hk : a.atype <;> simp only [hk]
  · exact updateElasticBreakup_t s a δ₁ δ₂
  · exact updateNonelasticBreakup_t s a δ₁ δ₂
  · exact updateInelasticBreakup_t s a δ₁ δ₂
/-- C10: the `delta` argument of `update` only reaches the animation's `time`
bookkeeping field.  Two updates of the same state with different deltas (same
speed, same prior state and random draws) return the same `Bool`, leave
identical scene membership, object store (all positions, velocities and
effect states), allocator, playback flags, speed, trail toggle and random
stream, and produce the same current animation up to erasing `time`; when an
animation is playing, the only difference is that `time` advances by
`delta * speed`. -/
theorem C10_delta_only_time (s : AState) (δ₁ δ₂ : ℝ) :
    (update s δ₁).2 = (update s δ₂).2 ∧
    (update s δ₁).1.scene = (update s δ₂).1.scene ∧
    (update s δ₁).1.store = (update s δ₂).1.store ∧
    (update s δ₁).1.nextId = (update s δ₂).1.nextId ∧
    (update s δ₁).1.isPlaying = (update s δ₂).1.isPlaying ∧
    (update s δ₁).1.speed = (update s δ₂).1.speed ∧
    (update s δ₁).1.trailsEnabled = (update s δ₂).1.trailsEnabled ∧
    (update s δ₁).1.rng = (update s δ₂).1.rng ∧
    (update s δ₁).1.rcur = (update s δ₂).1.rcur ∧
    Option.map (fun a => setTime a 0) (update s δ₁).1.currentAnimation =
      Option.map (fun a => setTime a 0) (update s δ₂).1.currentAnimation ∧
    (∀ a, s.currentAnimation = some a → s.isPlaying = true →
      (update s δ₁).1.currentAnimation =
        some (setTime (((update s δ₂).1.currentAnimation).getD a)
          (a.time + δ₁ * s.speed))) := by
  rcases hc : s.currentAnimation with _ | a
  · unfold update
    simp only [hc]
    refine ⟨?_, ?_, ?_, ?_, ?_, ?_, ?_, ?_, ?_, ?_, ?_⟩
    all_goals try trivial
    intro a2 ha2 hpl
    exact Option.noConfusion ha2
  · by_cases hp : s.isPlaying = false
    · unfold update
      simp only [hc, if_pos hp]
      refine ⟨?_, ?_, ?_, ?_, ?_, ?_, ?_, ?_, ?_, ?_, ?_⟩
      all_goals try trivial
      intro a2 ha2 hpl
      rw [hpl] at hp
      exact Bool.noConfusion hp
    · have hk := kindUpdate_t s a δ₁ δ₂
      unfold update
      simp only [hc, if_neg hp]
      rw [hk]
      dsimp only [liftT]
      rcases hr : (kindUpdate s a δ₂).2.2 with e | b
      · simp only [hr]
        refine ⟨?_, ?_, ?_, ?_, ?_, ?_, ?_, ?_, ?_, ?_, ?_⟩
        all_goals try trivial
        all_goals try (simp [setTime])
      · cases b <;> simp only [hr]
        · refine ⟨?_, ?_, ?_, ?_, ?_, ?_, ?_, ?_, ?_, ?_, ?_⟩
          all_goals try trivial
          all_goals try (simp [setTime])
        · refine ⟨?_, ?_, ?_, ?_, ?_, ?_, ?_, ?_, ?_, ?_, ?_⟩
          all_goals try trivial
          all_goals try (simp [setTime])

/-- Witness for C10: on a concrete playing state, the animation after a
`delta = 1` tick is the `delta = 2` animation with its time set back to
`time + 1 * speed`. -/
theorem C10_delta_only_time_witness :
    (update c10State 1).1.currentAnimation =
      some (setTime (((update c10State 2).1.currentAnimation).getD c10Anim)
        (c10Anim.time + 1 * c10State.speed)) :=
  (C10_delta_only_time c10State 1 2).2.2.2.2.2.2.2.2.2.2 c10Anim rfl rfl
/-- C9: the legacy `absorption` case performs the identical effect-update
behavior as the `decay` case.  First conjunct: a `decay` tick is literally the
wave/gamma filtering followed by an `absorption` tick on the filtered state —
the `updateEffects` mutation of the effects collection, the escaping-fragment
drift with its trail refresh, and the distance-15 completion check are the
same code path.  Second conjunct: when no gamma rays or energy waves are
pending (absorption states have none), the two case bodies are equal
outright. -/
theorem C9_absorption_decay_agree (s : AState) (a : Animation) :
    (nonelasticDecayPhase s a =
      (let p := filterWavesGo a.energyWaves s
       let q := filterGammasGo a.gammaRays p.1
       nonelasticAbsorptionPhase q.1
         { a with energyWaves := p.2, gammaRays := q.2 })) ∧
    (a.gammaRays = [] → a.energyWaves = [] →
      nonelasticAbsorptionPhase s a = nonelasticDecayPhase s a) := by
  constructor
  · rfl
  · intro hg hw
    obtain ⟨k, pj, tg, ph, tm, ip, fr, tr, ef, ab, es, cn, ex, gr, ew, rt, mr⟩ := a
    dsimp only at hg hw
    subst hg
    subst hw
    rfl

/-- Witness for C9: the concrete absorption-phase animation `c9Anim` (no
gammas, no waves, one effect, one escaping fragment) runs the same tick in
both phases. -/
theorem C9_absorption_decay_agree_witness :
    nonelasticAbsorptionPhase c9State c9Anim = nonelasticDecayPhase c9State c9Anim :=
  (C9_absorption_decay_agree c9State c9Anim).2 rfl rfl
theorem updateExplosionGo_scene (l : List ℕ) (s : AState) :
    (updateExplosionGo l s).1.scene = s.scene := by
  induction l generalizing s with
  | nil => rfl
  | cons i t ih =>
    exact ih (s.setObj i (updateExplosionObj (s.store i)).1)

/-- C7 counterexample: one nonelastic `breakup` tick on `c7State` drives its
explosion effect's life below zero, yet the dead particle is still the
animation's effects entry and still a scene member after the tick: the post-
switch `updateExplosion` call splices only a filtered temporary copy. -/
theorem C7_counterexample :
    ∃ l : ℝ, l < 0 ∧
      ((update c7State 0.016).1.store 2).life = some l ∧
      ((update c7State 0.016).1.currentAnimation.getD c7Anim).effects = [2] ∧
      2 ∈ (update c7State 0.016).1.scene := by
  refine ⟨0.01 - 0.02, by norm_num, ?_, ?_, ?_⟩
  · rfl
  · rfl
  · show (2 : ℕ) ∈ ([1, 2] : List ℕ)
    simp
/-- C7 amended: same-tick removal of dead effects holds for the collections
that are rebuilt by their updaters — a gamma ray, energy wave, or effects-list
particle (flat, moving, decaying) whose life expires this tick is dropped
from the returned collection and removed from the scene — but it fails for
explosion-type effects handled by the nonelastic post-switch block:
`updateExplosion` splices only the list it is passed and never touches the
scene, and the block passes a filtered temporary copy, so the animation's
effects list and the scene both keep the dead particle. -/
theorem C7_dead_removal_contract (s : AState) (i : ℕ) (l d : ℝ)
    (hl : (s.store i).life = some l) (hd : (s.store i).decay = some d)
    (hdead : l - d ≤ 0) :
    ((filterGammasGo [i] s).2 = [] ∧ i ∉ (filterGammasGo [i] s).1.scene) ∧
    ((filterWavesGo [i] s).2 = [] ∧ i ∉ (filterWavesGo [i] s).1.scene) ∧
    ((s.store i).hasRing = false → (s.store i).velocity.isSome = true →
      (updateEffectsGo [i] s).2 = [] ∧ i ∉ (updateEffectsGo [i] s).1.scene) ∧
    ((updateExplosionGo [i] s).2 = [] ∧
      (updateExplosionGo [i] s).1.scene = s.scene) ∧
    (∀ a : Animation,
      (nonelasticPost s a (.ok false)).2.1.effects = a.effects ∧
      (nonelasticPost s a (.ok false)).1.scene = s.scene) := by
  have hld : l ≤ d := by linarith
  have hnd : ¬ d < l := not_lt.mpr hld
  refine ⟨?_, ?_, ?_, ?_, ?_⟩
  · constructor
    · simp [filterGammasGo, updateGammaRay, hl, hd, hnd, hdead, hld]
    · simp [filterGammasGo, updateGammaRay, hl, hd, hnd, hdead, hld, sceneRemove_mem]
  · constructor
    · simp [filterWavesGo, updateEnergyWave, hl, hd, hnd, hdead, hld]
    · simp [filterWavesGo, updateEnergyWave, hl, hd, hnd, hdead, hld, sceneRemove_mem]
  · intro hr hv
    have hds : (s.store i).decay.isSome = true := by rw [hd]; rfl
    constructor
    · simp [updateEffectsGo, hr, hv, hds, hl, hd, hnd, hdead, hld]
    · simp [updateEffectsGo, hr, hv, hds, hl, hd, hnd, hdead, hld, sceneRemove_mem]
  · constructor
    · simp [updateExplosionGo, updateExplosionObj, hl, hd, hnd, hdead, hld]
    · exact updateExplosionGo_scene _ _
  · intro a
    exact ⟨rfl, updateExplosionGo_scene _ _⟩

/-- Witness for C7: the dying gamma-style read of `c7State`'s particle is
dropped from the filtered list and the scene within the tick. -/
theorem C7_dead_removal_contract_witness :
    (filterGammasGo [2] c7State).2 = [] ∧ 2 ∉ (filterGammasGo [2] c7State).1.scene :=
  (C7_dead_removal_contract c7State 2 0.01 0.02 rfl rfl (by norm_num)).1
theorem ticks_front (δ : ℝ) (s : AState) (n : ℕ) :
    ticks δ s (n + 1) = ticks δ (update s δ).1 n := by
  induction n with
  | zero => rfl
  | succ n ih =>
    show (update (ticks δ s (n + 1)) δ).1 = ticks δ (update s δ).1 (n + 1)
    rw [ih]
    rfl

theorem ticks_add (δ : ℝ) (s : AState) (m n : ℕ) :
    ticks δ s (m + n) = ticks δ (ticks δ s m) n := by
  induction n with
  | zero => rfl
  | succ n ih =>
    show (update (ticks δ s (m + n)) δ).1 = (update (ticks δ (ticks δ s m) n) δ).1
    rw [ih]

theorem gammaLoop_len (origin : Vec3) (n : ℕ) (s : AState) :
    (gammaLoop origin n s).1.length = n := by
  induction n generalizing s with
  | zero => rfl
  | succ n ih =>
    unfold gammaLoop
    dsimp only
    rw [List.length_cons, ih]

theorem filterGammasGo_nextId (l : List ℕ) (s : AState) :
    (filterGammasGo l s).1.nextId = s.nextId := by
  induction l generalizing s with
  | nil => rfl
  | cons g t ih =>
    unfold filterGammasGo
    dsimp only
    split
    · exact ih _
    · exact ih _
theorem filterGammasGo_alive (gs : List ℕ) (s : AState) (l : ℝ)
    (hnd : gs.Nodup)
    (hl : ∀ g ∈ gs, (s.store g).life = some l ∧ (s.store g).decay = some 0.025)
    (ha : 0 < l - 0.025) :
    (filterGammasGo gs s).2 = gs ∧
    (∀ g ∈ gs, ((filterGammasGo gs s).1.store g).life = some (l - 0.025) ∧
      ((filterGammasGo gs s).1.store g).decay = some 0.025) ∧
    (∀ j, j ∉ gs → (filterGammasGo gs s).1.store j = s.store j) ∧
    (filterGammasGo gs s).1.nextId = s.nextId ∧
    (filterGammasGo gs s).1.isPlaying = s.isPlaying ∧
    (filterGammasGo gs s).1.speed = s.speed ∧
    (filterGammasGo gs s).1.rng = s.rng := by
  induction gs generalizing s with
  | nil =>
    exact ⟨rfl, by simp, fun j _ => rfl, rfl, rfl, rfl, rfl⟩
  | cons g t ih =>
    have hg := hl g (List.mem_cons_self g t)
    have hnd' := List.nodup_cons.mp hnd
    have ho'l : ((updateGammaRay (s.store g)).1).life = some (l - 0.025) := by
      simp [updateGammaRay, hg.1, hg.2]
    have ho'd : ((updateGammaRay (s.store g)).1).decay = some 0.025 := by
      simp [updateGammaRay, hg.1, hg.2]
    have halive : (updateGammaRay (s.store g)).2 = true := by
      simp [updateGammaRay, hg.1, hg.2]
      linarith
    have hstep : ∀ g' ∈ t, ((s.setObj g (updateGammaRay (s.store g)).1).store g') = s.store g' := by
      intro g' hg'
      have hne : g' ≠ g := fun e => hnd'.1 (e ▸ hg')
      simp [AState.setObj, hne]
    have hl' : ∀ g' ∈ t,
        (((s.setObj g (updateGammaRay (s.store g)).1)).store g').life = some l ∧
        (((s.setObj g (updateGammaRay (s.store g)).1)).store g').decay = some 0.025 := by
      intro g' hg'
      rw [hstep g' hg']
      exact hl g' (List.mem_cons_of_mem _ hg')
    have ih' := ih (s.setObj g (updateGammaRay (s.store g)).1) hnd'.2 hl'
    unfold filterGammasGo
    dsimp only
    simp only [halive, if_pos]
    refine ⟨?_, ?_, ?_, ?_, ?_, ?_, ?_⟩
    · rw [ih'.1]
    · intro g' hg'
      rcases List.mem_cons.mp hg' with he | ht
      · subst he
        rw [ih'.2.2.1 g' hnd'.1]
        constructor
        · simpa [AState.setObj] using ho'l
        · simpa [AState.setObj] using ho'd
      · exact ih'.2.1 g' ht
    · intro j hj
      rw [ih'.2.2.1 j (fun hjt => hj (List.mem_cons_of_mem _ hjt))]
      have hne : j ≠ g := fun e => hj (e ▸ List.mem_cons_self g t)
      simp [AState.setObj, hne]
    · exact ih'.2.2.2.1
    · exact ih'.2.2.2.2.1
    · exact ih'.2.2.2.2.2.1
    · exact ih'.2.2.2.2.2.2
theorem filterGammasGo_dead (gs : List ℕ) (s : AState) (l : ℝ)
    (hnd : gs.Nodup)
    (hl : ∀ g ∈ gs, (s.store g).life = some l ∧ (s.store g).decay = some 0.025)
    (hd : l - 0.025 ≤ 0) :
    (filterGammasGo gs s).2 = [] ∧
    (filterGammasGo gs s).1.nextId = s.nextId ∧
    (filterGammasGo gs s).1.isPlaying = s.isPlaying ∧
    (filterGammasGo gs s).1.speed = s.speed ∧
    (filterGammasGo gs s).1.rng = s.rng := by
  induction gs generalizing s with
  | nil => exact ⟨rfl, rfl, rfl, rfl, rfl⟩
  | cons g t ih =>
    have hg := hl g (List.mem_cons_self g t)
    have hnd' := List.nodup_cons.mp hnd
    have halive : (updateGammaRay (s.store g)).2 = false := by
      simp [updateGammaRay, hg.1, hg.2]
      linarith
    have hl' : ∀ g' ∈ t,
        ((((s.setObj g (updateGammaRay (s.store g)).1).sceneRemove g)).store g').life = some l ∧
        ((((s.setObj g (updateGammaRay (s.store g)).1).sceneRemove g)).store g').decay =
          some 0.025 := by
      intro g' hg'
      have hne : g' ≠ g := fun e => hnd'.1 (e ▸ hg')
      have : (((s.setObj g (updateGammaRay (s.store g)).1).sceneRemove g)).store g' =
          s.store g' := by
        simp [AState.sceneRemove, AState.setObj, hne]
      rw [this]
      exact hl g' (List.mem_cons_of_mem _ hg')
    have ih' := ih ((s.setObj g (updateGammaRay (s.store g)).1).sceneRemove g) hnd'.2 hl'
    unfold filterGammasGo
    dsimp only
    simp only [halive, Bool.false_eq_true, if_neg, if_false]
    exact ⟨ih'.1, ih'.2.1, ih'.2.2.1, ih'.2.2.2.1, ih'.2.2.2.2⟩
theorem foldl_sceneAdd_misc (l : List ℕ) (s : AState) :
    (l.foldl AState.sceneAdd s).isPlaying = s.isPlaying ∧
    (l.foldl AState.sceneAdd s).speed = s.speed ∧
    (l.foldl AState.sceneAdd s).rng = s.rng := by
  induction l generalizing s with
  | nil => exact ⟨rfl, rfl, rfl⟩
  | cons x t ih => exact ih (s.sceneAdd x)

theorem gammaLoop_spec (origin : Vec3) (n : ℕ) (s : AState) :
    (gammaLoop origin n s).1 = (List.range n).map (fun i => s.nextId + i) ∧
    (gammaLoop origin n s).2.nextId = s.nextId + n ∧
    (∀ g, s.nextId ≤ g → g < s.nextId + n →
      ((gammaLoop origin n s).2.store g).life = some 1 ∧
      ((gammaLoop origin n s).2.store g).decay = some 0.025) ∧
    (∀ j, j < s.nextId → (gammaLoop origin n s).2.store j = s.store j) ∧
    (gammaLoop origin n s).2.isPlaying = s.isPlaying ∧
    (gammaLoop origin n s).2.speed = s.speed ∧
    (gammaLoop origin n s).2.rng = s.rng := by
  induction n generalizing s with
  | zero =>
    refine ⟨rfl, by simp [gammaLoop], ?_, fun j _ => rfl, rfl, rfl, rfl⟩
    intro g h1 h2
    omega
  | succ n ih =>
    have hn : (s.createGammaRay origin).2.nextId = s.nextId + 1 := rfl
    have hi : (s.createGammaRay origin).1 = s.nextId := rfl
    have hselfl : ((s.createGammaRay origin).2.store s.nextId).life = some 1 := by
      simp [AState.createGammaRay, AState.alloc, AState.setObj, AState.draw, createGammaRayObj]
      norm_num
    have hselfd : ((s.createGammaRay origin).2.store s.nextId).decay = some 0.025 := by
      simp [AState.createGammaRay, AState.alloc, AState.setObj, AState.draw, createGammaRayObj]
    have hother : ∀ j, j ≠ s.nextId → (s.createGammaRay origin).2.store j = s.store j := by
      intro j hj
      simp [AState.createGammaRay, AState.alloc, AState.setObj, AState.draw, hj]
    have ih' := ih (s.createGammaRay origin).2
    rw [hn] at ih'
    unfold gammaLoop
    dsimp only
    refine ⟨?_, ?_, ?_, ?_, ?_, ?_, ?_⟩
    · rw [ih'.1, hi, List.range_succ_eq_map, List.map_cons, List.map_map]
      refine congrArg₂ _ (by omega) (List.map_congr_left fun i _ => ?_)
      simp [Function.comp]
      omega
    · rw [ih'.2.1]
      omega
    · intro g h1 h2
      rcases eq_or_lt_of_le h1 with he | hlt
      · subst he
        rw [ih'.2.2.2.1 s.nextId (by omega), hselfl, hselfd]
        exact ⟨rfl, rfl⟩
      · exact ih'.2.2.1 g (by omega) (by omega)
    · intro j hj
      rw [ih'.2.2.2.1 j (by omega), hother j (by omega)]
    · exact ih'.2.2.2.2.1.trans rfl
    · exact ih'.2.2.2.2.2.1.trans rfl
    · exact ih'.2.2.2.2.2.2.trans rfl
theorem emitGammaRays_const0 (s : AState) (a : Animation) (hr : s.rng = fun _ => 0) :
    (emitGammaRays s a).2 =
      { a with gammaRays := a.gammaRays ++ [s.nextId, s.nextId + 1, s.nextId + 2] } ∧
    (emitGammaRays s a).1.nextId = s.nextId + 3 ∧
    (∀ g ∈ [s.nextId, s.nextId + 1, s.nextId + 2],
      ((emitGammaRays s a).1.store g).life = some 1 ∧
      ((emitGammaRays s a).1.store g).decay = some 0.025) ∧
    (emitGammaRays s a).1.isPlaying = s.isPlaying ∧
    (emitGammaRays s a).1.speed = s.speed ∧
    (emitGammaRays s a).1.rng = s.rng := by
  have hcnt : 3 + (Int.floor (s.rng s.rcur * 3)).toNat = 3 := by
    rw [hr]
    norm_num
  have hgl := gammaLoop_spec ((s.store a.target).pos) 3 ({ s with rcur := s.rcur + 1 })
  dsimp only at hgl
  have hrange : (List.range 3).map (fun i => s.nextId + i) =
      [s.nextId, s.nextId + 1, s.nextId + 2] := by
    simp [List.range_succ]
  rw [hrange] at hgl
  obtain ⟨hg1, hg2, hg3, hg4, hg5, hg6, hg7⟩ := hgl
  have hmisc := foldl_sceneAdd_misc
    (gammaLoop ((s.store a.target).pos) 3 ({ s with rcur := s.rcur + 1 })).1
    (gammaLoop ((s.store a.target).pos) 3 ({ s with rcur := s.rcur + 1 })).2
  unfold emitGammaRays
  dsimp only [AState.draw]
  rw [hcnt]
  refine ⟨?_, ?_, ?_, ?_, ?_, ?_⟩
  · rw [hg1]
  · rw [foldl_sceneAdd_nextId, hg2]
  · intro g hg
    rw [foldl_sceneAdd_store]
    simp only [List.mem_cons, List.not_mem_nil, or_false] at hg
    rcases hg with rfl | rfl | rfl
    · exact hg3 s.nextId (by omega) (by omega)
    · exact hg3 (s.nextId + 1) (by omega) (by omega)
    · exact hg3 (s.nextId + 2) (by omega) (by omega)
  · rw [hmisc.1, hg5]
  · rw [hmisc.2.1, hg6]
  · rw [hmisc.2.2, hg7]
theorem c3_step_quiet (s : AState) (tm res : ℝ) (δ : ℝ)
    (hc : s.currentAnimation = some (c3A tm res []))
    (hp : s.isPlaying = true)
    (hno : ¬ (80 * 0.6 < res + s.speed)) :
    (update s δ).1.currentAnimation = some (c3A (tm + δ * s.speed) (res + s.speed) []) ∧
    (update s δ).1.isPlaying = true ∧
    (update s δ).1.speed = s.speed ∧
    (update s δ).1.rng = s.rng ∧
    (update s δ).1.nextId = s.nextId ∧
    (update s δ).1.store = s.store := by
  have hp' : ¬ (s.isPlaying = false) := by simp [hp]
  have hdec : ¬ ((80 : ℝ) < res + s.speed) := fun h => hno (by linarith)
  unfold update
  simp only [hc, if_neg hp']
  unfold kindUpdate updateNonelasticBreakup nonelasticCompoundPhase nonelasticCompoundTail
    nonelasticPost filterGammasGo updateExplosionGo
  dsimp only [c3A]
  rw [if_neg (fun h : (80 * 0.6 < res + s.speed ∧ ([] : List ℕ).length = 0) => hno h.1)]
  dsimp only
  rw [if_neg hdec]
  exact ⟨rfl, hp, rfl, rfl, rfl, rfl⟩
theorem c3_step_alive (s : AState) (tm res l : ℝ) (gs : List ℕ) (δ : ℝ)
    (hc : s.currentAnimation = some (c3A tm res gs))
    (hp : s.isPlaying = true)
    (hgs : gs ≠ [])
    (hnd : gs.Nodup)
    (hl : ∀ g ∈ gs, (s.store g).life = some l ∧ (s.store g).decay = some 0.025)
    (ha : 0 < l - 0.025)
    (hdec : ¬ ((80 : ℝ) < res + s.speed)) :
    (update s δ).1.currentAnimation = some (c3A (tm + δ * s.speed) (res + s.speed) gs) ∧
    (update s δ).1.isPlaying = true ∧
    (update s δ).1.speed = s.speed ∧
    (update s δ).1.rng = s.rng ∧
    (update s δ).1.nextId = s.nextId ∧
    (∀ g ∈ gs, ((update s δ).1.store g).life = some (l - 0.025) ∧
      ((update s δ).1.store g).decay = some 0.025) := by
  have hp' : ¬ (s.isPlaying = false) := by simp [hp]
  obtain ⟨hf1, hf2, hf3, hf4, hf5, hf6, hf7⟩ := filterGammasGo_alive gs s l hnd hl ha
  unfold update
  simp only [hc, if_neg hp']
  unfold kindUpdate updateNonelasticBreakup nonelasticCompoundPhase nonelasticCompoundTail
    nonelasticPost updateExplosionGo
  dsimp only [c3A]
  rw [if_neg (fun h : (80 * 0.6 < res + s.speed ∧ gs.length = 0) =>
    hgs (List.length_eq_zero.mp h.2))]
  dsimp only
  rw [hf1, if_neg hdec]
  refine ⟨rfl, hf5.trans hp, hf6, hf7, hf4, ?_⟩
  intro g hg
  exact hf2 g hg

theorem c3_step_death (s : AState) (tm res l : ℝ) (gs : List ℕ) (δ : ℝ)
    (hc : s.currentAnimation = some (c3A tm res gs))
    (hp : s.isPlaying = true)
    (hgs : gs ≠ [])
    (hnd : gs.Nodup)
    (hl : ∀ g ∈ gs, (s.store g).life = some l ∧ (s.store g).decay = some 0.025)
    (hdead : l - 0.025 ≤ 0)
    (hdec : ¬ ((80 : ℝ) < res + s.speed)) :
    (update s δ).1.currentAnimation = some (c3A (tm + δ * s.speed) (res + s.speed) []) ∧
    (update s δ).1.isPlaying = true ∧
    (update s δ).1.speed = s.speed ∧
    (update s δ).1.rng = s.rng ∧
    (update s δ).1.nextId = s.nextId := by
  have hp' : ¬ (s.isPlaying = false) := by simp [hp]
  obtain ⟨hf1, hf2, hf3, hf4, hf5⟩ := filterGammasGo_dead gs s l hnd hl hdead
  unfold update
  simp only [hc, if_neg hp']
  unfold kindUpdate updateNonelasticBreakup nonelasticCompoundPhase nonelasticCompoundTail
    nonelasticPost updateExplosionGo
  dsimp only [c3A]
  rw [if_neg (fun h : (80 * 0.6 < res + s.speed ∧ gs.length = 0) =>
    hgs (List.length_eq_zero.mp h.2))]
  dsimp only
  rw [hf1, if_neg hdec]
  exact ⟨rfl, hf3.trans hp, hf4, hf5, hf2⟩
set_option maxHeartbeats 1600000 in
theorem c3_step_emit (s : AState) (tm res : ℝ) (δ : ℝ)
    (hc : s.currentAnimation = some (c3A tm res []))
    (hp : s.isPlaying = true)
    (hr : s.rng = fun _ => 0)
    (htrig : 80 * 0.6 < res + s.speed)
    (hdec : ¬ ((80 : ℝ) < res + s.speed)) :
    (update s δ).1.currentAnimation =
      some (c3A (tm + δ * s.speed) (res + s.speed)
        [s.nextId, s.nextId + 1, s.nextId + 2]) ∧
    (update s δ).1.isPlaying = true ∧
    (update s δ).1.speed = s.speed ∧
    (update s δ).1.rng = s.rng ∧
    (update s δ).1.nextId = s.nextId + 3 ∧
    (∀ g ∈ [s.nextId, s.nextId + 1, s.nextId + 2],
      ((update s δ).1.store g).life = some (1 - 0.025) ∧
      ((update s δ).1.store g).decay = some 0.025) := by
  have hp' : ¬ (s.isPlaying = false) := by simp [hp]
  obtain ⟨he1, he2, he3, he4, he5, he6⟩ :=
    emitGammaRays_const0 s (c3A (tm + δ * s.speed) (res + s.speed) []) hr
  have hnd3 : ([s.nextId, s.nextId + 1, s.nextId + 2] : List ℕ).Nodup := by
    simp
  obtain ⟨hf1, hf2, hf3, hf4, hf5, hf6, hf7⟩ :=
    filterGammasGo_alive [s.nextId, s.nextId + 1, s.nextId + 2]
      (emitGammaRays s (c3A (tm + δ * s.speed) (res + s.speed) [])).1 1 hnd3 he3 (by norm_num)
  unfold update
  simp only [hc, if_neg hp']
  unfold kindUpdate updateNonelasticBreakup nonelasticCompoundPhase nonelasticCompoundTail
    nonelasticPost updateExplosionGo
  dsimp only [c3A]
  have hcond : (80 * 0.6 < res + s.speed ∧ ([] : List ℕ).length = 0) := ⟨htrig, rfl⟩
  rw [if_pos hcond]
  dsimp only [c3A] at he1 he2 he4 he5 he6 hf1 hf2 hf4 hf5 hf6 hf7
  rw [he1]
  dsimp only
  simp only [List.nil_append]
  rw [hf1, if_neg hdec]
  refine ⟨rfl, hf5.trans (he4.trans hp), hf6.trans he5, hf7.trans he6, hf4.trans he2, ?_⟩
  intro g hg
  exact hf2 g hg
theorem c3_run_alive (k : ℕ) (s : AState) (tm res l : ℝ) (gs : List ℕ) (δ : ℝ)
    (hc : s.currentAnimation = some (c3A tm res gs))
    (hp : s.isPlaying = true)
    (hgs : gs ≠ [])
    (hnd : gs.Nodup)
    (hl : ∀ g ∈ gs, (s.store g).life = some l ∧ (s.store g).decay = some 0.025)
    (hsp : 0 ≤ s.speed)
    (ha : 0 < l - 0.025 * k)
    (hdec : res + s.speed * k ≤ 80) :
    ∃ tm2, (ticks δ s k).currentAnimation = some (c3A tm2 (res + s.speed * k) gs) ∧
    (ticks δ s k).isPlaying = true ∧
    (ticks δ s k).speed = s.speed ∧
    (ticks δ s k).rng = s.rng ∧
    (ticks δ s k).nextId = s.nextId ∧
    (∀ g ∈ gs, ((ticks δ s k).store g).life = some (l - 0.025 * k) ∧
      ((ticks δ s k).store g).decay = some 0.025) := by
  induction k generalizing s tm res l with
  | zero =>
    refine ⟨tm, by simpa using hc, hp, rfl, rfl, rfl, ?_⟩
    intro g hg
    have := hl g hg
    simpa using this
  | succ k ih =>
    have hk1 : (0 : ℝ) ≤ 0.025 * k := by positivity
    have hk2 : (0 : ℝ) ≤ s.speed * k := by positivity
    have hcast : ((k + 1 : ℕ) : ℝ) = (k : ℝ) + 1 := by push_cast; ring
    have ha1 : 0 < l - 0.025 := by
      rw [hcast] at ha
      nlinarith
    have hd1 : ¬ ((80 : ℝ) < res + s.speed) := by
      rw [hcast] at hdec
      nlinarith
    obtain ⟨h1, h2, h3, h4, h5, h6⟩ := c3_step_alive s tm res l gs δ hc hp hgs hnd hl ha1 hd1
    have hsp' : 0 ≤ (update s δ).1.speed := h3 ▸ hsp
    have ha' : 0 < (l - 0.025) - 0.025 * k := by
      rw [hcast] at ha
      nlinarith
    have hdec' : (res + s.speed) + (update s δ).1.speed * k ≤ 80 := by
      rw [h3]
      have h := hdec
      rw [hcast] at h
      nlinarith
    obtain ⟨tm2, g1, g2, g3, g4, g5, g6⟩ :=
      ih (update s δ).1 (tm + δ * s.speed) (res + s.speed) (l - 0.025) h1 h2 h6 hsp' ha' hdec'
    rw [ticks_front]
    have hres : (res + s.speed) + (update s δ).1.speed * k = res + s.speed * (k + 1 : ℕ) := by
      rw [h3, hcast]
      ring
    have hlife : (l - 0.025) - 0.025 * k = l - 0.025 * (k + 1 : ℕ) := by
      rw [hcast]
      ring
    rw [hres] at g1
    rw [hlife] at g6
    exact ⟨tm2, g1, g2, g3.trans h3, g4.trans h4, g5.trans h5, g6⟩

theorem c3_run_quiet (k : ℕ) (s : AState) (tm res : ℝ) (δ : ℝ)
    (hc : s.currentAnimation = some (c3A tm res []))
    (hp : s.isPlaying = true)
    (hsp : 0 ≤ s.speed)
    (hno : res + s.speed * k ≤ 48) :
    ∃ tm2, (ticks δ s k).currentAnimation = some (c3A tm2 (res + s.speed * k) []) ∧
    (ticks δ s k).isPlaying = true ∧
    (ticks δ s k).speed = s.speed ∧
    (ticks δ s k).rng = s.rng ∧
    (ticks δ s k).nextId = s.nextId ∧
    (ticks δ s k).store = s.store := by
  induction k generalizing s tm res with
  | zero =>
    exact ⟨tm, by simpa using hc, hp, rfl, rfl, rfl, rfl⟩
  | succ k ih =>
    have hk2 : (0 : ℝ) ≤ s.speed * k := by positivity
    have hcast : ((k + 1 : ℕ) : ℝ) = (k : ℝ) + 1 := by push_cast; ring
    have hn1 : ¬ ((80 : ℝ) * 0.6 < res + s.speed) := by
      rw [hcast] at hno
      nlinarith
    obtain ⟨h1, h2, h3, h4, h5, h6⟩ := c3_step_quiet s tm res δ hc hp hn1
    have hsp' : 0 ≤ (update s δ).1.speed := h3 ▸ hsp
    have hno' : (res + s.speed) + (update s δ).1.speed * k ≤ 48 := by
      rw [h3]
      have h := hno
      rw [hcast] at h
      nlinarith
    obtain ⟨tm2, g1, g2, g3, g4, g5, g6⟩ :=
      ih (update s δ).1 (tm + δ * s.speed) (res + s.speed) h1 h2 hsp' hno'
    rw [ticks_front]
    have hres : (res + s.speed) + (update s δ).1.speed * k = res + s.speed * (k + 1 : ℕ) := by
      rw [h3, hcast]
      ring
    rw [hres] at g1
    exact ⟨tm2, g1, g2, g3.trans h3, g4.trans h4, g5.trans h5, g6.trans h6⟩
/-- C3 counterexample: at `speed = 0.2`, the compound phase emits a *second*
gamma cascade for the same animation.  Starting just past the 60% trigger
(`resonanceTime = 48.2`, window `80`), tick 1 emits cascade one (three gammas,
`nextId` 2 → 5); the gammas' fixed 40-tick lifetime (`life = 1`, `decay =
0.025` per tick, unscaled by speed) expires at tick 40 while the slow
resonance clock is only at 56.2, so tick 41 — still in `compound`, still
inside the window — finds the gamma list empty again and emits cascade two
(`nextId` 5 → 8, fresh gammas 5, 6, 7). -/
theorem C3_counterexample :
    (ticks 0.016 c3State 1).nextId = 5 ∧
    (∃ tm, (ticks 0.016 c3State 40).currentAnimation = some (c3A tm 56.2 [])) ∧
    (ticks 0.016 c3State 41).nextId = 8 ∧
    (∃ tm, (ticks 0.016 c3State 41).currentAnimation = some (c3A tm 56.4 [5, 6, 7])) := by
  have hsp0 : c3State.speed = 0.2 := rfl
  have hn0 : c3State.nextId = 2 := rfl
  have hr0 : c3State.rng = fun _ => 0 := rfl
  have hc0 : c3State.currentAnimation = some (c3A 0 48.2 []) := rfl
  have hp0 : c3State.isPlaying = true := rfl
  have tick_one : ∀ x : AState, ticks 0.016 x 1 = (update x 0.016).1 := fun _ => rfl
  obtain ⟨e1, e2, e3, e4, e5, e6⟩ := c3_step_emit c3State 0 48.2 0.016 hc0 hp0 hr0
    (by rw [hsp0]; norm_num) (by rw [hsp0]; norm_num)
  rw [hsp0] at e1
  rw [hn0] at e1 e5 e6
  rw [show (2 : ℕ) + 1 = 3 from rfl, show (2 : ℕ) + 2 = 4 from rfl] at e1 e6
  rw [show (2 : ℕ) + 3 = 5 from rfl] at e5
  have hsp1 : 0 ≤ (update c3State 0.016).1.speed := by
    rw [e3, hsp0]
    norm_num
  obtain ⟨tmA, a1, a2, a3, a4, a5, a6⟩ := c3_run_alive 38 _ _ _ _ _ 0.016 e1 e2
    (by simp) (by simp) e6 hsp1
    (by push_cast; norm_num)
    (by rw [e3, hsp0]; push_cast; norm_num)
  obtain ⟨d1, d2, d3, d4, d5⟩ := c3_step_death _ _ _ _ _ 0.016 a1 a2
    (by simp) (by simp) a6
    (by push_cast; norm_num)
    (by rw [a3, e3, hsp0]; push_cast; norm_num)
  rw [a3, e3, hsp0] at d1 d3
  rw [show ((48.2 + 0.2) + 0.2 * ((38 : ℕ) : ℝ)) + 0.2 = 56.2 from by push_cast; norm_num]
    at d1
  obtain ⟨f1, f2, f3, f4, f5, f6⟩ := c3_step_emit _ _ _ 0.016 d1 d2
    (by rw [d4, a4, e4, hr0])
    (by rw [d3]; norm_num)
    (by rw [d3]; norm_num)
  have hn40 : (update (ticks 0.016 (update c3State 0.016).1 38) 0.016).1.nextId = 5 := by
    rw [d5, a5, e5]
  have hsp40 : (update (ticks 0.016 (update c3State 0.016).1 38) 0.016).1.speed = 0.2 := d3
  rw [hn40, hsp40] at f1
  rw [show (56.2 + 0.2 : ℝ) = 56.4 from by norm_num,
    show (5 : ℕ) + 1 = 6 from rfl, show (5 : ℕ) + 2 = 7 from rfl] at f1
  rw [hn40, show (5 : ℕ) + 3 = 8 from rfl] at f5
  have E40 : ticks 0.016 c3State 40 =
      (update (ticks 0.016 (update c3State 0.016).1 38) 0.016).1 := by
    rw [show (40 : ℕ) = 1 + 38 + 1 from rfl, ticks_add, ticks_add, tick_one, tick_one]
  have E41 : ticks 0.016 c3State 41 =
      (update (update (ticks 0.016 (update c3State 0.016).1 38) 0.016).1 0.016).1 := by
    rw [show (41 : ℕ) = 1 + 38 + 1 + 1 from rfl, ticks_add, ticks_add, ticks_add,
      tick_one, tick_one, tick_one]
  refine ⟨?_, ?_, ?_, ?_⟩
  · rw [tick_one, e5]
  · rw [E40]
    exact ⟨_, d1⟩
  · rw [E41, f5]
  · rw [E41]
    exact ⟨_, f1⟩
theorem c3_step_to_decay (s : AState) (tm res l : ℝ) (gs : List ℕ) (δ : ℝ)
    (hc : s.currentAnimation = some (c3A tm res gs))
    (hp : s.isPlaying = true)
    (hgs : gs ≠ [])
    (hnd : gs.Nodup)
    (hl : ∀ g ∈ gs, (s.store g).life = some l ∧ (s.store g).decay = some 0.025)
    (ha : 0 < l - 0.025)
    (hdec2 : (80 : ℝ) < res + s.speed) :
    ∃ a2, (update s δ).1.currentAnimation = some a2 ∧ a2.phase = .decay := by
  have hp' : ¬ (s.isPlaying = false) := by simp [hp]
  obtain ⟨hf1, hf2, hf3, hf4, hf5, hf6, hf7⟩ := filterGammasGo_alive gs s l hnd hl ha
  unfold update
  simp only [hc, if_neg hp']
  unfold kindUpdate updateNonelasticBreakup nonelasticCompoundPhase nonelasticCompoundTail
    nonelasticPost
  dsimp only [c3A]
  rw [if_neg (fun h : (80 * 0.6 < res + s.speed ∧ gs.length = 0) =>
    hgs (List.length_eq_zero.mp h.2))]
  dsimp only
  rw [hf1, if_pos hdec2]
  exact ⟨_, rfl, rfl⟩
/-- C3 amended: a compound-phase cascade always has between 3 and 5 gamma
rays (3 plus the floor of a uniform draw times 3), and it fires only on a
tick whose post-increment `resonanceTime` exceeds 60% of the window with the
gamma list empty (otherwise the tail allocates nothing, barring the decay
hand-off).  The "exactly once per animation" part holds at the default
`speed = 1`: over the whole 80-tick window the allocator moves exactly once,
from 2 to 5 at tick 49 (one cascade of three), and tick 81 leaves `compound`
for `decay`; it is *not* true at every speed setting (see the slow-motion
double emission). -/
theorem C3_cascade_contract :
    (∀ (s : AState) (a : Animation), 0 ≤ s.rng s.rcur → s.rng s.rcur < 1 →
      (emitGammaRays s a).2.gammaRays.length =
        a.gammaRays.length + (3 + (Int.floor (s.rng s.rcur * 3)).toNat) ∧
      3 ≤ 3 + (Int.floor (s.rng s.rcur * 3)).toNat ∧
      3 + (Int.floor (s.rng s.rcur * 3)).toNat ≤ 5) ∧
    (∀ (s : AState) (a : Animation),
      ¬ (a.maxResonanceTime * 0.6 < a.resonanceTime ∧ a.gammaRays.length = 0) →
      ¬ (a.maxResonanceTime < a.resonanceTime) →
      (nonelasticCompoundTail s a).1.nextId = s.nextId) ∧
    (∀ n : ℕ, 1 ≤ n → n ≤ 80 →
      (ticks 0.016 c3FastState n).nextId = (if n < 49 then 2 else 5)) ∧
    (∃ a2, (ticks 0.016 c3FastState 81).currentAnimation = some a2 ∧
      a2.phase = .decay) := by
  have hsp : c3FastState.speed = 1 := rfl
  have hn0 : c3FastState.nextId = 2 := rfl
  have tick_one : ∀ x : AState, ticks 0.016 x 1 = (update x 0.016).1 := fun _ => rfl
  have hsppos : 0 ≤ c3FastState.speed := by rw [hsp]; norm_num
  obtain ⟨tmQ, q1, q2, q3, q4, q5, q6⟩ := c3_run_quiet 48 c3FastState 0 0 0.016 rfl rfl
    hsppos (by rw [hsp]; push_cast; norm_num)
  rw [hsp] at q1
  rw [hn0] at q5
  obtain ⟨e1, e2, e3, e4, e5, e6⟩ := c3_step_emit _ _ _ 0.016 q1 q2
    (q4.trans rfl)
    (by rw [q3, hsp]; push_cast; norm_num)
    (by rw [q3, hsp]; push_cast; norm_num)
  rw [q3, hsp] at e1
  rw [q5] at e1 e5 e6
  rw [show (2 : ℕ) + 1 = 3 from rfl, show (2 : ℕ) + 2 = 4 from rfl] at e1 e6
  rw [show (2 : ℕ) + 3 = 5 from rfl] at e5
  refine ⟨?_, ?_, ?_, ?_⟩
  · intro s a h0 h1
    have hfl : Int.floor (s.rng s.rcur * 3) < 3 := by
      rw [show ((3 : ℤ) : ℤ) = 3 from rfl]
      refine Int.floor_lt.mpr ?_
      push_cast
      nlinarith
    have hfl0 : 0 ≤ Int.floor (s.rng s.rcur * 3) := by
      refine Int.le_floor.mpr ?_
      push_cast
      nlinarith
    refine ⟨?_, by omega, by omega⟩
    unfold emitGammaRays
    dsimp only [AState.draw]
    simp [gammaLoop_len]
  · intro s a h1 h2
    unfold nonelasticCompoundTail
    rw [if_neg h1]
    dsimp only
    rw [if_neg h2]
    exact filterGammasGo_nextId _ _
  · intro n hn1 hn2
    by_cases hlt : n < 49
    · rw [if_pos hlt]
      obtain ⟨tm2, p1, p2, p3, p4, p5, p6⟩ := c3_run_quiet n c3FastState 0 0 0.016 rfl rfl
        hsppos (by
          rw [hsp]
          have : (n : ℝ) ≤ 48 := by exact_mod_cast (by omega : n ≤ 48)
          push_cast
          linarith)
      exact p5.trans hn0
    · rw [if_neg hlt]
      obtain ⟨m, rfl⟩ : ∃ m, n = 48 + 1 + m := ⟨n - 49, by omega⟩
      have hm : m ≤ 31 := by omega
      have hmr : (m : ℝ) ≤ 31 := by exact_mod_cast hm
      rw [ticks_add, ticks_add, tick_one]
      obtain ⟨tmA, a1, a2, a3, a4, a5, a6⟩ := c3_run_alive m _ _ _ _ _ 0.016 e1 e2
        (by simp) (by simp) e6
        (by rw [e3, q3, hsp]; norm_num)
        (by push_cast; nlinarith)
        (by rw [e3, q3, hsp]; push_cast; nlinarith)
      exact a5.trans e5
  · have hmr : ((31 : ℕ) : ℝ) = 31 := by push_cast; ring
    obtain ⟨tmA, a1, a2, a3, a4, a5, a6⟩ := c3_run_alive 31 _ _ _ _ _ 0.016 e1 e2
      (by simp) (by simp) e6
      (by rw [e3, q3, hsp]; norm_num)
      (by push_cast; norm_num)
      (by rw [e3, q3, hsp]; push_cast; norm_num)
    obtain ⟨a9, hd1, hd2⟩ := c3_step_to_decay _ _ _ _ _ 0.016 a1 a2
      (by simp) (by simp) a6
      (by push_cast; norm_num)
      (by rw [a3, e3, q3, hsp]; push_cast; norm_num)
    rw [show (81 : ℕ) = 48 + 1 + 31 + 1 from rfl, ticks_add, ticks_add, ticks_add,
      tick_one, tick_one]
    exact ⟨a9, hd1, hd2⟩
/-- Witness for C3: at the default speed the single cascade has landed by
tick 49 — the allocator sits at 5 (= 2 + one cascade of three). -/
theorem C3_cascade_contract_witness :
    (ticks 0.016 c3FastState 49).nextId = 5 := by
  have h := C3_cascade_contract.2.2.1 49 (by norm_num) (by norm_num)
  simpa using h
theorem distanceTo_lt_iff (a b : Vec3) (c : ℝ) (hc : 0 < c) :
    a.distanceTo b < c ↔ a.distSq b < c ^ 2 := by
  unfold Vec3.distanceTo
  exact Real.sqrt_lt' hc

theorem lt_distanceTo_iff (a b : Vec3) (c : ℝ) (hc : 0 ≤ c) :
    c < a.distanceTo b ↔ c ^ 2 < a.distSq b := by
  unfold Vec3.distanceTo
  exact Real.lt_sqrt hc

theorem updateTrail_store_ne (s : AState) (t j : ℕ) (h : j ≠ t) :
    (updateTrail s t).store j = s.store j := by
  unfold updateTrail
  split
  · rfl
  · simp [AState.setObj, h]

theorem updateTrail_misc (s : AState) (t : ℕ) :
    (updateTrail s t).isPlaying = s.isPlaying ∧ (updateTrail s t).speed = s.speed ∧
    (updateTrail s t).nextId = s.nextId := by
  unfold updateTrail
  split <;> exact ⟨rfl, rfl, rfl⟩

theorem normalize_y_nonneg (p : Vec3) (h : 0 ≤ p.y) : 0 ≤ p.normalize.y := by
  unfold Vec3.normalize
  split
  · exact h
  · dsimp [Vec3.smul]
    have h0 : 0 ≤ p.length := Real.sqrt_nonneg _
    positivity
theorem c8_far_step (s : AState) (p : Vec3) (tm : ℝ) (δ : ℝ)
    (hc : s.currentAnimation = some (c8A tm))
    (hp : s.isPlaying = true)
    (hsp : s.speed = 1)
    (hpos : (s.store 0).pos = p)
    (hy : p.y = 3) (hz : p.z = 0)
    (hv : (s.store 0).velocity = some ⟨0.2, 0, 0⟩)
    (ht : (s.store 1).pos = ⟨0, 100, 0⟩) :
    (update s δ).2 = false ∧
    (update s δ).1.currentAnimation = some (c8A (tm + δ * s.speed)) ∧
    (update s δ).1.isPlaying = true ∧
    (update s δ).1.speed = 1 ∧
    ((update s δ).1.store 0).pos = p.add (Vec3.smul 1 ⟨0.2, 0, 0⟩) ∧
    (p.add (Vec3.smul 1 ⟨0.2, 0, 0⟩)).y = 3 ∧
    (p.add (Vec3.smul 1 ⟨0.2, 0, 0⟩)).z = 0 ∧
    ((update s δ).1.store 0).velocity = some ⟨0.2, 0, 0⟩ ∧
    ((update s δ).1.store 1).pos = ⟨0, 100, 0⟩ := by
  have hp' : ¬ (s.isPlaying = false) := by simp [hp]
  have hfar : ∀ q : Vec3, q.y = 3 → q.z = 0 →
      ¬ (q.distanceTo ⟨0, 100, 0⟩ < 6) ∧ ¬ (q.distanceTo ⟨0, 100, 0⟩ < 3.5) := by
    intro q hqy hqz
    constructor
    · rw [distanceTo_lt_iff _ _ 6 (by norm_num)]
      unfold Vec3.distSq
      rw [hqy, hqz]
      dsimp only
      intro hcon
      nlinarith [sq_nonneg (q.x - 0)]
    · rw [distanceTo_lt_iff _ _ 3.5 (by norm_num)]
      unfold Vec3.distSq
      rw [hqy, hqz]
      dsimp only
      intro hcon
      nlinarith [sq_nonneg (q.x - 0)]
  unfold update
  simp only [hc, if_neg hp']
  unfold kindUpdate updateElasticBreakup elasticApproach
  dsimp only [c8A]
  simp only [hv]
  dsimp only [AState.modifyObj, AState.setObj]
  simp only [show (0 : ℕ) = 0 ↔ True from by simp, if_true, show ((1 : ℕ) = 0) = False from by simp,
    if_false]
  rw [hpos, ht, hsp]
  have hy' : (p.add (Vec3.smul 1 ⟨0.2, 0, 0⟩)).y = 3 := by
    dsimp [Vec3.add, Vec3.smul]
    rw [hy]
    ring
  have hz' : (p.add (Vec3.smul 1 ⟨0.2, 0, 0⟩)).z = 0 := by
    dsimp [Vec3.add, Vec3.smul]
    rw [hz]
    ring
  obtain ⟨h6, h35⟩ := hfar _ hy' hz'
  rw [if_neg h6, if_neg h35]
  exact ⟨rfl, rfl, hp, rfl, rfl, hy', hz', hv, ht⟩
/-- C8 counterexample: `createElasticBreakup` places the projectile at
absolute height `impactParam`, not relative to the target, so with the target
at `(0, 100, 0)` the projectile cruises at `y = 3` forever at least 97 units
away: no force, no breakup trigger, the animation never leaves `approach`,
and no `update` call ever returns `true`. -/
theorem C8_counterexample :
    (∀ n : ℕ, ∃ tm, (ticks 0.016 c8Start n).currentAnimation = some (c8A tm)) ∧
    (∀ N : ℕ, (update (ticks 0.016 c8Start N) 0.016).2 ≠ true) := by
  have key : ∀ n : ℕ, ∃ tm p,
      (ticks 0.016 c8Start n).currentAnimation = some (c8A tm) ∧
      (ticks 0.016 c8Start n).isPlaying = true ∧
      (ticks 0.016 c8Start n).speed = 1 ∧
      ((ticks 0.016 c8Start n).store 0).pos = p ∧
      p.y = 3 ∧ p.z = 0 ∧
      ((ticks 0.016 c8Start n).store 0).velocity = some ⟨0.2, 0, 0⟩ ∧
      ((ticks 0.016 c8Start n).store 1).pos = ⟨0, 100, 0⟩ := by
    intro n
    induction n with
    | zero =>
      exact ⟨0, ⟨0 - 12, 3, 0⟩, rfl, rfl, rfl, rfl, rfl, rfl, rfl, rfl⟩
    | succ n ih =>
      obtain ⟨tm, p, h1, h2, h3, h4, h5, h6, h7, h8⟩ := ih
      obtain ⟨g0, g1, g2, g3, g4, g5, g6, g7, g8⟩ :=
        c8_far_step (ticks 0.016 c8Start n) p tm 0.016 h1 h2 h3 h4 h5 h6 h7 h8
      exact ⟨_, p.add (Vec3.smul 1 ⟨0.2, 0, 0⟩), g1, g2, g3, g4, g5, g6, g7, g8⟩
  constructor
  · intro n
    obtain ⟨tm, p, h1, _⟩ := key n
    exact ⟨tm, h1⟩
  · intro N
    obtain ⟨tm, p, h1, h2, h3, h4, h5, h6, h7, h8⟩ := key N
    obtain ⟨g0, _⟩ := c8_far_step (ticks 0.016 c8Start N) p tm 0.016 h1 h2 h3 h4 h5 h6 h7 h8
    rw [g0]
    simp
theorem setObj_store_ne (s : AState) (i : ℕ) (o : Obj) (j : ℕ) (h : j ≠ i) :
    ((s.setObj i o).store j) = s.store j := by
  simp [AState.setObj, h]

theorem setObj_isPlaying (s : AState) (i : ℕ) (o : Obj) :
    (s.setObj i o).isPlaying = s.isPlaying := rfl

theorem setObj_speed (s : AState) (i : ℕ) (o : Obj) : (s.setObj i o).speed = s.speed := rfl

theorem updateTrail_isPlaying (s : AState) (t : ℕ) :
    (updateTrail s t).isPlaying = s.isPlaying := (updateTrail_misc s t).1

theorem updateTrail_speed (s : AState) (t : ℕ) :
    (updateTrail s t).speed = s.speed := (updateTrail_misc s t).2.1

theorem kick_y_ge (v : Vec3) (c : ℝ) (p : Vec3) (hv : 0.06 ≤ v.y) (hc : 0 ≤ c)
    (hp : 0 ≤ p.y) (b : Prop) [Decidable b] :
    0.06 ≤ (if b then v.add (Vec3.smul c p.normalize) else v).y := by
  split
  · dsimp [Vec3.add, Vec3.smul]
    have hn := normalize_y_nonneg p hp
    nlinarith
  · exact hv

theorem kick_zero (v w : Vec3) (d sp : ℝ) (b : Prop) [Decidable b] :
    (if b then v.add (Vec3.smul (0.001 * 0 / d * sp) w) else v) = v := by
  split
  · obtain ⟨vx, vy, vz⟩ := v
    dsimp [Vec3.add, Vec3.smul]
    simp only [Vec3.mk.injEq]
    refine ⟨by ring, by ring, by ring⟩
  · rfl
theorem setObj_store_self (s : AState) (i : ℕ) (o : Obj) : (s.setObj i o).store i = o := by
  simp [AState.setObj]

set_option maxHeartbeats 1600000 in
theorem c8_frags (s : AState) (a : Animation) (v1 : Vec3)
    (hta : a.target = 1) (htr : a.trails = [4, 5])
    (hsp : s.speed = 1)
    (ht : (s.store 1).pos = ⟨0, 0, 0⟩)
    (hq1 : (s.store 2).charge = 1) (hy1 : 3.3 ≤ (s.store 2).pos.y)
    (hv1e : (s.store 2).velocity = some v1) (hv1y : 0.06 ≤ v1.y)
    (hq2 : (s.store 3).charge = 0)
    (hv2 : (s.store 3).velocity = some ⟨0.08, -0.04, -0.02⟩) :
    ∃ s2 : AState, elasticFragsGo [(0, 2), (1, 3)] s a = (s2, .ok ()) ∧
      s2.isPlaying = s.isPlaying ∧
      s2.speed = s.speed ∧
      (s2.store 1).pos = ⟨0, 0, 0⟩ ∧
      (s2.store 2).charge = 1 ∧
      (s.store 2).pos.y + 0.06 ≤ (s2.store 2).pos.y ∧
      (∃ w : Vec3, (s2.store 2).velocity = some w ∧ 0.06 ≤ w.y) ∧
      (s2.store 3).charge = 0 ∧
      (s2.store 3).velocity = some ⟨0.08, -0.04, -0.02⟩ ∧
      (s2.store 3).pos.y = (s.store 3).pos.y - 0.04 := by
  simp only [elasticFragsGo]
  rw [hta, htr, ht]
  simp only [hv1e, hq1, hsp]
  simp only [show ([4, 5] : List ℕ).get? 0 = some 4 from rfl,
    show ([4, 5] : List ℕ).get? 1 = some 5 from rfl]
  rw [updateTrail_store_ne _ 4 3 (by norm_num), setObj_store_ne _ 2 _ 3 (by norm_num)]
  simp only [hv2, hq2]
  rw [kick_zero]
  refine ⟨_, rfl, ?_, ?_, ?_, ?_, ?_, ?_, ?_, ?_, ?_⟩
  · rw [updateTrail_isPlaying, setObj_isPlaying, updateTrail_isPlaying, setObj_isPlaying]
  · rw [updateTrail_speed, setObj_speed, updateTrail_speed, setObj_speed]
    exact hsp
  · rw [updateTrail_store_ne _ 5 1 (by norm_num), setObj_store_ne _ 3 _ 1 (by norm_num),
      updateTrail_store_ne _ 4 1 (by norm_num), setObj_store_ne _ 2 _ 1 (by norm_num)]
    exact ht
  · rw [updateTrail_store_ne _ 5 2 (by norm_num), setObj_store_ne _ 3 _ 2 (by norm_num),
      updateTrail_store_ne _ 4 2 (by norm_num), setObj_store_self]
  · rw [updateTrail_store_ne _ 5 2 (by norm_num), setObj_store_ne _ 3 _ 2 (by norm_num),
      updateTrail_store_ne _ 4 2 (by norm_num), setObj_store_self]
    have hw : 0.06 ≤ (if 0.5 < (s.store 2).pos.distanceTo ⟨0, 0, 0⟩ then
        v1.add (Vec3.smul (0.001 * 1 / ((s.store 2).pos.distanceTo ⟨0, 0, 0⟩ *
          (s.store 2).pos.distanceTo ⟨0, 0, 0⟩) * 1)
          (((s.store 2).pos.sub ⟨0, 0, 0⟩).normalize)) else v1).y := by
      refine kick_y_ge v1 _ _ hv1y ?_ ?_ _
      · have hd : (0 : ℝ) ≤ (s.store 2).pos.distanceTo ⟨0, 0, 0⟩ :=
          Real.sqrt_nonneg _
        positivity
      · dsimp [Vec3.sub]
        linarith
    dsimp only [Vec3.add, Vec3.smul]
    dsimp only [Vec3.add, Vec3.smul] at hw
    nlinarith [hw]
  · rw [updateTrail_store_ne _ 5 2 (by norm_num), setObj_store_ne _ 3 _ 2 (by norm_num),
      updateTrail_store_ne _ 4 2 (by norm_num), setObj_store_self]
    refine ⟨_, rfl, ?_⟩
    refine kick_y_ge v1 _ _ hv1y ?_ ?_ _
    · have hd : (0 : ℝ) ≤ (s.store 2).pos.distanceTo ⟨0, 0, 0⟩ :=
        Real.sqrt_nonneg _
      positivity
    · dsimp [Vec3.sub]
      linarith
  · rw [updateTrail_store_ne _ 5 3 (by norm_num), setObj_store_self]
  · rw [updateTrail_store_ne _ 5 3 (by norm_num), setObj_store_self]
  · rw [updateTrail_store_ne _ 5 3 (by norm_num), setObj_store_self]
    dsimp only [Vec3.add, Vec3.smul]
    rw [updateTrail_speed, setObj_speed, hsp]
    ring
set_option maxHeartbeats 1600000 in
theorem c8_phase (s : AState) (a : Animation) (v1 : Vec3)
    (hfr : a.fragments = [2, 3]) (hta : a.target = 1) (htr : a.trails = [4, 5])
    (hsp : s.speed = 1)
    (ht : (s.store 1).pos = ⟨0, 0, 0⟩)
    (hq1 : (s.store 2).charge = 1) (hy1 : 3.3 ≤ (s.store 2).pos.y)
    (hv1e : (s.store 2).velocity = some v1) (hv1y : 0.06 ≤ v1.y)
    (hq2 : (s.store 3).charge = 0)
    (hv2 : (s.store 3).velocity = some ⟨0.08, -0.04, -0.02⟩) :
    ∃ s2 : AState,
      (elasticBreakupPhase s a = (s2, a, .ok false) ∨
       elasticBreakupPhase s a = (s2, { a with phase := .complete }, .ok false)) ∧
      s2.isPlaying = s.isPlaying ∧
      s2.speed = s.speed ∧
      (s2.store 1).pos = ⟨0, 0, 0⟩ ∧
      (s2.store 2).charge = 1 ∧
      (s.store 2).pos.y + 0.06 ≤ (s2.store 2).pos.y ∧
      (∃ w : Vec3, (s2.store 2).velocity = some w ∧ 0.06 ≤ w.y) ∧
      (s2.store 3).charge = 0 ∧
      (s2.store 3).velocity = some ⟨0.08, -0.04, -0.02⟩ ∧
      (s2.store 3).pos.y = (s.store 3).pos.y - 0.04 ∧
      (15 < (s2.store 2).pos.distanceTo ⟨0, 0, 0⟩ →
       15 < (s2.store 3).pos.distanceTo ⟨0, 0, 0⟩ →
       elasticBreakupPhase s a = (s2, { a with phase := .complete }, .ok false)) := by
  obtain ⟨s2, heq, hf1, hf2, hf3, hf4, hf5, hf6, hf7, hf8, hf9⟩ :=
    c8_frags s a v1 hta htr hsp ht hq1 hy1 hv1e hv1y hq2 hv2
  unfold elasticBreakupPhase
  rw [hfr, show ([2, 3] : List ℕ).enum = [(0, 2), (1, 3)] from rfl, heq]
  dsimp only
  rw [hta, hf3]
  simp only [List.all_cons, List.all_nil, Bool.and_true]
  rcases Bool.eq_false_or_eq_true
      (decide (15 < (s2.store 2).pos.distanceTo ⟨0, 0, 0⟩) &&
       decide (15 < (s2.store 3).pos.distanceTo ⟨0, 0, 0⟩)) with hall | hall
  · rw [hall, if_pos rfl]
    exact ⟨s2, Or.inr rfl, hf1, hf2, hf3, hf4, hf5, hf6, hf7, hf8, hf9, fun _ _ => rfl⟩
  · rw [hall, if_neg (by simp : ¬ (false = true))]
    refine ⟨s2, Or.inl rfl, hf1, hf2, hf3, hf4, hf5, hf6, hf7, hf8, hf9, ?_⟩
    intro h2 h3
    simp [h2, h3] at hall
set_option maxHeartbeats 1600000 in
theorem c8_breakup_step (s : AState) (tm : ℝ) (δ : ℝ) (ef : List ℕ)
    (hc : s.currentAnimation = some (c8B tm ef))
    (hp : s.isPlaying = true)
    (hsp : s.speed = 1)
    (ht : (s.store 1).pos = ⟨0, 0, 0⟩)
    (hq1 : (s.store 2).charge = 1)
    (hy1 : 3.3 ≤ (s.store 2).pos.y)
    (hv1 : ∃ v1 : Vec3, (s.store 2).velocity = some v1 ∧ 0.06 ≤ v1.y)
    (hq2 : (s.store 3).charge = 0)
    (hv2 : (s.store 3).velocity = some ⟨0.08, -0.04, -0.02⟩) :
    ((update s δ).1.currentAnimation = some (c8B (tm + δ * 1) ef) ∨
     (update s δ).1.currentAnimation = some (c8Bc (tm + δ * 1) ef)) ∧
    (update s δ).1.isPlaying = true ∧
    (update s δ).1.speed = 1 ∧
    ((update s δ).1.store 1).pos = ⟨0, 0, 0⟩ ∧
    ((update s δ).1.store 2).charge = 1 ∧
    (s.store 2).pos.y + 0.06 ≤ ((update s δ).1.store 2).pos.y ∧
    (∃ w : Vec3, ((update s δ).1.store 2).velocity = some w ∧ 0.06 ≤ w.y) ∧
    ((update s δ).1.store 3).charge = 0 ∧
    ((update s δ).1.store 3).velocity = some ⟨0.08, -0.04, -0.02⟩ ∧
    ((update s δ).1.store 3).pos.y = (s.store 3).pos.y - 0.04 ∧
    (15 < ((update s δ).1.store 2).pos.distanceTo ⟨0, 0, 0⟩ →
     15 < ((update s δ).1.store 3).pos.distanceTo ⟨0, 0, 0⟩ →
     (update s δ).1.currentAnimation = some (c8Bc (tm + δ * 1) ef)) := by
  have hps : ¬ (s.isPlaying = false) := by simp [hp]
  obtain ⟨v1, hv1e, hv1y⟩ := hv1
  obtain ⟨s2, hdisj, hf1, hf2, hf3, hf4, hf5, hf6, hf7, hf8, hf9, hcond⟩ :=
    c8_phase s (c8B (tm + δ * 1) ef) v1 rfl rfl rfl hsp ht hq1 hy1 hv1e hv1y hq2 hv2
  unfold update
  simp only [hc, if_neg hps]
  unfold kindUpdate updateElasticBreakup
  dsimp only [c8B]
  rw [hsp]
  dsimp only [c8B, c8Bc] at hdisj hcond
  rcases hdisj with he | he
  · rw [he]
    refine ⟨Or.inl rfl, hf1.trans hp, hf2.trans hsp, hf3, hf4, hf5, hf6, hf7, hf8, hf9, ?_⟩
    intro h2 h3
    have hx := he.symm.trans (hcond h2 h3)
    simp at hx
  · rw [he]
    exact ⟨Or.inr rfl, hf1.trans hp, hf2.trans hsp, hf3, hf4, hf5, hf6, hf7, hf8, hf9,
      fun _ _ => rfl⟩
theorem abs_y_le_distanceTo (p : Vec3) : |p.y| ≤ p.distanceTo ⟨0, 0, 0⟩ := by
  unfold Vec3.distanceTo Vec3.distSq
  rw [show |p.y| = Real.sqrt (p.y ^ 2) from (Real.sqrt_sq_eq_abs p.y).symm]
  apply Real.sqrt_le_sqrt
  dsimp only
  nlinarith [sq_nonneg (p.x - 0), sq_nonneg (p.z - 0)]

theorem c8_complete_step (s : AState) (tm δ : ℝ) (ef : List ℕ)
    (hc : s.currentAnimation = some (c8Bc tm ef)) (hp : s.isPlaying = true) :
    (update s δ).2 = true := by
  have hps : ¬ (s.isPlaying = false) := by simp [hp]
  unfold update
  simp only [hc, if_neg hps]
  rfl
/-- The breakup-phase run: at `speed = 1`, from any state in the elastic
`breakup` phase whose fragments follow the canonical deuteron split (proton of
charge 1 at height at least 3.3 moving upward at least 0.06 per tick, neutron
of charge 0 with exact velocity `(0.08, -0.04, -0.02)` starting at height at
most 2.9, target at the origin), both fragments pass the escape distance 15
and `update` returns `true` within 449 ticks. -/
theorem c8_breakup_run (s : AState) (tm : ℝ) (ef : List ℕ)
    (hc : s.currentAnimation = some (c8B tm ef))
    (hp : s.isPlaying = true)
    (hsp : s.speed = 1)
    (ht : (s.store 1).pos = ⟨0, 0, 0⟩)
    (hq1 : (s.store 2).charge = 1)
    (hy1 : 3.3 ≤ (s.store 2).pos.y)
    (hv1 : ∃ v : Vec3, (s.store 2).velocity = some v ∧ 0.06 ≤ v.y)
    (hq2 : (s.store 3).charge = 0)
    (hv2 : (s.store 3).velocity = some ⟨0.08, -0.04, -0.02⟩)
    (hy2 : (s.store 3).pos.y ≤ 2.9) :
    ∃ N ≤ 449, (update (ticks 0.016 s N) 0.016).2 = true := by
  have key : ∀ i : ℕ,
      (∃ m, m < i ∧ (update (ticks 0.016 s m) 0.016).2 = true) ∨
      ((ticks 0.016 s i).isPlaying = true ∧
        ∃ tm2, (ticks 0.016 s i).currentAnimation = some (c8Bc tm2 ef)) ∨
      ((ticks 0.016 s i).isPlaying = true ∧ (ticks 0.016 s i).speed = 1 ∧
        (∃ tm2, (ticks 0.016 s i).currentAnimation = some (c8B tm2 ef)) ∧
        ((ticks 0.016 s i).store 1).pos = ⟨0, 0, 0⟩ ∧
        ((ticks 0.016 s i).store 2).charge = 1 ∧
        3.3 + 0.06 * (i : ℝ) ≤ ((ticks 0.016 s i).store 2).pos.y ∧
        (∃ w : Vec3, ((ticks 0.016 s i).store 2).velocity = some w ∧ 0.06 ≤ w.y) ∧
        ((ticks 0.016 s i).store 3).charge = 0 ∧
        ((ticks 0.016 s i).store 3).velocity = some ⟨0.08, -0.04, -0.02⟩ ∧
        ((ticks 0.016 s i).store 3).pos.y = (s.store 3).pos.y - 0.04 * (i : ℝ)) := by
    intro i
    induction i with
    | zero =>
      refine Or.inr (Or.inr ⟨hp, hsp, ⟨tm, hc⟩, ht, hq1, ?_, hv1, hq2, hv2, ?_⟩)
      · show 3.3 + 0.06 * ((0 : ℕ) : ℝ) ≤ (s.store 2).pos.y
        push_cast
        linarith
      · show (s.store 3).pos.y = (s.store 3).pos.y - 0.04 * ((0 : ℕ) : ℝ)
        push_cast
        ring
    | succ i ih =>
      rcases ih with ⟨m, hm, hu⟩ |
        ⟨hpl, tm2, hcur⟩ |
        ⟨hpl, hsp2, ⟨tm2, hcur⟩, ht2, hq12, hy12, hv12, hq22, hv22, hy22⟩
      · exact Or.inl ⟨m, Nat.lt_succ_of_lt hm, hu⟩
      · exact Or.inl ⟨i, Nat.lt_succ_self i, c8_complete_step _ tm2 _ ef hcur hpl⟩
      · have hy12b : (3.3 : ℝ) ≤ ((ticks 0.016 s i).store 2).pos.y := by
          have h0 : (0 : ℝ) ≤ 0.06 * (i : ℝ) := by positivity
          linarith
        obtain ⟨hdisj, hf1, hf2, hf3, hf4, hf5, hf6, hf7, hf8, hf9, hcond⟩ :=
          c8_breakup_step (ticks 0.016 s i) tm2 0.016 ef hcur hpl hsp2 ht2 hq12 hy12b hv12 hq22 hv22
        rcases hdisj with hcb | hcbc
        · refine Or.inr (Or.inr ⟨hf1, hf2, ⟨tm2 + 0.016 * 1, hcb⟩, hf3, hf4, ?_, hf6, hf7, hf8, ?_⟩)
          · show 3.3 + 0.06 * ((i + 1 : ℕ) : ℝ) ≤
              ((update (ticks 0.016 s i) 0.016).1.store 2).pos.y
            push_cast
            linarith [hf5, hy12]
          · show ((update (ticks 0.016 s i) 0.016).1.store 3).pos.y =
              (s.store 3).pos.y - 0.04 * ((i + 1 : ℕ) : ℝ)
            rw [hf9, hy22]
            push_cast
            ring
        · exact Or.inr (Or.inl ⟨hf1, tm2 + 0.016 * 1, hcbc⟩)
  rcases key 448 with ⟨m, hm, hu⟩ |
    ⟨hpl, tm2, hcur⟩ |
    ⟨hpl, hsp2, ⟨tm2, hcur⟩, ht2, hq12, hy12, hv12, hq22, hv22, hy22⟩
  · exact ⟨m, by omega, hu⟩
  · exact ⟨448, by norm_num, c8_complete_step _ tm2 _ ef hcur hpl⟩
  · push_cast at hy12
    have hy12b : (3.3 : ℝ) ≤ ((ticks 0.016 s 448).store 2).pos.y := by linarith
    obtain ⟨hdisj, hf1, hf2, hf3, hf4, hf5, hf6, hf7, hf8, hf9, hcond⟩ :=
      c8_breakup_step (ticks 0.016 s 448) tm2 0.016 ef hcur hpl hsp2 ht2 hq12 hy12b hv12 hq22 hv22
    have hprot : (30.24 : ℝ) ≤ ((update (ticks 0.016 s 448) 0.016).1.store 2).pos.y := by
      linarith [hf5, hy12]
    have hneut : ((update (ticks 0.016 s 448) 0.016).1.store 3).pos.y ≤ -15.06 := by
      rw [hf9, hy22]
      push_cast
      linarith [hy2]
    have h2 : (15 : ℝ) < ((update (ticks 0.016 s 448) 0.016).1.store 2).pos.distanceTo ⟨0, 0, 0⟩ := by
      have habs := abs_y_le_distanceTo ((update (ticks 0.016 s 448) 0.016).1.store 2).pos
      have := le_abs_self ((update (ticks 0.016 s 448) 0.016).1.store 2).pos.y
      linarith
    have h3 : (15 : ℝ) < ((update (ticks 0.016 s 448) 0.016).1.store 3).pos.distanceTo ⟨0, 0, 0⟩ := by
      have habs := abs_y_le_distanceTo ((update (ticks 0.016 s 448) 0.016).1.store 3).pos
      have := neg_abs_le ((update (ticks 0.016 s 448) 0.016).1.store 3).pos.y
      linarith
    have hcc := hcond h2 h3
    have hts : ticks 0.016 s 449 = (update (ticks 0.016 s 448) 0.016).1 := by
      have tick_one : ∀ x : AState, ticks 0.016 x 1 = (update x 0.016).1 := fun _ => rfl
      rw [show (449 : ℕ) = 448 + 1 from rfl, ticks_add, tick_one]
    refine ⟨449, le_refl _, c8_complete_step (ticks 0.016 s 449) (tm2 + 0.016 * 1) 0.016 ef ?_ ?_⟩
    · rw [hts]
      exact hcc
    · rw [hts]
      exact hf1

/-- Sanity check of the breakup run at the concrete post-trigger breakup
state `c8WState`: it completes within 449 ticks. -/
theorem c8_breakup_run_check :
    ∃ N ≤ 449, (update (ticks 0.016 c8WState N) 0.016).2 = true :=
  c8_breakup_run c8WState 0 [] rfl rfl rfl rfl rfl (le_refl (3.3 : ℝ))
    ⟨⟨0.08, 0.06, 0.02⟩, rfl, le_refl (0.06 : ℝ)⟩ rfl rfl (by norm_num [c8WState, createNeutron])
theorem abs_x_le_distanceTo (p : Vec3) : |p.x| ≤ p.distanceTo ⟨0, 0, 0⟩ := by
  unfold Vec3.distanceTo Vec3.distSq
  rw [show |p.x| = Real.sqrt (p.x ^ 2) from (Real.sqrt_sq_eq_abs p.x).symm]
  apply Real.sqrt_le_sqrt
  dsimp only
  nlinarith [sq_nonneg (p.y - 0), sq_nonneg (p.z - 0)]

theorem explosionLoop_isPlaying (p : Vec3) (n : ℕ) (s : AState) :
    (explosionLoop p n s).2.isPlaying = s.isPlaying := by
  induction n generalizing s with
  | zero => rfl
  | succ k ih =>
    unfold explosionLoop
    rw [ih]
    rfl

theorem explosionLoop_speed (p : Vec3) (n : ℕ) (s : AState) :
    (explosionLoop p n s).2.speed = s.speed := by
  induction n generalizing s with
  | zero => rfl
  | succ k ih =>
    unfold explosionLoop
    rw [ih]
    rfl

set_option maxHeartbeats 1600000 in
theorem initiateElastic_spec (s : AState) (a : Animation)
    (hpj : a.projectile = 0)
    (hty : (s.store 0).ptype = some .deuteron)
    (hni : s.nextId = 2)
    (hfr : a.fragments = []) (htl : a.trails = []) (hef : a.effects = []) :
    ∃ ef : List ℕ,
      (initiateElasticBreakup s a).2 =
        { a with fragments := [2, 3], trails := [4, 5], effects := ef } ∧
      (initiateElasticBreakup s a).1.isPlaying = s.isPlaying ∧
      (initiateElasticBreakup s a).1.speed = s.speed ∧
      (initiateElasticBreakup s a).1.store 1 = s.store 1 ∧
      ((initiateElasticBreakup s a).1.store 2).charge = 1 ∧
      ((initiateElasticBreakup s a).1.store 2).pos.y = (s.store 0).pos.y + 0.3 ∧
      ((initiateElasticBreakup s a).1.store 2).velocity = some ⟨0.08, 0.06, 0.02⟩ ∧
      ((initiateElasticBreakup s a).1.store 3).charge = 0 ∧
      ((initiateElasticBreakup s a).1.store 3).pos.y = (s.store 0).pos.y - 0.3 ∧
      ((initiateElasticBreakup s a).1.store 3).velocity = some ⟨0.08, -0.04, -0.02⟩ := by
  obtain ⟨k, pj, tg, ph, tm, ip, fr, tr, ef0, ab, es, cn, ex, gr, ew, rt, mr⟩ := a
  dsimp only at hpj hfr htl hef
  subst hpj hfr htl hef
  unfold initiateElasticBreakup
  dsimp only
  rw [hty]
  dsimp only [elasticFragSpec]
  simp only [AState.createExplosion, AState.alloc, AState.sceneAdd, AState.sceneRemove,
    AState.setObj, hni]
  refine ⟨_, rfl, ?_, ?_, ?_, ?_, ?_, ?_, ?_, ?_, ?_⟩
  · rw [(foldl_sceneAdd_misc _ _).1, explosionLoop_isPlaying]
  · rw [(foldl_sceneAdd_misc _ _).2.1, explosionLoop_speed]
  · rw [foldl_sceneAdd_store]
    rw [explosionLoop_store_lt]
    · norm_num
    · norm_num
  · rw [foldl_sceneAdd_store]
    rw [explosionLoop_store_lt]
    · norm_num [createProton]
    · norm_num
  · rw [foldl_sceneAdd_store]
    rw [explosionLoop_store_lt]
    · norm_num [createProton, Vec3.add]
    · norm_num
  · rw [foldl_sceneAdd_store]
    rw [explosionLoop_store_lt]
    · norm_num [createProton]
    · norm_num
  · rw [foldl_sceneAdd_store]
    rw [explosionLoop_store_lt]
    · norm_num [createNeutron]
    · norm_num
  · rw [foldl_sceneAdd_store]
    rw [explosionLoop_store_lt]
    · norm_num [createNeutron, Vec3.add]
      ring
    · norm_num
  · rw [foldl_sceneAdd_store]
    rw [explosionLoop_store_lt]
    · norm_num [createNeutron]
    · norm_num
theorem initElastic_anim (s : AState) (a : Animation)
    (hpj : a.projectile = 0) (hty : (s.store 0).ptype = some PType.deuteron)
    (hni : s.nextId = 2)
    (hfr : a.fragments = []) (htl : a.trails = []) (hef : a.effects = []) :
    (initiateElasticBreakup s a).2 =
      { a with fragments := [2, 3], trails := [4, 5], effects := elasticFlashIds s a } := by
  obtain ⟨ef, ha, _⟩ := initiateElastic_spec s a hpj hty hni hfr htl hef
  have hx : elasticFlashIds s a = ef := by
    unfold elasticFlashIds
    rw [ha]
  rw [hx]
  exact ha

theorem initElastic_isPlaying (s : AState) (a : Animation)
    (hpj : a.projectile = 0) (hty : (s.store 0).ptype = some PType.deuteron)
    (hni : s.nextId = 2)
    (hfr : a.fragments = []) (htl : a.trails = []) (hef : a.effects = []) :
    (initiateElasticBreakup s a).1.isPlaying = s.isPlaying := by
  obtain ⟨ef, _, h, _⟩ := initiateElastic_spec s a hpj hty hni hfr htl hef
  exact h

theorem initElastic_speed (s : AState) (a : Animation)
    (hpj : a.projectile = 0) (hty : (s.store 0).ptype = some PType.deuteron)
    (hni : s.nextId = 2)
    (hfr : a.fragments = []) (htl : a.trails = []) (hef : a.effects = []) :
    (initiateElasticBreakup s a).1.speed = s.speed := by
  obtain ⟨ef, _, _, h, _⟩ := initiateElastic_spec s a hpj hty hni hfr htl hef
  exact h

theorem initElastic_store1 (s : AState) (a : Animation)
    (hpj : a.projectile = 0) (hty : (s.store 0).ptype = some PType.deuteron)
    (hni : s.nextId = 2)
    (hfr : a.fragments = []) (htl : a.trails = []) (hef : a.effects = []) :
    (initiateElasticBreakup s a).1.store 1 = s.store 1 := by
  obtain ⟨ef, _, _, _, h, _⟩ := initiateElastic_spec s a hpj hty hni hfr htl hef
  exact h

theorem initElastic_s2charge (s : AState) (a : Animation)
    (hpj : a.projectile = 0) (hty : (s.store 0).ptype = some PType.deuteron)
    (hni : s.nextId = 2)
    (hfr : a.fragments = []) (htl : a.trails = []) (hef : a.effects = []) :
    ((initiateElasticBreakup s a).1.store 2).charge = 1 := by
  obtain ⟨ef, _, _, _, _, h, _⟩ := initiateElastic_spec s a hpj hty hni hfr htl hef
  exact h

theorem initElastic_s2posy (s : AState) (a : Animation)
    (hpj : a.projectile = 0) (hty : (s.store 0).ptype = some PType.deuteron)
    (hni : s.nextId = 2)
    (hfr : a.fragments = []) (htl : a.trails = []) (hef : a.effects = []) :
    ((initiateElasticBreakup s a).1.store 2).pos.y = (s.store 0).pos.y + 0.3 := by
  obtain ⟨ef, _, _, _, _, _, h, _⟩ := initiateElastic_spec s a hpj hty hni hfr htl hef
  exact h

theorem initElastic_s2vel (s : AState) (a : Animation)
    (hpj : a.projectile = 0) (hty : (s.store 0).ptype = some PType.deuteron)
    (hni : s.nextId = 2)
    (hfr : a.fragments = []) (htl : a.trails = []) (hef : a.effects = []) :
    ((initiateElasticBreakup s a).1.store 2).velocity = some ⟨0.08, 0.06, 0.02⟩ := by
  obtain ⟨ef, _, _, _, _, _, _, h, _⟩ := initiateElastic_spec s a hpj hty hni hfr htl hef
  exact h

theorem initElastic_s3charge (s : AState) (a : Animation)
    (hpj : a.projectile = 0) (hty : (s.store 0).ptype = some PType.deuteron)
    (hni : s.nextId = 2)
    (hfr : a.fragments = []) (htl : a.trails = []) (hef : a.effects = []) :
    ((initiateElasticBreakup s a).1.store 3).charge = 0 := by
  obtain ⟨ef, _, _, _, _, _, _, _, h, _⟩ := initiateElastic_spec s a hpj hty hni hfr htl hef
  exact h

theorem initElastic_s3posy (s : AState) (a : Animation)
    (hpj : a.projectile = 0) (hty : (s.store 0).ptype = some PType.deuteron)
    (hni : s.nextId = 2)
    (hfr : a.fragments = []) (htl : a.trails = []) (hef : a.effects = []) :
    ((initiateElasticBreakup s a).1.store 3).pos.y = (s.store 0).pos.y - 0.3 := by
  obtain ⟨ef, _, _, _, _, _, _, _, _, h, _⟩ := initiateElastic_spec s a hpj hty hni hfr htl hef
  exact h

theorem initElastic_s3vel (s : AState) (a : Animation)
    (hpj : a.projectile = 0) (hty : (s.store 0).ptype = some PType.deuteron)
    (hni : s.nextId = 2)
    (hfr : a.fragments = []) (htl : a.trails = []) (hef : a.effects = []) :
    ((initiateElasticBreakup s a).1.store 3).velocity = some ⟨0.08, -0.04, -0.02⟩ := by
  obtain ⟨ef, _, _, _, _, _, _, _, _, _, h⟩ := initiateElastic_spec s a hpj hty hni hfr htl hef
  exact h
set_option maxHeartbeats 1600000 in
theorem c8_approach_trigger (s : AState) (tm δ px py vx vy : ℝ)
    (hc : s.currentAnimation = some (c8A tm))
    (hp : s.isPlaying = true)
    (hsp : s.speed = 1)
    (hni : s.nextId = 2)
    (ht : (s.store 1).pos = ⟨0, 0, 0⟩)
    (hty : (s.store 0).ptype = some PType.deuteron)
    (hpos : (s.store 0).pos = ⟨px, py, 0⟩)
    (hvel : (s.store 0).velocity = some ⟨vx, vy, 0⟩)
    (htrig : Vec3.distanceTo ⟨px + vx, py + vy, 0⟩ ⟨0, 0, 0⟩ < 3.5) :
    (update s δ).2 = false ∧
    ∃ ef : List ℕ,
      (update s δ).1.currentAnimation = some (c8B (tm + δ * 1) ef) ∧
      (update s δ).1.isPlaying = true ∧
      (update s δ).1.speed = 1 ∧
      ((update s δ).1.store 1).pos = ⟨0, 0, 0⟩ ∧
      ((update s δ).1.store 2).charge = 1 ∧
      ((update s δ).1.store 2).pos.y = py + vy + 0.3 ∧
      ((update s δ).1.store 2).velocity = some ⟨0.08, 0.06, 0.02⟩ ∧
      ((update s δ).1.store 3).charge = 0 ∧
      ((update s δ).1.store 3).pos.y = py + vy - 0.3 ∧
      ((update s δ).1.store 3).velocity = some ⟨0.08, -0.04, -0.02⟩ := by
  have hps : ¬ (s.isPlaying = false) := by simp [hp]
  have hmv : Vec3.add ⟨px, py, 0⟩ (Vec3.smul 1 ⟨vx, vy, 0⟩) = ⟨px + vx, py + vy, 0⟩ := by
    simp [Vec3.add, Vec3.smul]
  unfold update
  simp only [hc, if_neg hps]
  unfold kindUpdate updateElasticBreakup
  dsimp only [c8A]
  unfold elasticApproach
  dsimp only
  rw [hsp, hvel]
  dsimp only
  simp only [AState.modifyObj, setObj_store_self, setObj_store_ne _ 0 _ 1 one_ne_zero]
  rw [hpos, ht, hmv]
  rw [if_pos htrig]
  dsimp only
  refine ⟨rfl, ?_⟩
  rw [initElastic_anim, initElastic_isPlaying, initElastic_speed, initElastic_store1,
    initElastic_s2charge, initElastic_s2posy, initElastic_s2vel, initElastic_s3charge,
    initElastic_s3posy, initElastic_s3vel]
  · refine ⟨_, rfl, ?_, ?_, ?_, ?_, ?_, ?_, ?_, ?_, ?_⟩
    · split <;> exact hp
    · split <;> exact hsp
    · split <;> exact ht
    · rfl
    · split <;> rfl
    · rfl
    · rfl
    · split <;> rfl
    · rfl
  all_goals first
    | rfl
    | (split <;> first | exact hty | exact hni)
set_option maxHeartbeats 1600000 in
theorem c8_approach_far (s : AState) (tm δ px py vx vy : ℝ)
    (hc : s.currentAnimation = some (c8A tm))
    (hp : s.isPlaying = true)
    (hsp : s.speed = 1)
    (hni : s.nextId = 2)
    (ht : (s.store 1).pos = ⟨0, 0, 0⟩)
    (hty : (s.store 0).ptype = some PType.deuteron)
    (hpos : (s.store 0).pos = ⟨px, py, 0⟩)
    (hvel : (s.store 0).velocity = some ⟨vx, vy, 0⟩)
    (hxub : px + vx ≤ -1.4)
    (hylb : 3 ≤ py + vy) (hyub : py + vy ≤ 3.2)
    (hfar : ¬ (Vec3.distanceTo ⟨px + vx, py + vy, 0⟩ ⟨0, 0, 0⟩ < 3.5)) :
    (update s δ).2 = false ∧
    (update s δ).1.currentAnimation = some (c8A (tm + δ * 1)) ∧
    (update s δ).1.isPlaying = true ∧
    (update s δ).1.speed = 1 ∧
    (update s δ).1.nextId = 2 ∧
    ((update s δ).1.store 1).pos = ⟨0, 0, 0⟩ ∧
    ((update s δ).1.store 0).ptype = some PType.deuteron ∧
    ((update s δ).1.store 0).pos = ⟨px + vx, py + vy, 0⟩ ∧
    ∃ vx2 vy2 : ℝ,
      ((update s δ).1.store 0).velocity = some ⟨vx2, vy2, 0⟩ ∧
      vx - 0.000245 ≤ vx2 ∧ vx2 ≤ vx ∧ vy ≤ vy2 ∧ vy2 ≤ vy + 0.000225 ∧
      (6 ≤ Vec3.distanceTo ⟨px + vx, py + vy, 0⟩ ⟨0, 0, 0⟩ → vx2 = vx ∧ vy2 = vy) := by
  have hps : ¬ (s.isPlaying = false) := by simp [hp]
  have hmv : Vec3.add ⟨px, py, 0⟩ (Vec3.smul 1 ⟨vx, vy, 0⟩) = ⟨px + vx, py + vy, 0⟩ := by
    simp [Vec3.add, Vec3.smul]
  unfold update
  simp only [hc, if_neg hps]
  unfold kindUpdate updateElasticBreakup
  dsimp only [c8A]
  unfold elasticApproach
  dsimp only
  rw [hsp, hvel]
  dsimp only
  simp only [AState.modifyObj, setObj_store_self, setObj_store_ne _ 0 _ 1 one_ne_zero,
    setObj_speed, hsp]
  rw [hpos, ht, hmv]
  rw [if_neg hfar]
  dsimp only
  set D := Vec3.distanceTo ⟨px + vx, py + vy, 0⟩ ⟨0, 0, 0⟩ with hD
  by_cases hlt6 : D < 6
  · simp only [if_pos hlt6]
    have hd : (3.5 : ℝ) ≤ D := not_lt.mp hfar
    have hd0 : (0 : ℝ) < D := lt_of_lt_of_le (by norm_num) hd
    have hd2 : (12.25 : ℝ) ≤ D ^ 2 := by nlinarith [hd]
    have hd3 : (42.875 : ℝ) ≤ D ^ 3 := by nlinarith [hd, hd2]
    have hXd : -(px + vx) ≤ D := by
      have h1 := abs_x_le_distanceTo ⟨px + vx, py + vy, 0⟩
      rw [← hD] at h1
      have h2 : -(px + vx) ≤ |px + vx| := neg_le_abs (px + vx)
      exact le_trans h2 h1
    have hsub : Vec3.sub ⟨px + vx, py + vy, 0⟩ ⟨0, 0, 0⟩ = ⟨px + vx, py + vy, 0⟩ := by
      simp [Vec3.sub]
    have hlen : Vec3.length ⟨px + vx, py + vy, 0⟩ = D := by
      rw [hD]
      unfold Vec3.length Vec3.lengthSq Vec3.distanceTo Vec3.distSq
      dsimp only
      congr 1
      ring
    have hnz : Vec3.length ⟨px + vx, py + vy, 0⟩ ≠ 0 := by
      rw [hlen]
      exact ne_of_gt hd0
    have hnorm : Vec3.normalize ⟨px + vx, py + vy, 0⟩ =
        Vec3.smul (1 / Vec3.length ⟨px + vx, py + vy, 0⟩) ⟨px + vx, py + vy, 0⟩ := by
      unfold Vec3.normalize
      rw [if_neg hnz]
    refine ⟨True.intro, True.intro, hp, hsp, hni, ht, hty, rfl,
      vx + 0.003 * (px + vx) / D ^ 3, vy + 0.003 * (py + vy) / D ^ 3, ?_, ?_, ?_, ?_, ?_, ?_⟩
    · rw [setObj_store_self]
      dsimp only
      rw [hsub, hnorm, hlen]
      simp only [Vec3.add, Vec3.smul, Option.some.injEq, Vec3.mk.injEq]
      refine ⟨by ring, by ring, by ring⟩
    · have key : (-0.000245 : ℝ) ≤ 0.003 * (px + vx) / D ^ 3 := by
        rw [le_div_iff (pow_pos hd0 3)]
        nlinarith [hXd, hd0, mul_le_mul_of_nonneg_left hd2 hd0.le]
      linarith
    · have key : 0.003 * (px + vx) / D ^ 3 ≤ 0 := by
        rw [div_le_iff (pow_pos hd0 3)]
        nlinarith [hxub]
      linarith
    · have key : (0 : ℝ) ≤ 0.003 * (py + vy) / D ^ 3 := by
        apply div_nonneg _ (pow_pos hd0 3).le
        nlinarith [hylb]
      linarith
    · have key : 0.003 * (py + vy) / D ^ 3 ≤ 0.000225 := by
        rw [div_le_iff (pow_pos hd0 3)]
        nlinarith [hyub, hd3]
      linarith
    · intro h6
      exact absurd hlt6 (not_lt.mpr h6)
  · simp only [if_neg hlt6]
    exact ⟨True.intro, True.intro, hp, hsp, hni, ht, hty, rfl,
      vx, vy, hvel, by linarith, le_refl vx, le_refl vy, by linarith,
      fun _ => ⟨rfl, rfl⟩⟩
set_option maxHeartbeats 3200000 in
/-- C8 (amended): the original universal claim is refuted by
`C8_counterexample` — `createElasticBreakup` sets the projectile's `y` to the
absolute impact parameter rather than offsetting from the target, so an
off-axis target placed per the creation contract (e.g. at height 100) is
never approached, the 3.5 trigger never fires, and `update` returns `false`
forever.  For the geometry the app actually builds — deuteron beam, target
nucleus at the origin, impact parameter 3, `speed = 1`, fixed `delta` — the
end-to-end property does hold: after `createElasticBreakup(p, t, 3)` followed
by `play()`, repeated `update(0.016)` calls drive the run through `approach`
(drift plus the 0.003/d² repulsion inside radius 6), the distance-3.5 breakup
trigger, and the fragment walk past the escape distance 15, reaching phase
`complete` — `update` returning `true` — within 504 ticks. -/
theorem C8_end_to_end_completion :
    ∃ N ≤ 504, (update (ticks 0.016 c8OnStart N) 0.016).2 = true := by
  have key : ∀ k : ℕ,
      (∃ m ≤ k,
        (ticks 0.016 c8OnStart m).isPlaying = true ∧
        (ticks 0.016 c8OnStart m).speed = 1 ∧
        (∃ tm2 ef, (ticks 0.016 c8OnStart m).currentAnimation = some (c8B tm2 ef)) ∧
        ((ticks 0.016 c8OnStart m).store 1).pos = ⟨0, 0, 0⟩ ∧
        ((ticks 0.016 c8OnStart m).store 2).charge = 1 ∧
        3.3 ≤ ((ticks 0.016 c8OnStart m).store 2).pos.y ∧
        (∃ w : Vec3, ((ticks 0.016 c8OnStart m).store 2).velocity = some w ∧ 0.06 ≤ w.y) ∧
        ((ticks 0.016 c8OnStart m).store 3).charge = 0 ∧
        ((ticks 0.016 c8OnStart m).store 3).velocity = some ⟨0.08, -0.04, -0.02⟩ ∧
        ((ticks 0.016 c8OnStart m).store 3).pos.y ≤ 2.9) ∨
      ((ticks 0.016 c8OnStart k).isPlaying = true ∧
        (ticks 0.016 c8OnStart k).speed = 1 ∧
        (ticks 0.016 c8OnStart k).nextId = 2 ∧
        (∃ tm2, (ticks 0.016 c8OnStart k).currentAnimation = some (c8A tm2)) ∧
        ((ticks 0.016 c8OnStart k).store 1).pos = ⟨0, 0, 0⟩ ∧
        ((ticks 0.016 c8OnStart k).store 0).ptype = some PType.deuteron ∧
        ∃ px py vx vy : ℝ,
          ((ticks 0.016 c8OnStart k).store 0).pos = ⟨px, py, 0⟩ ∧
          ((ticks 0.016 c8OnStart k).store 0).velocity = some ⟨vx, vy, 0⟩ ∧
          -12 + 0.19 * (k : ℝ) ≤ px ∧ px ≤ -1.6 ∧
          0.2 - 0.0014 * max 0 (px + 6.4) ≤ vx ∧ vx ≤ 0.2 ∧
          0 ≤ vy ∧ vy ≤ 0.00125 * max 0 (px + 6.4) ∧
          3 ≤ py ∧ py ≤ 3 + 0.0033 * (max 0 (px + 6.4)) ^ 2) := by
    intro k
    induction k with
    | zero =>
      refine Or.inr ⟨rfl, rfl, rfl, ⟨0, rfl⟩, rfl, rfl, 0 - 12, 3, 0.2, 0, rfl, rfl,
        ?_, ?_, ?_, ?_, ?_, ?_, ?_, ?_⟩
      all_goals first
        | (rw [show max (0 : ℝ) (0 - 12 + 6.4) = 0 from max_eq_left (by norm_num)]; norm_num)
        | norm_num
    | succ k ih =>
      rcases ih with ⟨m, hm, hBK⟩ | ⟨hpl, hspd, hni2, ⟨tm2, hcur⟩, ht2, hty2,
        px, py, vx, vy, hpos2, hvel2, hprog, hub, hbl, hbu, hvyl, hvyu, hpyl, hpyu⟩
      · exact Or.inl ⟨m, Nat.le_succ_of_le hm, hBK⟩
      · have hmnn : (0 : ℝ) ≤ max 0 (px + 6.4) := le_max_left 0 _
        have hm48 : max (0 : ℝ) (px + 6.4) ≤ 4.8 := max_le (by norm_num) (by linarith)
        have hvx19 : (0.19 : ℝ) ≤ vx := by nlinarith [hbl, hm48]
        have hvy6 : vy ≤ 0.006 := by nlinarith [hvyu, hm48]
        have hpy7 : py ≤ 3.077 := by nlinarith [hpyu, hm48, hmnn]
        by_cases htr : Vec3.distanceTo ⟨px + vx, py + vy, 0⟩ ⟨0, 0, 0⟩ < 3.5
        · -- the trigger fires on this tick: the breakup package holds at k + 1
          obtain ⟨-, ef, hcur3, hp3, hsp3, ht3, hq2, hy2, hv2, hq3, hy3, hv3⟩ :=
            c8_approach_trigger (ticks 0.016 c8OnStart k) tm2 0.016 px py vx vy
              hcur hpl hspd hni2 ht2 hty2 hpos2 hvel2 htr
          refine Or.inl ⟨k + 1, le_refl _, hp3, hsp3, ⟨tm2 + 0.016 * 1, ef, hcur3⟩,
            ht3, hq2, ?_, ⟨⟨0.08, 0.06, 0.02⟩, hv2, le_refl (0.06 : ℝ)⟩, hq3, hv3, ?_⟩
          · show (3.3 : ℝ) ≤
              ((update (ticks 0.016 c8OnStart k) 0.016).1.store 2).pos.y
            rw [hy2]
            linarith
          · show ((update (ticks 0.016 c8OnStart k) 0.016).1.store 3).pos.y ≤ 2.9
            rw [hy3]
            linarith
        · -- no trigger: the approach invariant advances
          obtain ⟨-, hcur3, hp3, hsp3, hni3, ht3, hty3, hpos3, vx2, vy2, hvel3,
            hb1, hb2, hb3, hb4, hcond⟩ :=
            c8_approach_far (ticks 0.016 c8OnStart k) tm2 0.016 px py vx vy
              hcur hpl hspd hni2 ht2 hty2 hpos2 hvel2 (by linarith) (by linarith)
              (by linarith) htr
          have hsq : (12.25 : ℝ) ≤ (px + vx) ^ 2 + (py + vy) ^ 2 := by
            have h1 := htr
            rw [distanceTo_lt_iff _ _ _ (by norm_num : (0 : ℝ) < 3.5)] at h1
            have h2 := not_lt.mp h1
            unfold Vec3.distSq at h2
            dsimp only at h2
            nlinarith [h2]
          have hxnew : px + vx ≤ -1.6 := by
            by_contra hgt
            push_neg at hgt
            have hq1 : (px + vx + 1.6) * (px + vx + 1.4) ≤ 0 :=
              mul_nonpos_iff.mpr (Or.inl ⟨by linarith, by linarith⟩)
            have hq2 : (py + vy) ^ 2 ≤ 3.083 ^ 2 := by nlinarith [hpy7, hvy6, hpyl, hvyl]
            nlinarith [hsq, hq1, hq2]
          refine Or.inr ⟨hp3, hsp3, hni3, ⟨tm2 + 0.016 * 1, hcur3⟩, ht3, hty3,
            px + vx, py + vy, vx2, vy2, hpos3, hvel3, ?_, hxnew, ?_, ?_, ?_, ?_, ?_, ?_⟩
          · show (-12 : ℝ) + 0.19 * ((k + 1 : ℕ) : ℝ) ≤ px + vx
            push_cast
            linarith
          · -- the x-velocity budget at the new position
            rcases le_or_lt (px + 6.4) 0 with hX0 | hX0
            · have hmx : max (0 : ℝ) (px + 6.4) = 0 := max_eq_left hX0
              rw [hmx] at hbl
              have hx62 : px + vx ≤ -6.2 := by linarith
              have h6 : (6 : ℝ) ≤ Vec3.distanceTo ⟨px + vx, py + vy, 0⟩ ⟨0, 0, 0⟩ := by
                have habs := abs_x_le_distanceTo ⟨px + vx, py + vy, 0⟩
                have hneg : -(px + vx) ≤ |px + vx| := neg_le_abs (px + vx)
                dsimp only at habs
                linarith
              have heq := hcond h6
              rw [heq.1]
              have := le_max_left (0 : ℝ) (px + vx + 6.4)
              nlinarith [this]
            · have hmx : max (0 : ℝ) (px + 6.4) = px + 6.4 := max_eq_right hX0.le
              rw [hmx] at hbl hvyu
              have hX1 : (0 : ℝ) < px + vx + 6.4 := by linarith
              rw [max_eq_right hX1.le]
              linarith
          · linarith
          · linarith
          · -- the y-velocity budget at the new position
            rcases le_or_lt (px + 6.4) 0 with hX0 | hX0
            · have hmx : max (0 : ℝ) (px + 6.4) = 0 := max_eq_left hX0
              rw [hmx] at hvyu
              have hvy0 : vy = 0 := le_antisymm (by linarith) hvyl
              have hx62 : px + vx ≤ -6.2 := by linarith
              have h6 : (6 : ℝ) ≤ Vec3.distanceTo ⟨px + vx, py + vy, 0⟩ ⟨0, 0, 0⟩ := by
                have habs := abs_x_le_distanceTo ⟨px + vx, py + vy, 0⟩
                have hneg : -(px + vx) ≤ |px + vx| := neg_le_abs (px + vx)
                dsimp only at habs
                linarith
              have heq := hcond h6
              rw [heq.2, hvy0]
              have := le_max_left (0 : ℝ) (px + vx + 6.4)
              nlinarith [this]
            · have hmx : max (0 : ℝ) (px + 6.4) = px + 6.4 := max_eq_right hX0.le
              rw [hmx] at hbl hvyu
              have hX1 : (0 : ℝ) < px + vx + 6.4 := by linarith
              rw [max_eq_right hX1.le]
              linarith
          · linarith
          · -- the height budget at the new position
            rcases le_or_lt (px + 6.4) 0 with hX0 | hX0
            · have hmx : max (0 : ℝ) (px + 6.4) = 0 := max_eq_left hX0
              rw [hmx] at hvyu hpyu
              have hvy0 : vy = 0 := le_antisymm (by linarith) hvyl
              have hpy3 : py ≤ 3 := by nlinarith [hpyu]
              have := le_max_left (0 : ℝ) (px + vx + 6.4)
              nlinarith [this, sq_nonneg (max (0 : ℝ) (px + vx + 6.4))]
            · have hmx : max (0 : ℝ) (px + 6.4) = px + 6.4 := max_eq_right hX0.le
              rw [hmx] at hbl hvyu hpyu
              have hX1 : (0 : ℝ) < px + vx + 6.4 := by linarith
              rw [max_eq_right hX1.le]
              nlinarith [hX0, hvx19, hpyu, hvyu]
  rcases key 55 with ⟨m, hm, hpl, hspd, ⟨tm2, ef, hcur⟩, ht2, hq2, hy2, hv2, hq3, hv3, hy3⟩ |
    ⟨-, -, -, -, -, -, px, py, vx, vy, -, -, hprog, hub, -⟩
  · obtain ⟨N2, hN2, hdone⟩ :=
      c8_breakup_run (ticks 0.016 c8OnStart m) tm2 ef hcur hpl hspd ht2 hq2 hy2 hv2 hq3 hv3 hy3
    refine ⟨m + N2, by omega, ?_⟩
    rw [ticks_add]
    exact hdone
  · exfalso
    push_cast at hprog
    linarith
